import Mathlib

/-!
# DiligentCore resource-binding records

A shallow embedding of the bit-packed binding records of
`Graphics/GraphicsEngineD3D11/include/PipelineResourceAttribsD3D11.hpp` and
`Graphics/GraphicsEngineVulkan/include/PipelineResourceAttribsVk.hpp`, of the
memory-block bookkeeping of `ShaderVariableManagerD3D11.hpp`, of the equality
operators of `BufferView.h` and `ArchiverFactory.h`, of the hash combiners of
`Common/interface/HashUtils.hpp`, of the pending clears of
`Graphics/GraphicsEngineWebGPU/include/DeviceContextWebGPUImpl.hpp`, and of the
alignment, bit-scan and byte-swap helpers as their tests describe them.

Machine integers are natural numbers reduced explicitly modulo `2 ^ w`.
Operations that carry `VERIFY` / `VERIFY_EXPR` checks return `Except Fault _`:
the value `.error f` says that the check `f` failed (the spec calls this a
fatal assertion), `.ok v` that every check passed and the body produced `v`.
-/

namespace Diligent

/-- Checks of the embedded code that can stop an operation. -/
inductive Fault where
  /-- `IsStageActive`: the active bit and the stored slot disagree. -/
  | StageInvariantBroken
  /-- `operator[] const`: "Requesting bind point for inactive shader stage." -/
  | InactiveStage
  /-- `operator+`: `Bindings[ShaderInd] + value < InvalidBindPoint` failed. -/
  | ShiftOutOfRange
  /-- `Set`: `ShaderInd < NumShaderTypes` failed. -/
  | ShaderIndOutOfRange
  /-- `Set`: "Bind point ( .. ) is out of range." -/
  | BindPointOutOfRange
  /-- An index outside a `std::array`. -/
  | ArrayIndexOutOfBounds
  /-- `D3D11ResourceRangeCounters::operator[]`: `Stage < NumShaderTypes` failed. -/
  | CounterStageOutOfRange
  /-- `D3D11ResourceRangeCounters::operator+=`: "The resulting value ( .. ) is out of range." -/
  | CounterSumOutOfRange
  /-- `D3D11ResourceRangeCounters::Set`: `Counter <= MaxCounter` failed. -/
  | CounterOutOfRange
  /-- `PipelineResourceAttribsD3D11`: "Sampler index ( .. ) exceeds maximum representable value." -/
  | SamplerIndTruncated
  /-- A shift by at least the width of the shifted word (undefined in C++). -/
  | ShiftExceedsWidth
  /-- The stage loop of `operator+` used up its iteration budget (sixteen
  rounds, one per bit of the `UInt16` mask). -/
  | LoopBudget
  /-- `PipelineResourceAttribsVk`: "Binding index ( .. ) exceeds maximum representable value". -/
  | BindingIndexTruncated
  /-- `PipelineResourceAttribsVk`: "Array size ( .. ) exceeds maximum representable value". -/
  | ArraySizeTruncated
  /-- `PipelineResourceAttribsVk`: "Descriptor type ( .. ) exceeds maximum representable value". -/
  | DescrTypeTruncated
  /-- `PipelineResourceAttribsVk`: "Descriptor set ( .. ) exceeds maximum representable value". -/
  | DescrSetTruncated
  /-- `UNSUPPORTED`: "Dynamic offset may only be set for constant buffers." -/
  | Unsupported
  /-- `UNEXPECTED`: "Unknown descriptor type". -/
  | UnexpectedDescriptorType
  /-- A hash combiner met a null array with a non-zero element count. -/
  | CountWithoutArray
  /-- `GetResource`: "Resource index ( .. ) must be less than ( .. )". -/
  | ResourceIndexOutOfRange
  /-- `Initialize`: a byte offset does not fit the `UInt16` offset members. The
  block layout is a contract of the caller; spec 7 has such violations
  "signaled via fatal assertion". -/
  | OffsetOutOfRange
  deriving DecidableEq, Repr

/-- `SHADER_TYPE_UNKNOWN`, the empty stage set. -/
def SHADER_TYPE_UNKNOWN : Nat := 0

/-- Index of the lowest set bit among the bits `start, start+1, ..` of `v`,
looking at `n` positions; `start + n` when none of them is set. -/
def lowestBitFrom (v : Nat) : Nat → Nat → Nat
  | 0, start => start
  | n + 1, start => if v.testBit start then start else lowestBitFrom v n (start + 1)

/-- Modelled from the spec: `PlatformMisc::GetLSB` for a 32-bit word is not
among the sources; its test (`PlatformMiscTest.cpp`, `TestMSB_LSB`) fixes it as
the index of the lowest set bit, and `32` for zero. -/
def GetLSB (v : Nat) : Nat := lowestBitFrom v 32 0

/-- Modelled from the spec: `GetShaderTypeFromIndex` is declared in
`GraphicsAccessories.hpp`, which is not among the sources; stage `i` is the
stage whose bit is bit `i` of the active-stage mask (see `Set`, which marks
stage `ShaderInd` with `UInt32(1) << ShaderInd`). -/
def GetShaderTypeFromIndex (Index : Nat) : Nat := (1 <<< Index) % 2 ^ 32

/-- Modelled from the spec: `ExtractFirstShaderStageIndex` is declared in
`GraphicsAccessories.hpp`, which is not among the sources. The shift visits
"every active stage" (spec 4.1), so the helper returns the index of the lowest
stage bit of `Stages` together with `Stages` without that bit, and `-1` for the
empty set. -/
def ExtractFirstShaderStageIndex (Stages : Nat) : Int × Nat :=
  if Stages = SHADER_TYPE_UNKNOWN then (-1, Stages)
  else
    let StageIndex := GetLSB Stages
    ((StageIndex : Int), Stages &&& ((2 ^ 32 - 1) ^^^ ((1 <<< StageIndex) % 2 ^ 32)))

/-- Resource binding points in all shader stages: six `UInt8` slots and a
`UInt16` mask of the active stages. -/
structure D3D11ResourceBindPoints where
  Bindings : Fin 6 → Nat
  ActiveStages : Nat

namespace D3D11ResourceBindPoints

/-- The number of different shader types. -/
def NumShaderTypes : Nat := 6

/-- The sentinel stored for a stage that has no bind point. -/
def InvalidBindPoint : Nat := 0xFF

/-- The default constructor: the member initialisers store the sentinel in
every slot and clear the mask; its debug loop only re-reads the slots. -/
def default : D3D11ResourceBindPoints :=
  { Bindings := fun _ => InvalidBindPoint, ActiveStages := 0 }

def GetActiveStages (R : D3D11ResourceBindPoints) : Nat := R.ActiveStages

def IsEmpty (R : D3D11ResourceBindPoints) : Bool :=
  R.GetActiveStages == SHADER_TYPE_UNKNOWN

/-- `IsStageActive`: the active bit of the stage, after checking that it agrees
with the stored slot. -/
def IsStageActive (R : D3D11ResourceBindPoints) (ShaderInd : Nat) : Except Fault Bool :=
  if h : ShaderInd < 6 then
    let IsActive := (R.GetActiveStages &&& GetShaderTypeFromIndex ShaderInd) != 0
    if (IsActive && R.Bindings ⟨ShaderInd, h⟩ != InvalidBindPoint) ||
        (!IsActive && R.Bindings ⟨ShaderInd, h⟩ == InvalidBindPoint) then
      .ok IsActive
    else .error .StageInvariantBroken
  else .error .ArrayIndexOutOfBounds

/-- `operator[] const`: the bind point of an active stage. -/
def operator_index (R : D3D11ResourceBindPoints) (ShaderInd : Nat) : Except Fault Nat :=
  match R.IsStageActive ShaderInd with
  | .error f => .error f
  | .ok false => .error .InactiveStage
  | .ok true =>
    if h : ShaderInd < 6 then .ok (R.Bindings ⟨ShaderInd, h⟩)
    else .error .ArrayIndexOutOfBounds

/-- `Set`: stores the bind point of one stage and marks the stage active;
returns the stored byte. -/
def Set (R : D3D11ResourceBindPoints) (ShaderInd BindPoint : Nat) :
    Except Fault (Nat × D3D11ResourceBindPoints) :=
  if h : ShaderInd < NumShaderTypes then
    if BindPoint < InvalidBindPoint then
      .ok (BindPoint % 2 ^ 8,
        { Bindings := Function.update R.Bindings ⟨ShaderInd, h⟩ (BindPoint % 2 ^ 8)
          ActiveStages := (R.ActiveStages ||| (1 <<< ShaderInd) % 2 ^ 32) % 2 ^ 16 })
    else .error .BindPointOutOfRange
  else .error .ShaderIndOutOfRange

/-- `StageAccessor::operator=(UInt32)`, reached through the non-const
`operator[]`. -/
def StageAccessor_assign (R : D3D11ResourceBindPoints) (ShaderInd BindPoint : Nat) :
    Except Fault (Nat × D3D11ResourceBindPoints) :=
  R.Set ShaderInd BindPoint

/-- `StageAccessor::operator UInt8() const`. -/
def StageAccessor_read (R : D3D11ResourceBindPoints) (ShaderInd : Nat) : Except Fault Nat :=
  R.operator_index ShaderInd

/-- The loop of `operator+`: `Stages` is the set of stages still to visit,
`New` the slots of the record under construction. -/
def shiftLoop (Bindings : Fin 6 → Nat) (value : Nat) :
    Nat → Nat → (Fin 6 → Nat) → Except Fault (Fin 6 → Nat)
  | 0, Stages, New =>
    if Stages = SHADER_TYPE_UNKNOWN then .ok New else .error .LoopBudget
  | budget + 1, Stages, New =>
    if Stages = SHADER_TYPE_UNKNOWN then .ok New
    else
      let ShaderInd := (ExtractFirstShaderStageIndex Stages).1
      let Rest := (ExtractFirstShaderStageIndex Stages).2
      if h : 0 ≤ ShaderInd ∧ ShaderInd.toNat < 6 then
        if (Bindings ⟨ShaderInd.toNat, h.2⟩ + value) % 2 ^ 32 < InvalidBindPoint then
          shiftLoop Bindings value budget Rest
            (Function.update New ⟨ShaderInd.toNat, h.2⟩
              ((Bindings ⟨ShaderInd.toNat, h.2⟩ + value % 2 ^ 8) % 2 ^ 8))
        else .error .ShiftOutOfRange
      else .error .ArrayIndexOutOfBounds

/-- `operator+(UInt32)`: a copy with `value` added to the bind point of every
active stage. -/
def operator_plus (R : D3D11ResourceBindPoints) (value : Nat) :
    Except Fault D3D11ResourceBindPoints :=
  match shiftLoop R.Bindings value 16 R.GetActiveStages R.Bindings with
  | .error f => .error f
  | .ok New => .ok { Bindings := New, ActiveStages := R.ActiveStages }

/-- `operator==`: compares the six slots. -/
def operator_eq (R rhs : D3D11ResourceBindPoints) : Bool :=
  decide (∀ i : Fin 6, R.Bindings i = rhs.Bindings i)

/-- `GetHash`: folds the six slots, lowest stage first, into a seed of zero.
`HashCombine` (declared outside the sources) is a parameter. -/
def GetHash (HashCombine : Nat → Nat → Nat) (R : D3D11ResourceBindPoints) : Nat :=
  (List.finRange 6).foldl (fun Hash i => HashCombine Hash (R.Bindings i)) 0

/-- The record invariant of spec section 3: a stage is active exactly when its
slot differs from the sentinel; stage bits without a slot are never set. -/
def Invariant (R : D3D11ResourceBindPoints) : Prop :=
  R.ActiveStages < 2 ^ 6 ∧
    ∀ i : Fin 6, R.ActiveStages.testBit i = true ↔ R.Bindings i ≠ InvalidBindPoint

/-- A sequence of `Set` calls, each given as (stage, bind point), applied from
left to right; stops at the first call whose check fails. -/
def applySets : D3D11ResourceBindPoints → List (Nat × Nat) →
    Except Fault D3D11ResourceBindPoints
  | R, [] => .ok R
  | R, call :: rest =>
    match R.Set call.1 call.2 with
    | .error f => .error f
    | .ok res => applySets res.2 rest

/-- Records that a program can build: it starts from the default constructor
and applies `Set` and `operator+` calls whose checks pass. -/
inductive Reachable : D3D11ResourceBindPoints → Prop
  | start : Reachable D3D11ResourceBindPoints.default
  | afterSet {R R' : D3D11ResourceBindPoints} (ShaderInd BindPoint ret : Nat) :
      Reachable R → R.Set ShaderInd BindPoint = .ok (ret, R') → Reachable R'
  | afterShift {R R' : D3D11ResourceBindPoints} (value : Nat) :
      Reachable R → R.operator_plus value = .ok R' → Reachable R'

/-- A record with stage 0 bound to slot 3 and stage 2 bound to slot 7. -/
def sample : D3D11ResourceBindPoints :=
  { Bindings := Function.update (Function.update D3D11ResourceBindPoints.default.Bindings 0 3) 2 7
    ActiveStages := 5 }

end D3D11ResourceBindPoints

/-- Shader resource counters for one specific resource range: one `UInt64`
holding an 8-bit counter per stage. -/
structure D3D11ResourceRangeCounters where
  PackedCounters : Nat

namespace D3D11ResourceRangeCounters

def NumShaderTypes : Nat := D3D11ResourceBindPoints.NumShaderTypes

def NumBitsPerStage : Nat := 8

def StageMask : Nat := ((1 <<< NumBitsPerStage) % 2 ^ 64 - 1) % 2 ^ 64

def MaxCounter : Nat := ((1 <<< NumBitsPerStage) % 2 ^ 32 - 1) % 2 ^ 32

/-- The default member initialiser `PackedCounters = 0`. -/
def default : D3D11ResourceRangeCounters := { PackedCounters := 0 }

/-- The body of `operator[] const`:
`(PackedCounters >> (NumBitsPerStage * Stage)) & StageMask`, narrowed to
`UInt8`. -/
def counter (C : D3D11ResourceRangeCounters) (Stage : Nat) : Nat :=
  ((C.PackedCounters >>> (NumBitsPerStage * Stage)) &&& StageMask) % 2 ^ 8

/-- `operator[] const` with its check `Stage < NumShaderTypes`. -/
def operator_index (C : D3D11ResourceRangeCounters) (Stage : Nat) : Except Fault Nat :=
  if Stage < NumShaderTypes then .ok (C.counter Stage) else .error .CounterStageOutOfRange

/-- The statement `PackedCounters += rhs.PackedCounters` on `UInt64`. -/
def packedAdd (C rhs : D3D11ResourceRangeCounters) : D3D11ResourceRangeCounters :=
  { PackedCounters := (C.PackedCounters + rhs.PackedCounters) % 2 ^ 64 }

/-- The debug loop of `operator+=`, from stage `s` on, `n` stages: every
stage-wise sum must be at most `MaxCounter`. -/
def sumsInRange (C rhs : D3D11ResourceRangeCounters) : Nat → Nat → Bool
  | 0, _ => true
  | n + 1, s =>
    let val0 := C.counter s
    let val1 := rhs.counter s
    if (val0 + val1) % 2 ^ 32 ≤ MaxCounter then sumsInRange C rhs n (s + 1) else false

/-- `operator+=`: the debug check over the six stages, then one 64-bit
addition of the packed words. -/
def operator_plus_assign (C rhs : D3D11ResourceRangeCounters) :
    Except Fault D3D11ResourceRangeCounters :=
  if sumsInRange C rhs NumShaderTypes 0 then .ok (C.packedAdd rhs)
  else .error .CounterSumOutOfRange

/-- `operator==`. -/
def operator_eq (C rhs : D3D11ResourceRangeCounters) : Bool :=
  C.PackedCounters == rhs.PackedCounters

/-- `Set`: clears the bit field of the stage, then writes the counter; returns
the counter narrowed to `UInt8`. -/
def Set (C : D3D11ResourceRangeCounters) (ShaderInd Counter : Nat) :
    Except Fault (Nat × D3D11ResourceRangeCounters) :=
  if Counter ≤ MaxCounter then
    let BitOffset := (NumBitsPerStage * ShaderInd) % 2 ^ 64
    if BitOffset < 64 then
      let cleared := C.PackedCounters &&& ((2 ^ 64 - 1) ^^^ ((StageMask <<< BitOffset) % 2 ^ 64))
      .ok (Counter % 2 ^ 8,
        { PackedCounters := cleared ||| ((Counter <<< BitOffset) % 2 ^ 64) })
    else .error .ShiftExceedsWidth
  else .error .CounterOutOfRange

/-- `StageAccessor::operator+=(UInt32)`. -/
def StageAccessor_add (C : D3D11ResourceRangeCounters) (ShaderInd Val : Nat) :
    Except Fault (Nat × D3D11ResourceRangeCounters) :=
  match C.operator_index ShaderInd with
  | .error f => .error f
  | .ok CurrValue => C.Set ShaderInd ((CurrValue + Val) % 2 ^ 32)

end D3D11ResourceRangeCounters

/-- The D3D11 attribute record: a 31-bit sampler index, a 1-bit
immutable-sampler flag and the bind points. -/
structure PipelineResourceAttribsD3D11 where
  SamplerInd : Nat
  ImtblSamplerAssigned : Nat
  BindPoints : D3D11ResourceBindPoints

namespace PipelineResourceAttribsD3D11

def _SamplerIndBits : Nat := 31

def InvalidSamplerInd : Nat := ((1 <<< _SamplerIndBits) % 2 ^ 32 - 1) % 2 ^ 32

/-- The three-argument constructor: the sampler index is narrowed to its bit
field and checked against the argument. -/
def construct (_BindPoints : D3D11ResourceBindPoints) (_SamplerInd : Nat)
    (_ImtblSamplerAssigned : Bool) : Except Fault PipelineResourceAttribsD3D11 :=
  let SamplerInd := _SamplerInd % 2 ^ _SamplerIndBits
  if SamplerInd = _SamplerInd then
    .ok { SamplerInd := SamplerInd
          ImtblSamplerAssigned := if _ImtblSamplerAssigned then 1 else 0
          BindPoints := _BindPoints }
  else .error .SamplerIndTruncated

/-- The default constructor ("Only for serialization"). -/
def construct_default : Except Fault PipelineResourceAttribsD3D11 :=
  construct D3D11ResourceBindPoints.default 0 false

def IsSamplerAssigned (a : PipelineResourceAttribsD3D11) : Bool :=
  a.SamplerInd != InvalidSamplerInd

def IsImmutableSamplerAssigned (a : PipelineResourceAttribsD3D11) : Bool :=
  a.ImtblSamplerAssigned != 0

/-- `IsCompatibleWith`: "Ignore assigned sampler index." -/
def IsCompatibleWith (a rhs : PipelineResourceAttribsD3D11) : Bool :=
  (a.IsImmutableSamplerAssigned == rhs.IsImmutableSamplerAssigned) &&
    a.BindPoints.operator_eq rhs.BindPoints

/-- `GetHash`; `ComputeHash` over a flag and a hash value and `HashCombine`
are declared outside the sources and are parameters. -/
def GetHash (ComputeHash : Bool → Nat → Nat) (HashCombine : Nat → Nat → Nat)
    (a : PipelineResourceAttribsD3D11) : Nat :=
  ComputeHash a.IsImmutableSamplerAssigned (a.BindPoints.GetHash HashCombine)

end PipelineResourceAttribsD3D11

/-- The Vulkan attribute record: bit fields of 16, 16, 25, 5, 1 and 1 bits and
two 32-bit cache offsets. -/
structure PipelineResourceAttribsVk where
  BindingIndex : Nat
  SamplerInd : Nat
  ArraySize : Nat
  DescrType : Nat
  DescrSet : Nat
  ImtblSamplerAssigned : Nat
  SRBCacheOffset : Nat
  StaticCacheOffset : Nat

namespace PipelineResourceAttribsVk

/-- `IsCompatibleWith`: "Ignore sampler index and cache offsets." -/
def IsCompatibleWith (a rhs : PipelineResourceAttribsVk) : Bool :=
  a.BindingIndex == rhs.BindingIndex &&
    a.ArraySize == rhs.ArraySize &&
    a.DescrType == rhs.DescrType &&
    a.DescrSet == rhs.DescrSet &&
    a.ImtblSamplerAssigned == rhs.ImtblSamplerAssigned

end PipelineResourceAttribsVk

/-- Outcome of code that reports through a debug macro (`UNSUPPORTED`,
`UNEXPECTED`) and then carries on: the report, if any, and what the code
leaves behind. -/
structure Reported (α : Type) where
  signal : Option Fault
  value : α

/-! ## Shader-variable manager -/

/-- The six binding-info entry types, in the canonical order of the memory
block. -/
inductive ResourceCategory where
  | ConstBuffBindInfo
  | TexSRVBindInfo
  | TexUAVBindInfo
  | BuffSRVBindInfo
  | BuffUAVBindInfo
  | SamplerBindInfo
  deriving DecidableEq, Repr

/-- The members of `ShaderVariableManagerD3D11` that describe the memory
block: five `UInt16` offsets in bytes, the `UInt16` block size and the `UInt8`
shader type index. -/
structure ShaderVariableManagerD3D11 where
  m_TexSRVsOffset : Nat
  m_TexUAVsOffset : Nat
  m_BuffSRVsOffset : Nat
  m_BuffUAVsOffset : Nat
  m_SamplerOffset : Nat
  m_MemorySize : Nat
  m_ShaderTypeIndex : Nat

namespace ShaderVariableManagerD3D11

/-- The expression `(hi - lo) / sizeof(T)` of the `GetNum..` getters: the two
`UInt16` operands are promoted to `int`, their difference is converted to
`size_t` for the division, and the quotient is narrowed to the `UInt32` return
type. -/
def entriesBetween (lo hi size : Nat) : Nat :=
  ((((hi : Int) - (lo : Int)) % (2 : Int) ^ 64).toNat / size) % 2 ^ 32

/-- `GetNumCBs`; `sizeof` gives the size in bytes of each entry type. -/
def GetNumCBs (sizeof : ResourceCategory → Nat) (M : ShaderVariableManagerD3D11) : Nat :=
  entriesBetween 0 M.m_TexSRVsOffset (sizeof .ConstBuffBindInfo)

def GetNumTexSRVs (sizeof : ResourceCategory → Nat) (M : ShaderVariableManagerD3D11) : Nat :=
  entriesBetween M.m_TexSRVsOffset M.m_TexUAVsOffset (sizeof .TexSRVBindInfo)

def GetNumTexUAVs (sizeof : ResourceCategory → Nat) (M : ShaderVariableManagerD3D11) : Nat :=
  entriesBetween M.m_TexUAVsOffset M.m_BuffSRVsOffset (sizeof .TexUAVBindInfo)

def GetNumBufSRVs (sizeof : ResourceCategory → Nat) (M : ShaderVariableManagerD3D11) : Nat :=
  entriesBetween M.m_BuffSRVsOffset M.m_BuffUAVsOffset (sizeof .BuffSRVBindInfo)

def GetNumBufUAVs (sizeof : ResourceCategory → Nat) (M : ShaderVariableManagerD3D11) : Nat :=
  entriesBetween M.m_BuffUAVsOffset M.m_SamplerOffset (sizeof .BuffUAVBindInfo)

def GetNumSamplers (sizeof : ResourceCategory → Nat) (M : ShaderVariableManagerD3D11) : Nat :=
  entriesBetween M.m_SamplerOffset M.m_MemorySize (sizeof .SamplerBindInfo)

/-- The specialisations of `GetNumResources<ResourceType>()`. -/
def GetNumResources (sizeof : ResourceCategory → Nat) (M : ShaderVariableManagerD3D11) :
    ResourceCategory → Nat
  | .ConstBuffBindInfo => M.GetNumCBs sizeof
  | .TexSRVBindInfo => M.GetNumTexSRVs sizeof
  | .TexUAVBindInfo => M.GetNumTexUAVs sizeof
  | .BuffSRVBindInfo => M.GetNumBufSRVs sizeof
  | .BuffUAVBindInfo => M.GetNumBufUAVs sizeof
  | .SamplerBindInfo => M.GetNumSamplers sizeof

/-- The specialisations of `GetResourceOffset<ResourceType>()`. -/
def GetResourceOffset (M : ShaderVariableManagerD3D11) : ResourceCategory → Nat
  | .ConstBuffBindInfo => 0
  | .TexSRVBindInfo => M.m_TexSRVsOffset
  | .TexUAVBindInfo => M.m_TexUAVsOffset
  | .BuffSRVBindInfo => M.m_BuffSRVsOffset
  | .BuffUAVBindInfo => M.m_BuffUAVsOffset
  | .SamplerBindInfo => M.m_SamplerOffset

/-- Modelled from the spec: the bytes that one pass of `Initialize` over the
filtered resource list emits for one category. `Initialize` is only declared in
the sources; spec 4.4 has it "iterating the filtered resource list exactly once
per category", emitting one entry of that category's size per resource. -/
def emittedBytes (sizeof : ResourceCategory → Nat) (Resources : List ResourceCategory)
    (cat : ResourceCategory) : Nat :=
  Resources.foldl (fun bytes r => if r = cat then bytes + sizeof cat else bytes) 0

/-- Modelled from the spec: `GetRequiredMemorySize` is only declared in the
sources; spec 4.4 makes it a pure function of the signature that produces
"exactly the size later consumed by `Initialize`", that is the bytes of all six
categories. `Resources` is the signature's resource list after the filter by
allowed variable types and shader type. -/
def GetRequiredMemorySize (sizeof : ResourceCategory → Nat)
    (Resources : List ResourceCategory) : Nat :=
  emittedBytes sizeof Resources .ConstBuffBindInfo +
    emittedBytes sizeof Resources .TexSRVBindInfo +
    emittedBytes sizeof Resources .TexUAVBindInfo +
    emittedBytes sizeof Resources .BuffSRVBindInfo +
    emittedBytes sizeof Resources .BuffUAVBindInfo +
    emittedBytes sizeof Resources .SamplerBindInfo

/-- Modelled from the spec: `Initialize` is only declared in the sources; spec
4.4 has it visit the categories "in the fixed canonical category order,
recording each category's starting byte offset as entries are emitted". The
offsets are recorded in the `UInt16` members of the class; a block whose
offsets do not fit them is a programming error, which spec 7 has "signaled via
fatal assertion": no manager is produced then. -/
def Initialize (sizeof : ResourceCategory → Nat) (Resources : List ResourceCategory)
    (ShaderTypeIndex : Nat) : Except Fault ShaderVariableManagerD3D11 :=
  let TexSRVs := emittedBytes sizeof Resources .ConstBuffBindInfo
  let TexUAVs := TexSRVs + emittedBytes sizeof Resources .TexSRVBindInfo
  let BuffSRVs := TexUAVs + emittedBytes sizeof Resources .TexUAVBindInfo
  let BuffUAVs := BuffSRVs + emittedBytes sizeof Resources .BuffSRVBindInfo
  let Samplers := BuffUAVs + emittedBytes sizeof Resources .BuffUAVBindInfo
  let MemorySize := Samplers + emittedBytes sizeof Resources .SamplerBindInfo
  if MemorySize < 2 ^ 16 then
    .ok { m_TexSRVsOffset := TexSRVs
          m_TexUAVsOffset := TexUAVs
          m_BuffSRVsOffset := BuffSRVs
          m_BuffUAVsOffset := BuffUAVs
          m_SamplerOffset := Samplers
          m_MemorySize := MemorySize
          m_ShaderTypeIndex := ShaderTypeIndex % 2 ^ 8 }
  else .error .OffsetOutOfRange

/-- Entry sizes used in examples: 24 bytes for every entry type. -/
def sampleSizes : ResourceCategory → Nat := fun _ => 24

end ShaderVariableManagerD3D11

/-- The part of `HLSLShaderResourceDesc` that `GetHLSLResourceDesc` assigns
itself, and the rest of the description as `α`. -/
structure HLSLShaderResourceDesc (α : Type) where
  base : α
  ShaderRegister : Nat

namespace ShaderVariableD3D11Base

/-- `GetHLSLResourceDesc`: fills the description through `GetResourceDesc`,
then stores the bind point of the manager's shader stage. `GetResourceDesc` of
the base class and the manager's `GetResourceAttribs` are declared outside the
sources and are parameters. -/
def GetHLSLResourceDesc {α : Type}
    (GetResourceDesc : HLSLShaderResourceDesc α → HLSLShaderResourceDesc α)
    (GetResourceAttribs : Nat → PipelineResourceAttribsD3D11)
    (m_ParentManager : ShaderVariableManagerD3D11) (m_ResIndex : Nat)
    (HLSLResDesc : HLSLShaderResourceDesc α) : Except Fault (HLSLShaderResourceDesc α) :=
  let filled := GetResourceDesc HLSLResDesc
  match (GetResourceAttribs m_ResIndex).BindPoints.operator_index
      m_ParentManager.m_ShaderTypeIndex with
  | .error f => .error f
  | .ok BindPoint => .ok { filled with ShaderRegister := BindPoint }

/-- `ShaderVariableD3D11Base::SetDynamicOffset`: reports `UNSUPPORTED` and
touches nothing; `state` stands for everything the call could reach. -/
def SetDynamicOffset {σ : Type} (state : σ) (_ArrayIndex _DynamicOffset : Nat) : Reported σ :=
  { signal := some .Unsupported, value := state }

end ShaderVariableD3D11Base

namespace ResourceCategory

/-- Whether the entry type declares a `SetDynamicOffset` of its own, hiding
the one of `ShaderVariableD3D11Base`: only `ConstBuffBindInfo` does. -/
def declaresSetDynamicOffset : ResourceCategory → Bool
  | .ConstBuffBindInfo => true
  | .TexSRVBindInfo => false
  | .TexUAVBindInfo => false
  | .BuffSRVBindInfo => false
  | .BuffUAVBindInfo => false
  | .SamplerBindInfo => false

/-- The `SetDynamicOffset` that a call on an entry of the given type reaches:
the type's own member when it declares one, the base member otherwise.
`ConstBuffBindInfo::SetDynamicOffset` is defined outside the sources and is a
parameter. -/
def SetDynamicOffset {σ : Type} (ConstBuffSetDynamicOffset : σ → Nat → Nat → Reported σ)
    (cat : ResourceCategory) (state : σ) (ArrayIndex DynamicOffset : Nat) : Reported σ :=
  if cat.declaresSetDynamicOffset then ConstBuffSetDynamicOffset state ArrayIndex DynamicOffset
  else ShaderVariableD3D11Base.SetDynamicOffset state ArrayIndex DynamicOffset

end ResourceCategory

/-! ## Vulkan attribute record: constructor and descriptor types -/

namespace DescriptorType

/-- The first enumerator of `enum class DescriptorType : UInt8`; the others
follow by value. -/
def Sampler : Nat := 0
def CombinedImageSampler : Nat := 1
def SeparateImage : Nat := 2
def StorageImage : Nat := 3
def UniformTexelBuffer : Nat := 4
def StorageTexelBuffer : Nat := 5
def StorageTexelBuffer_ReadOnly : Nat := 6
def UniformBuffer : Nat := 7
def UniformBufferDynamic : Nat := 8
def StorageBuffer : Nat := 9
def StorageBuffer_ReadOnly : Nat := 10
def StorageBufferDynamic : Nat := 11
def StorageBufferDynamic_ReadOnly : Nat := 12
def InputAttachment : Nat := 13
def InputAttachment_General : Nat := 14
def AccelerationStructure : Nat := 15
def Count : Nat := 16
def Unknown : Nat := 31

/-- The enumerators declared before `Count`, in declaration order. -/
def recognized : List Nat :=
  [Sampler, CombinedImageSampler, SeparateImage, StorageImage, UniformTexelBuffer,
   StorageTexelBuffer, StorageTexelBuffer_ReadOnly, UniformBuffer, UniformBufferDynamic,
   StorageBuffer, StorageBuffer_ReadOnly, StorageBufferDynamic, StorageBufferDynamic_ReadOnly,
   InputAttachment, InputAttachment_General, AccelerationStructure]

end DescriptorType

/-- The Vulkan descriptor types named by `DescriptorTypeToVkDescriptorType`.
The Vulkan header is outside the repository; its enumerators are distinct
values, which is all the embedding uses. -/
inductive VkDescriptorType where
  | VK_DESCRIPTOR_TYPE_SAMPLER
  | VK_DESCRIPTOR_TYPE_COMBINED_IMAGE_SAMPLER
  | VK_DESCRIPTOR_TYPE_SAMPLED_IMAGE
  | VK_DESCRIPTOR_TYPE_STORAGE_IMAGE
  | VK_DESCRIPTOR_TYPE_UNIFORM_TEXEL_BUFFER
  | VK_DESCRIPTOR_TYPE_STORAGE_TEXEL_BUFFER
  | VK_DESCRIPTOR_TYPE_UNIFORM_BUFFER
  | VK_DESCRIPTOR_TYPE_UNIFORM_BUFFER_DYNAMIC
  | VK_DESCRIPTOR_TYPE_STORAGE_BUFFER
  | VK_DESCRIPTOR_TYPE_STORAGE_BUFFER_DYNAMIC
  | VK_DESCRIPTOR_TYPE_INPUT_ATTACHMENT
  | VK_DESCRIPTOR_TYPE_ACCELERATION_STRUCTURE_KHR
  | VK_DESCRIPTOR_TYPE_MAX_ENUM
  deriving DecidableEq, Repr

/-- `DescriptorTypeToVkDescriptorType`: the switch over the sixteen kinds; the
`default` branch reports `UNEXPECTED` and returns
`VK_DESCRIPTOR_TYPE_MAX_ENUM`. The argument is the `UInt8` value of the
enumeration. -/
def DescriptorTypeToVkDescriptorType (Ty : Nat) : Reported VkDescriptorType :=
  if Ty = DescriptorType.Sampler then ⟨none, .VK_DESCRIPTOR_TYPE_SAMPLER⟩
  else if Ty = DescriptorType.CombinedImageSampler then
    ⟨none, .VK_DESCRIPTOR_TYPE_COMBINED_IMAGE_SAMPLER⟩
  else if Ty = DescriptorType.SeparateImage then ⟨none, .VK_DESCRIPTOR_TYPE_SAMPLED_IMAGE⟩
  else if Ty = DescriptorType.StorageImage then ⟨none, .VK_DESCRIPTOR_TYPE_STORAGE_IMAGE⟩
  else if Ty = DescriptorType.UniformTexelBuffer then
    ⟨none, .VK_DESCRIPTOR_TYPE_UNIFORM_TEXEL_BUFFER⟩
  else if Ty = DescriptorType.StorageTexelBuffer then
    ⟨none, .VK_DESCRIPTOR_TYPE_STORAGE_TEXEL_BUFFER⟩
  else if Ty = DescriptorType.StorageTexelBuffer_ReadOnly then
    ⟨none, .VK_DESCRIPTOR_TYPE_STORAGE_TEXEL_BUFFER⟩
  else if Ty = DescriptorType.UniformBuffer then ⟨none, .VK_DESCRIPTOR_TYPE_UNIFORM_BUFFER⟩
  else if Ty = DescriptorType.UniformBufferDynamic then
    ⟨none, .VK_DESCRIPTOR_TYPE_UNIFORM_BUFFER_DYNAMIC⟩
  else if Ty = DescriptorType.StorageBuffer then ⟨none, .VK_DESCRIPTOR_TYPE_STORAGE_BUFFER⟩
  else if Ty = DescriptorType.StorageBuffer_ReadOnly then
    ⟨none, .VK_DESCRIPTOR_TYPE_STORAGE_BUFFER⟩
  else if Ty = DescriptorType.StorageBufferDynamic then
    ⟨none, .VK_DESCRIPTOR_TYPE_STORAGE_BUFFER_DYNAMIC⟩
  else if Ty = DescriptorType.StorageBufferDynamic_ReadOnly then
    ⟨none, .VK_DESCRIPTOR_TYPE_STORAGE_BUFFER_DYNAMIC⟩
  else if Ty = DescriptorType.InputAttachment then ⟨none, .VK_DESCRIPTOR_TYPE_INPUT_ATTACHMENT⟩
  else if Ty = DescriptorType.InputAttachment_General then
    ⟨none, .VK_DESCRIPTOR_TYPE_INPUT_ATTACHMENT⟩
  else if Ty = DescriptorType.AccelerationStructure then
    ⟨none, .VK_DESCRIPTOR_TYPE_ACCELERATION_STRUCTURE_KHR⟩
  else ⟨some .UnexpectedDescriptorType, .VK_DESCRIPTOR_TYPE_MAX_ENUM⟩

namespace PipelineResourceAttribsVk

def _BindingIndexBits : Nat := 16
def _SamplerIndBits : Nat := 16
def _ArraySizeBits : Nat := 25
def _DescrTypeBits : Nat := 5
def _DescrSetBits : Nat := 1
def _SamplerAssignedBits : Nat := 1

def MaxDescriptorSets : Nat := (1 <<< _DescrSetBits) % 2 ^ 32

def InvalidSamplerInd : Nat := ((1 <<< _SamplerIndBits) % 2 ^ 32 - 1) % 2 ^ 32

/-- `GetDescriptorType`: the 5-bit field cast to the `UInt8` enumeration. -/
def GetDescriptorType (a : PipelineResourceAttribsVk) : Nat := a.DescrType % 2 ^ 8

def IsImmutableSamplerAssigned (a : PipelineResourceAttribsVk) : Bool :=
  a.ImtblSamplerAssigned != 0

def IsCombinedWithSampler (a : PipelineResourceAttribsVk) : Bool :=
  a.SamplerInd != InvalidSamplerInd

/-- The eight-argument constructor: every bit field keeps the low bits of its
argument, then the five checks compare the fields with the arguments, in the
order of the source. `_DescrType` is the `UInt8` value of the enumeration. -/
def construct (_BindingIndex _SamplerInd _ArraySize _DescrType _DescrSet : Nat)
    (_ImtblSamplerAssigned : Bool) (_SRBCacheOffset _StaticCacheOffset : Nat) :
    Except Fault PipelineResourceAttribsVk :=
  let a : PipelineResourceAttribsVk :=
    { BindingIndex := _BindingIndex % 2 ^ _BindingIndexBits
      SamplerInd := _SamplerInd % 2 ^ _SamplerIndBits
      ArraySize := _ArraySize % 2 ^ _ArraySizeBits
      DescrType := (_DescrType % 2 ^ 32) % 2 ^ _DescrTypeBits
      DescrSet := _DescrSet % 2 ^ _DescrSetBits
      ImtblSamplerAssigned := if _ImtblSamplerAssigned then 1 else 0
      SRBCacheOffset := _SRBCacheOffset
      StaticCacheOffset := _StaticCacheOffset }
  if a.BindingIndex ≠ _BindingIndex then .error .BindingIndexTruncated
  else if a.ArraySize ≠ _ArraySize then .error .ArraySizeTruncated
  else if a.SamplerInd ≠ _SamplerInd then .error .SamplerIndTruncated
  else if a.GetDescriptorType ≠ _DescrType then .error .DescrTypeTruncated
  else if a.DescrSet ≠ _DescrSet then .error .DescrSetTruncated
  else .ok a

/-- The default constructor ("Only for serialization"). -/
def construct_default : Except Fault PipelineResourceAttribsVk :=
  construct 0 0 0 DescriptorType.Unknown 0 false 0 0

end PipelineResourceAttribsVk

/-! ## Descriptions compared by `operator==` -/

/-- `BufferFormat`: value type, number of components, normalisation flag. -/
structure BufferFormat where
  ValueType : Nat
  NumComponents : Nat
  IsNormalized : Bool

/-- `BufferFormat::operator==`. -/
def BufferFormat.operator_eq (a RHS : BufferFormat) : Bool :=
  a.ValueType == RHS.ValueType && a.NumComponents == RHS.NumComponents &&
    a.IsNormalized == RHS.IsNormalized

/-- `BufferViewDesc`, with the `Name` inherited from `DeviceObjectAttribs`
(a C string, possibly null). -/
structure BufferViewDesc where
  Name : Option String
  ViewType : Nat
  Format : BufferFormat
  ByteOffset : Nat
  ByteWidth : Nat

/-- `BufferViewDesc::operator==`: "Ignore name." -/
def BufferViewDesc.operator_eq (a RHS : BufferViewDesc) : Bool :=
  a.ViewType == RHS.ViewType && a.ByteOffset == RHS.ByteOffset &&
    a.ByteWidth == RHS.ByteWidth && a.Format.operator_eq RHS.Format

/-- Modelled from the spec: `SafeStrEqual` is declared outside the sources; by
its name and its use in the `operator==` of the serialization structures it
compares two C strings that may be null: two null pointers are equal, a null
and a non-null pointer are not, two strings are equal when their characters
are. -/
def SafeStrEqual (Str0 Str1 : Option String) : Bool :=
  match Str0, Str1 with
  | none, none => true
  | some s0, some s1 => s0 == s1
  | _, _ => false

/-- `SerializationDeviceMtlInfo`: four C strings. -/
structure SerializationDeviceMtlInfo where
  CompileOptionsMacOS : Option String
  CompileOptionsiOS : Option String
  MslPreprocessorCmd : Option String
  DumpDirectory : Option String

namespace SerializationDeviceMtlInfo

/-- The default member initialisers. -/
def default : SerializationDeviceMtlInfo :=
  { CompileOptionsMacOS := some "-sdk macosx metal"
    CompileOptionsiOS := some "-sdk iphoneos metal"
    MslPreprocessorCmd := none
    DumpDirectory := none }

/-- `operator==` ("Tests if two structures are equivalent"). -/
def operator_eq (a RHS : SerializationDeviceMtlInfo) : Bool :=
  SafeStrEqual a.CompileOptionsMacOS RHS.CompileOptionsMacOS &&
    SafeStrEqual a.CompileOptionsiOS RHS.CompileOptionsiOS &&
    SafeStrEqual a.MslPreprocessorCmd RHS.MslPreprocessorCmd

/-- `operator!=`. -/
def operator_ne (a RHS : SerializationDeviceMtlInfo) : Bool :=
  !(a.operator_eq RHS)

end SerializationDeviceMtlInfo

/-! ## Hash combiners -/

/-- One argument of a call `m_Hasher(args...)`. -/
inductive HashArg where
  /-- An integer or an enumeration value. -/
  | uint (v : Nat)
  /-- A `bool`. -/
  | flag (b : Bool)
  /-- A `float`, by its bit pattern. -/
  | float (bits : Nat)
  /-- A C string, possibly null. -/
  | str (s : Option String)
  deriving DecidableEq, Repr

/-- A hasher as the combiners see it: a state, the step that folds one plain
argument into the state, and the final value. `HashCombinerBase` and
`HashCombine` are declared outside the sources; `DefaultHasher` starts from the
seed `init` and `Get` returns the seed. -/
structure Hasher (σ : Type) where
  init : σ
  feed : σ → HashArg → σ
  Get : σ → Nat

/-- The call `m_Hasher(args...)` with plain arguments: they are folded in, in
the order written. -/
def Hasher.call {σ : Type} (H : Hasher σ) (st : σ) (args : List HashArg) : σ :=
  args.foldl H.feed st

/-- `static_cast<uint32_t>(x) << n`. -/
def shl32 (x n : Nat) : Nat := ((x % 2 ^ 32) <<< n) % 2 ^ 32

/-- The loop `for (i = 0; i < Count; ++i) m_Hasher(p[i])` over the first
`Count` elements of an array; `combine` is the combiner of the element type. -/
def feedFirst {σ α : Type} (combine : σ → α → Except Fault σ) :
    List α → Nat → σ → Except Fault σ
  | _, 0, st => .ok st
  | [], _ + 1, _ => .error .ArrayIndexOutOfBounds
  | x :: xs, n + 1, st =>
    match combine st x with
    | .error f => .error f
    | .ok st' => feedFirst combine xs n st'

/-- The pattern `if (p != nullptr) for .. m_Hasher(p[i]); else
VERIFY_EXPR(Count == 0);`. -/
def feedArray {σ α : Type} (combine : σ → α → Except Fault σ) (p : Option (List α))
    (Count : Nat) (st : σ) : Except Fault σ :=
  match p with
  | some xs => feedFirst combine xs Count st
  | none => if Count = 0 then .ok st else .error .CountWithoutArray

/-- `SamplerDesc`; floats are kept as bit patterns. -/
structure SamplerDesc where
  Name : Option String
  MinFilter : Nat
  MagFilter : Nat
  MipFilter : Nat
  AddressU : Nat
  AddressV : Nat
  AddressW : Nat
  Flags : Nat
  UnnormalizedCoords : Bool
  MipLODBias : Nat
  MaxAnisotropy : Nat
  ComparisonFunc : Nat
  BorderColor : Fin 4 → Nat
  MinLOD : Nat
  MaxLOD : Nat

/-- `HashCombiner<HasherType, SamplerDesc>::operator()`: "Ignore Name." -/
def HashCombiner_SamplerDesc {σ : Type} (H : Hasher σ) (st : σ) (SamDesc : SamplerDesc) : σ :=
  H.call st
    [.uint (shl32 SamDesc.MinFilter 0 ||| shl32 SamDesc.MagFilter 8 |||
        shl32 SamDesc.MipFilter 24),
     .uint (shl32 SamDesc.AddressU 0 ||| shl32 SamDesc.AddressV 8 |||
        shl32 SamDesc.AddressW 24),
     .uint (shl32 SamDesc.Flags 0 ||| shl32 (if SamDesc.UnnormalizedCoords then 1 else 0) 8),
     .float SamDesc.MipLODBias,
     .uint SamDesc.MaxAnisotropy,
     .uint (SamDesc.ComparisonFunc % 2 ^ 32),
     .float (SamDesc.BorderColor 0),
     .float (SamDesc.BorderColor 1),
     .float (SamDesc.BorderColor 2),
     .float (SamDesc.BorderColor 3),
     .float SamDesc.MinLOD,
     .float SamDesc.MaxLOD]

/-- `TextureViewDesc`; `Swizzle` is kept as its `AsUint32()` value. -/
structure TextureViewDesc where
  Name : Option String
  ViewType : Nat
  TextureDim : Nat
  Format : Nat
  MostDetailedMip : Nat
  NumMipLevels : Nat
  FirstArraySlice : Nat
  NumArraySlices : Nat
  AccessFlags : Nat
  Flags : Nat
  Swizzle : Nat

/-- `HashCombiner<HasherType, TextureViewDesc>::operator()`: "Ignore Name." -/
def HashCombiner_TextureViewDesc {σ : Type} (H : Hasher σ) (st : σ)
    (TexViewDesc : TextureViewDesc) : σ :=
  H.call st
    [.uint (shl32 TexViewDesc.ViewType 0 ||| shl32 TexViewDesc.TextureDim 8 |||
        shl32 TexViewDesc.Format 16),
     .uint TexViewDesc.MostDetailedMip,
     .uint TexViewDesc.NumMipLevels,
     .uint TexViewDesc.FirstArraySlice,
     .uint TexViewDesc.NumArraySlices,
     .uint (shl32 TexViewDesc.AccessFlags 0 ||| shl32 TexViewDesc.Flags 8),
     .uint TexViewDesc.Swizzle]

/-- `RenderPassDesc`; the element types of its three arrays are parameters. -/
structure RenderPassDesc (A S D : Type) where
  Name : Option String
  AttachmentCount : Nat
  pAttachments : Option (List A)
  SubpassCount : Nat
  pSubpasses : Option (List S)
  DependencyCount : Nat
  pDependencies : Option (List D)

/-- `HashCombiner<HasherType, RenderPassDesc>::operator()`: "Ignore Name."
The combiners of the element types are parameters. -/
def HashCombiner_RenderPassDesc {σ A S D : Type} (H : Hasher σ)
    (combineAttachment : σ → A → Except Fault σ) (combineSubpass : σ → S → Except Fault σ)
    (combineDependency : σ → D → Except Fault σ) (st : σ) (RP : RenderPassDesc A S D) :
    Except Fault σ :=
  let st0 := H.call st [.uint RP.AttachmentCount, .uint RP.SubpassCount, .uint RP.DependencyCount]
  match feedArray combineAttachment RP.pAttachments RP.AttachmentCount st0 with
  | .error f => .error f
  | .ok st1 =>
    match feedArray combineSubpass RP.pSubpasses RP.SubpassCount st1 with
    | .error f => .error f
    | .ok st2 => feedArray combineDependency RP.pDependencies RP.DependencyCount st2

/-- `PipelineStateDesc`; the type of `ResourceLayout` is a parameter. -/
structure PipelineStateDesc (L : Type) where
  Name : Option String
  PipelineType : Nat
  SRBAllocationGranularity : Nat
  ImmediateContextMask : Nat
  ResourceLayout : L

/-- `HashCombiner<HasherType, PipelineStateDesc>::operator()`: "Ignore Name."
The combiner of `PipelineResourceLayoutDesc` is a parameter. -/
def HashCombiner_PipelineStateDesc {σ L : Type} (H : Hasher σ)
    (combineLayout : σ → L → Except Fault σ) (st : σ) (Desc : PipelineStateDesc L) :
    Except Fault σ :=
  combineLayout
    (H.call st [.uint Desc.PipelineType, .uint Desc.SRBAllocationGranularity,
      .uint Desc.ImmediateContextMask])
    Desc.ResourceLayout

/-- `PipelineResourceSignatureDesc`; the element types of its two arrays are
parameters. -/
structure PipelineResourceSignatureDesc (R I : Type) where
  Name : Option String
  Resources : Option (List R)
  NumResources : Nat
  ImmutableSamplers : Option (List I)
  NumImmutableSamplers : Nat
  BindingIndex : Nat
  UseCombinedTextureSamplers : Bool
  CombinedSamplerSuffix : Option String
  SRBAllocationGranularity : Nat

/-- `HashCombiner<HasherType, PipelineResourceSignatureDesc>::operator()`:
"Ignore Name." The combiners of the element types are parameters. -/
def HashCombiner_PipelineResourceSignatureDesc {σ R I : Type} (H : Hasher σ)
    (combineResource : σ → R → Except Fault σ) (combineSampler : σ → I → Except Fault σ)
    (st : σ) (Desc : PipelineResourceSignatureDesc R I) : Except Fault σ :=
  let st0 := H.call st
    [.uint Desc.NumResources, .uint Desc.NumImmutableSamplers,
     .uint (shl32 Desc.BindingIndex 0 |||
        shl32 (if Desc.UseCombinedTextureSamplers then 1 else 0) 8),
     .uint Desc.SRBAllocationGranularity]
  match feedArray combineResource Desc.Resources Desc.NumResources st0 with
  | .error f => .error f
  | .ok st1 =>
    match feedArray combineSampler Desc.ImmutableSamplers Desc.NumImmutableSamplers st1 with
    | .error f => .error f
    | .ok st2 =>
      if Desc.UseCombinedTextureSamplers then .ok (H.call st2 [.str Desc.CombinedSamplerSuffix])
      else .ok st2

/-- `ShaderDesc`. -/
structure ShaderDesc where
  Name : Option String
  ShaderType : Nat
  UseCombinedTextureSamplers : Bool
  CombinedSamplerSuffix : Option String

/-- `HashCombiner<HasherType, ShaderDesc>::operator()`: "Ignore Name." -/
def HashCombiner_ShaderDesc {σ : Type} (H : Hasher σ) (st : σ) (Desc : ShaderDesc) : σ :=
  H.call st [.uint Desc.ShaderType, .flag Desc.UseCombinedTextureSamplers,
    .str Desc.CombinedSamplerSuffix]

/-- `StdHasher<Type>::operator()`, which `std::hash<Type>` calls: a fresh
`DefaultHasher`, one run of the type's combiner, then `Get`. -/
def StdHasher {σ τ : Type} (H : Hasher σ) (Combiner : Hasher σ → σ → τ → Except Fault σ)
    (Val : τ) : Except Fault Nat :=
  match Combiner H H.init Val with
  | .error f => .error f
  | .ok st => .ok (H.Get st)

/-- A hasher used in examples: the state is the list of arguments seen so
far, the value their number. -/
def traceHasher : Hasher (List HashArg) :=
  { init := [], feed := fun st a => st ++ [a], Get := fun st => st.length }

/-! ## Alignment helpers -/

/-- Modelled from the spec: `AlignDown` and `AlignDownNonPw2` are defined in
`Common/interface/Align.hpp`, which is not among the sources. The model is the
reference value that their tests (`AlignTest.cpp`) compute,
`(i / Alignment) * Alignment`, in a result type of `w` bits (the wider
operand type). -/
def AlignDown (w val alignment : Nat) : Nat :=
  ((val / alignment) * alignment) % 2 ^ w

/-- Modelled from the spec: see `AlignDown`; the tests expect the same
reference value of both functions, for a power-of-two alignment of the first
and any positive alignment of the second. -/
def AlignDownNonPw2 (w val alignment : Nat) : Nat :=
  ((val / alignment) * alignment) % 2 ^ w

/-- Modelled from the spec: `AlignUp` and `AlignUpNonPw2` are defined in
`Common/interface/Align.hpp`, which is not among the sources. The model is the
reference value that their tests (`AlignTest.cpp`) compute:
`Aligned = (i / Alignment) * Alignment; if (Aligned < i) Aligned += Alignment`,
in a result type of `w` bits (the wider operand type). -/
def AlignUp (w val alignment : Nat) : Nat :=
  let Aligned := (val / alignment) * alignment
  (if Aligned < val then Aligned + alignment else Aligned) % 2 ^ w

/-- Modelled from the spec: see `AlignUp`. -/
def AlignUpNonPw2 (w val alignment : Nat) : Nat :=
  let Aligned := (val / alignment) * alignment
  (if Aligned < val then Aligned + alignment else Aligned) % 2 ^ w

/-- Modelled from the spec: the pointer overload of `AlignUp` (tested by
`Common_Align.AlignPtr`) aligns the address as a `uintptr_t`, 64 bits wide. -/
def AlignUpPtr (val alignment : Nat) : Nat := AlignUp 64 val alignment

/-- Modelled from the spec: the pointer overload of `AlignDown` (tested by
`Common_Align.AlignDownPtr`). -/
def AlignDownPtr (val alignment : Nat) : Nat := AlignDown 64 val alignment

/-- `r` is the smallest multiple of `a` that is at least `v`. -/
def IsSmallestMultipleGE (a v r : Nat) : Prop :=
  a ∣ r ∧ v ≤ r ∧ ∀ m, a ∣ m → v ≤ m → r ≤ m

/-- `r` is the largest multiple of `a` that is at most `v`. -/
def IsLargestMultipleLE (a v r : Nat) : Prop :=
  a ∣ r ∧ r ≤ v ∧ ∀ m, a ∣ m → m ≤ v → m ≤ r

/-- The value of the `w`-bit two's-complement word that holds `x`. -/
def toSigned (w : Nat) (x : Int) : Int :=
  (x + 2 ^ (w - 1)) % 2 ^ w - 2 ^ (w - 1)

/-- Modelled from the spec: the tests call the alignment helpers with signed
operands as well (`Int8`, `Int16`, `Int32` in `Common_Align.AlignDownNonPw2`).
The model is the same reference value, `(i / Alignment) * Alignment`, with the
division of C++ on signed integers, which truncates towards zero, in the signed
`w`-bit result type. -/
def AlignDownSigned (w : Nat) (val alignment : Int) : Int :=
  toSigned w (val.tdiv alignment * alignment)

/-- Modelled from the spec: see `AlignDownSigned`. -/
def AlignDownNonPw2Signed (w : Nat) (val alignment : Int) : Int :=
  toSigned w (val.tdiv alignment * alignment)

/-- Modelled from the spec: the reference value of `AlignUp` for signed
operands (`Int8`, `Int16`, `Int32` in `Common_Align.AlignUpNonPw2`):
`Aligned = (i / Alignment) * Alignment; if (Aligned < i) Aligned += Alignment`
with the truncating division of C++, in the signed `w`-bit result type. -/
def AlignUpSigned (w : Nat) (val alignment : Int) : Int :=
  let Aligned := val.tdiv alignment * alignment
  toSigned w (if Aligned < val then Aligned + alignment else Aligned)

/-- Modelled from the spec: see `AlignUpSigned`. -/
def AlignUpNonPw2Signed (w : Nat) (val alignment : Int) : Int :=
  let Aligned := val.tdiv alignment * alignment
  toSigned w (if Aligned < val then Aligned + alignment else Aligned)

/-- `r` is the smallest multiple of `a` that is at least `v`, for signed
values. -/
def IsSmallestMultipleGEInt (a v r : Int) : Prop :=
  a ∣ r ∧ v ≤ r ∧ ∀ m, a ∣ m → v ≤ m → r ≤ m

/-- `r` is the largest multiple of `a` that is at most `v`, for signed
values. -/
def IsLargestMultipleLEInt (a v r : Int) : Prop :=
  a ∣ r ∧ r ≤ v ∧ ∀ m, a ∣ m → m ≤ v → m ≤ r

/-! ## Powers of two -/

/-- Modelled from the spec: `IsPowerOfTwo` is defined in
`Common/interface/Align.hpp`, which is not among the sources; its test
(`AlignTest.cpp`, `Common_Align.IsPowerOfTwo`) fixes its value on 0..255 and
around every power of two. The model is the usual one-bit test
`val > 0 && (val & (val - 1)) == 0`. -/
def IsPowerOfTwo (val : Nat) : Bool :=
  decide (0 < val) && (val &&& (val - 1)) == 0

/-- `i` is the index of the highest set bit of `v`. -/
def IsHighestSetBit (v i : Nat) : Prop :=
  v.testBit i = true ∧ ∀ j, i < j → v.testBit j = false

/-- `i` is the index of the lowest set bit of `v`. -/
def IsLowestSetBit (v i : Nat) : Prop :=
  v.testBit i = true ∧ ∀ j, j < i → v.testBit j = false

/-- Index of the highest set bit among the bits `start, start-1, .., 1` of
`v`; `0` when none of them is set. -/
def highestBitFrom (v : Nat) : Nat → Nat
  | 0 => 0
  | start + 1 => if v.testBit (start + 1) then start + 1 else highestBitFrom v start

namespace BasicPlatformMisc

/-- Modelled from the spec: `BasicPlatformMisc::GetMSB` is not among the
sources; its test (`PlatformMiscTest.cpp`, `TestMSB_LSB`) expects the bit width
for zero and the index of the highest set bit otherwise. The portable version
is modelled as a scan from the top bit of the `w`-bit value downwards. -/
def GetMSB (w Val : Nat) : Nat :=
  if Val = 0 then w else highestBitFrom Val (w - 1)

/-- Modelled from the spec: `BasicPlatformMisc::GetLSB` is not among the
sources; its test expects the bit width for zero and the index of the lowest
set bit otherwise. The portable version is modelled as a scan from bit 0
upwards. -/
def GetLSB (w Val : Nat) : Nat :=
  if Val = 0 then w else lowestBitFrom Val w 0

end BasicPlatformMisc

namespace PlatformMisc

/-- The number of zero bits above the highest set bit of a `w`-bit value,
counted from bit `n - 1` downwards (the count a leading-zero instruction
gives); `n` when no bit below `n` is set. -/
def countLeadingZeros (v : Nat) : Nat → Nat
  | 0 => 0
  | n + 1 => if v.testBit n then 0 else countLeadingZeros v n + 1

/-- The number of zero bits below the lowest set bit (the count a
trailing-zero instruction gives), looking at `n` bits. -/
def countTrailingZeros : Nat → Nat → Nat
  | 0, _ => 0
  | n + 1, v => if v % 2 = 1 then 0 else countTrailingZeros n (v / 2) + 1

/-- Modelled from the spec: the platform-specific `PlatformMisc::GetMSB` is
not among the sources; it is modelled as the bit width for zero and otherwise
`w - 1` minus the leading-zero count of the `w`-bit value. -/
def GetMSB (w Val : Nat) : Nat :=
  if Val = 0 then w else (w - 1) - countLeadingZeros Val w

/-- Modelled from the spec: the platform-specific `PlatformMisc::GetLSB` is
not among the sources; it is modelled as the bit width for zero and otherwise
the trailing-zero count of the `w`-bit value. -/
def GetLSB (w Val : Nat) : Nat :=
  if Val = 0 then w else countTrailingZeros w Val

end PlatformMisc

/-- Modelled from the spec: `AlignDownToPowerOfTwo` is defined in
`Common/interface/Align.hpp`, which is not among the sources; its test expects
zero for zero and otherwise the power of two at the highest set bit of the
`w`-bit value, taken here from `GetMSB`. -/
def AlignDownToPowerOfTwo (w val : Nat) : Nat :=
  if val = 0 then 0 else (2 ^ BasicPlatformMisc.GetMSB w val) % 2 ^ w

/-- Modelled from the spec: `AlignUpToPowerOfTwo` is defined in
`Common/interface/Align.hpp`, which is not among the sources; its test expects
zero for zero, a power of two unchanged, and otherwise the power of two above
the highest set bit, in the `w`-bit type of the value. -/
def AlignUpToPowerOfTwo (w val : Nat) : Nat :=
  if val = 0 then 0
  else if IsPowerOfTwo val then val
  else (2 ^ (BasicPlatformMisc.GetMSB w val + 1)) % 2 ^ w

/-! ## Byte order -/

/-- The `n` low bytes of `x`, lowest first. -/
def toBytes : Nat → Nat → List Nat
  | 0, _ => []
  | n + 1, x => (x % 256) :: toBytes n (x / 256)

/-- The number whose bytes, lowest first, are the list. -/
def ofBytes : List Nat → Nat
  | [] => 0
  | b :: bs => b + 256 * ofBytes bs

/-- Modelled from the spec: `PlatformMisc::SwapBytes` and
`BasicPlatformMisc::SwapBytes` are not among the sources; their test
(`PlatformMiscTest.cpp`, `TestSwapBytes`) expects the bytes of the value in
reverse order. `n` is the size of the type in bytes and `x` the bit pattern of
the value (two's complement for a signed integer, the IEEE pattern for a
`float`). -/
def SwapBytes (n x : Nat) : Nat := ofBytes (toBytes n x).reverse

/-! ## Entry regions and the resource walks of the shader-variable manager -/

namespace ShaderVariableManagerD3D11

/-- `GetResource<ResourceType>(ResIndex)`: the check on the index, then the
entry `ResIndex` of the typed array that starts `Offset` bytes into the block.
The result is the byte offset of that entry from `m_pVariables`. -/
def GetResource (sizeof : ResourceCategory → Nat) (M : ShaderVariableManagerD3D11)
    (cat : ResourceCategory) (ResIndex : Nat) : Except Fault Nat :=
  if ResIndex < M.GetNumResources sizeof cat then
    let Offset := M.GetResourceOffset cat
    .ok (Offset + ResIndex * sizeof cat)
  else .error .ResourceIndexOutOfRange

/-- `GetConstResource<ResourceType>(ResIndex)`: the same check and address. -/
def GetConstResource (sizeof : ResourceCategory → Nat) (M : ShaderVariableManagerD3D11)
    (cat : ResourceCategory) (ResIndex : Nat) : Except Fault Nat :=
  if ResIndex < M.GetNumResources sizeof cat then
    let Offset := M.GetResourceOffset cat
    .ok (Offset + ResIndex * sizeof cat)
  else .error .ResourceIndexOutOfRange

/-- The end `GetResourceOffset<T>() + GetNumResources<T>() * sizeof(T)` of the
region of one category. -/
def regionEnd (sizeof : ResourceCategory → Nat) (M : ShaderVariableManagerD3D11)
    (cat : ResourceCategory) : Nat :=
  M.GetResourceOffset cat + M.GetNumResources sizeof cat * sizeof cat

/-- The bytes `[GetResourceOffset<T>(), GetResourceOffset<T>() +
GetNumResources<T>() * sizeof(T))` of one category. -/
def inRegion (sizeof : ResourceCategory → Nat) (M : ShaderVariableManagerD3D11)
    (cat : ResourceCategory) (byte : Nat) : Prop :=
  M.GetResourceOffset cat ≤ byte ∧ byte < M.regionEnd sizeof cat

/-- One loop `for (UInt32 i = 0; i < GetNumResources<T>(); ++i)
Handle(GetResource<T>(i));` of `HandleResources`, with `n` rounds left at
index `i`. -/
def handleLoop {σ : Type} (sizeof : ResourceCategory → Nat) (M : ShaderVariableManagerD3D11)
    (cat : ResourceCategory) (Handle : Nat → σ → σ) : Nat → Nat → σ → Except Fault σ
  | 0, _, st => .ok st
  | n + 1, i, st =>
    match M.GetResource sizeof cat i with
    | .error f => .error f
    | .ok entry => handleLoop sizeof M cat Handle n (i + 1) (Handle entry st)

/-- `HandleResources`: six loops, one per category, each from index 0 up to
the count of the category. A handler receives the entry and acts on the state
`σ` of the caller. -/
def HandleResources {σ : Type} (sizeof : ResourceCategory → Nat)
    (M : ShaderVariableManagerD3D11)
    (HandleCB HandleTexSRV HandleTexUAV HandleBufSRV HandleBufUAV HandleSampler : Nat → σ → σ)
    (st : σ) : Except Fault σ :=
  match handleLoop sizeof M .ConstBuffBindInfo HandleCB
      (M.GetNumResources sizeof .ConstBuffBindInfo) 0 st with
  | .error f => .error f
  | .ok st =>
  match handleLoop sizeof M .TexSRVBindInfo HandleTexSRV
      (M.GetNumResources sizeof .TexSRVBindInfo) 0 st with
  | .error f => .error f
  | .ok st =>
  match handleLoop sizeof M .TexUAVBindInfo HandleTexUAV
      (M.GetNumResources sizeof .TexUAVBindInfo) 0 st with
  | .error f => .error f
  | .ok st =>
  match handleLoop sizeof M .BuffSRVBindInfo HandleBufSRV
      (M.GetNumResources sizeof .BuffSRVBindInfo) 0 st with
  | .error f => .error f
  | .ok st =>
  match handleLoop sizeof M .BuffUAVBindInfo HandleBufUAV
      (M.GetNumResources sizeof .BuffUAVBindInfo) 0 st with
  | .error f => .error f
  | .ok st =>
  handleLoop sizeof M .SamplerBindInfo HandleSampler
    (M.GetNumResources sizeof .SamplerBindInfo) 0 st

/-- One loop `for (..) if (!Handle(GetConstResource<T>(i))) return;` of
`HandleConstResources`, with `n` rounds left at index `i`. The flag of the
result is `false` when the loop left through `return`. -/
def handleConstLoop {σ : Type} (sizeof : ResourceCategory → Nat)
    (M : ShaderVariableManagerD3D11) (cat : ResourceCategory) (Handle : Nat → σ → Bool × σ) :
    Nat → Nat → σ → Except Fault (Bool × σ)
  | 0, _, st => .ok (true, st)
  | n + 1, i, st =>
    match M.GetConstResource sizeof cat i with
    | .error f => .error f
    | .ok entry =>
      let r := Handle entry st
      if r.1 then handleConstLoop sizeof M cat Handle n (i + 1) r.2 else .ok (false, r.2)

/-- `HandleConstResources`: the six loops of `HandleResources`, each left
through `return` as soon as a handler returns `false`. -/
def HandleConstResources {σ : Type} (sizeof : ResourceCategory → Nat)
    (M : ShaderVariableManagerD3D11)
    (HandleCB HandleTexSRV HandleTexUAV HandleBufSRV HandleBufUAV HandleSampler :
      Nat → σ → Bool × σ)
    (st : σ) : Except Fault σ :=
  match handleConstLoop sizeof M .ConstBuffBindInfo HandleCB
      (M.GetNumResources sizeof .ConstBuffBindInfo) 0 st with
  | .error f => .error f
  | .ok (false, st) => .ok st
  | .ok (true, st) =>
  match handleConstLoop sizeof M .TexSRVBindInfo HandleTexSRV
      (M.GetNumResources sizeof .TexSRVBindInfo) 0 st with
  | .error f => .error f
  | .ok (false, st) => .ok st
  | .ok (true, st) =>
  match handleConstLoop sizeof M .TexUAVBindInfo HandleTexUAV
      (M.GetNumResources sizeof .TexUAVBindInfo) 0 st with
  | .error f => .error f
  | .ok (false, st) => .ok st
  | .ok (true, st) =>
  match handleConstLoop sizeof M .BuffSRVBindInfo HandleBufSRV
      (M.GetNumResources sizeof .BuffSRVBindInfo) 0 st with
  | .error f => .error f
  | .ok (false, st) => .ok st
  | .ok (true, st) =>
  match handleConstLoop sizeof M .BuffUAVBindInfo HandleBufUAV
      (M.GetNumResources sizeof .BuffUAVBindInfo) 0 st with
  | .error f => .error f
  | .ok (false, st) => .ok st
  | .ok (true, st) =>
  match handleConstLoop sizeof M .SamplerBindInfo HandleSampler
      (M.GetNumResources sizeof .SamplerBindInfo) 0 st with
  | .error f => .error f
  | .ok (_, st) => .ok st

/-- A call of a handler: the category of the handler and the entry passed. -/
abbrev HandlerCall : Type := ResourceCategory × Nat

/-- The entries of one category by ascending index: entry `i` lies
`i * sizeof(T)` bytes after the offset of the category. -/
def entriesOf (sizeof : ResourceCategory → Nat) (M : ShaderVariableManagerD3D11)
    (cat : ResourceCategory) : List HandlerCall :=
  (List.range (M.GetNumResources sizeof cat)).map
    (fun i => (cat, M.GetResourceOffset cat + i * sizeof cat))

/-- Every binding-info entry once: the categories in the canonical order,
ascending index inside each. -/
def allEntries (sizeof : ResourceCategory → Nat) (M : ShaderVariableManagerD3D11) :
    List HandlerCall :=
  entriesOf sizeof M .ConstBuffBindInfo ++ entriesOf sizeof M .TexSRVBindInfo ++
    entriesOf sizeof M .TexUAVBindInfo ++ entriesOf sizeof M .BuffSRVBindInfo ++
    entriesOf sizeof M .BuffUAVBindInfo ++ entriesOf sizeof M .SamplerBindInfo

/-- The state after calling `H` once for each element of a list of calls, in
the order of the list. -/
def runAll {σ : Type} (H : ResourceCategory → Nat → σ → σ) (calls : List HandlerCall)
    (st : σ) : σ :=
  calls.foldl (fun s e => H e.1 e.2 s) st

/-- The outcome of calling `H` along a list of calls until a call returns
`false`: whether every call made returned `true`, and the state after the
last call made. -/
def runUntilFalse {σ : Type} (H : ResourceCategory → Nat → σ → Bool × σ) :
    List HandlerCall → σ → Bool × σ
  | [], st => (true, st)
  | e :: es, st =>
    let r := H e.1 e.2 st
    if r.1 then runUntilFalse H es r.2 else (false, r.2)

/-- The prefix of a list up to and including its first element that `ok`
rejects (the whole list when there is none). -/
def throughFirstFalse {α : Type} (ok : α → Bool) : List α → List α
  | [] => []
  | e :: es => if ok e then e :: throughFirstFalse ok es else [e]

/-- A handler that only records its call. -/
def record (cat : ResourceCategory) (entry : Nat) (trace : List HandlerCall) :
    List HandlerCall :=
  trace ++ [(cat, entry)]

/-- A handler that records its call and returns what `ok` says of it. -/
def recordAndAnswer (ok : HandlerCall → Bool) (cat : ResourceCategory) (entry : Nat)
    (trace : List HandlerCall) : Bool × List HandlerCall :=
  (ok (cat, entry), trace ++ [(cat, entry)])

/-- A block with two constant buffers, one texture SRV, no texture UAV, one
buffer SRV, no buffer UAV and two samplers, 24 bytes each. -/
def sampleBlock : ShaderVariableManagerD3D11 :=
  { m_TexSRVsOffset := 48, m_TexUAVsOffset := 72, m_BuffSRVsOffset := 72,
    m_BuffUAVsOffset := 96, m_SamplerOffset := 96, m_MemorySize := 144,
    m_ShaderTypeIndex := 0 }

end ShaderVariableManagerD3D11

namespace PipelineResourceAttribsVk

/-- `GetHash`: `ComputeHash` over the five compared fields; `ComputeHash` is
declared outside the sources and is a parameter. -/
def GetHash (ComputeHash : Nat → Nat → Nat → Nat → Nat → Nat)
    (a : PipelineResourceAttribsVk) : Nat :=
  ComputeHash a.BindingIndex a.ArraySize a.DescrType a.DescrSet a.ImtblSamplerAssigned

end PipelineResourceAttribsVk

/-! ## Pending clears of the WebGPU device context -/

/-- `DeviceContextWebGPUImpl::PendingClears`: the clear colours of the
`MAX_RENDER_TARGETS` render targets, the depth and stencil clear values and the
`UInt32` word of pending flags. `MAX_RENDER_TARGETS` is defined outside the
sources and is a parameter; `F` stands for `float`, whose values are only
stored. -/
structure PendingClears (MAX_RENDER_TARGETS : Nat) (F : Type) where
  Colors : Fin MAX_RENDER_TARGETS → Fin 4 → F
  Depth : F
  Stencil : Nat
  Flags : Nat

namespace PendingClears

variable {MAX_RENDER_TARGETS : Nat} {F : Type}

def RT0Flag : Nat := 1

def DepthFlag (MAX_RENDER_TARGETS : Nat) : Nat := (1 <<< MAX_RENDER_TARGETS) % 2 ^ 32

def StencilFlag (MAX_RENDER_TARGETS : Nat) : Nat := (1 <<< (MAX_RENDER_TARGETS + 1)) % 2 ^ 32

/-- The default member initialisers, `PendingClears{}`; `zero` is `0.0f`. -/
def default (MAX_RENDER_TARGETS : Nat) (zero : F) : PendingClears MAX_RENDER_TARGETS F :=
  { Colors := fun _ _ => zero, Depth := zero, Stencil := 0, Flags := 0 }

/-- `SetColor`: copies the four components into `Colors[RTIndex]`, then ors
`RT0Flag << RTIndex` into `Flags`. The source does not compare `RTIndex` with
`MAX_RENDER_TARGETS`: the flag bit is set whatever the index, and of the stored
colours only an element of the array can change. Only a shift by 32 or more
(undefined in C++) is reported. -/
def SetColor (P : PendingClears MAX_RENDER_TARGETS F) (RTIndex : Nat) (Color : Fin 4 → F) :
    Except Fault (PendingClears MAX_RENDER_TARGETS F) :=
  if RTIndex < 32 then
    .ok { P with
          Colors := fun j i => if j.val = RTIndex then Color i else P.Colors j i
          Flags := (P.Flags ||| ((RT0Flag <<< RTIndex) % 2 ^ 32)) % 2 ^ 32 }
  else .error .ShiftExceedsWidth

def SetDepth (P : PendingClears MAX_RENDER_TARGETS F) (_Depth : F) :
    PendingClears MAX_RENDER_TARGETS F :=
  { P with Depth := _Depth, Flags := (P.Flags ||| DepthFlag MAX_RENDER_TARGETS) % 2 ^ 32 }

/-- `SetStencil`: the argument is a `UInt8`. -/
def SetStencil (P : PendingClears MAX_RENDER_TARGETS F) (_Stencil : Nat) :
    PendingClears MAX_RENDER_TARGETS F :=
  { P with Stencil := _Stencil % 2 ^ 8
           Flags := (P.Flags ||| StencilFlag MAX_RENDER_TARGETS) % 2 ^ 32 }

/-- `ColorPending`: `Flags & (RT0Flag << RTIndex)` converted to `bool`. -/
def ColorPending (P : PendingClears MAX_RENDER_TARGETS F) (RTIndex : Nat) : Except Fault Bool :=
  if RTIndex < 32 then .ok ((P.Flags &&& ((RT0Flag <<< RTIndex) % 2 ^ 32)) != 0)
  else .error .ShiftExceedsWidth

def DepthPending (P : PendingClears MAX_RENDER_TARGETS F) : Bool :=
  (P.Flags &&& DepthFlag MAX_RENDER_TARGETS) != 0

def StencilPending (P : PendingClears MAX_RENDER_TARGETS F) : Bool :=
  (P.Flags &&& StencilFlag MAX_RENDER_TARGETS) != 0

def AnyPending (P : PendingClears MAX_RENDER_TARGETS F) : Bool := P.Flags != 0

def ResetFlags (P : PendingClears MAX_RENDER_TARGETS F) : PendingClears MAX_RENDER_TARGETS F :=
  { P with Flags := 0 }

def Clear (_P : PendingClears MAX_RENDER_TARGETS F) (zero : F) :
    PendingClears MAX_RENDER_TARGETS F :=
  default MAX_RENDER_TARGETS zero

/-- The states of a `PendingClears` object whose callers pass `SetColor` the
index of a render target, `RTIndex < MAX_RENDER_TARGETS`: the default state,
and every state that such a call of `SetColor`, another member function or a
write to the public members `Colors`, `Depth` and `Stencil` makes of one.
`Flags` is private. -/
inductive Reachable (zero : F) : PendingClears MAX_RENDER_TARGETS F → Prop
  | init : Reachable zero (default MAX_RENDER_TARGETS zero)
  | setColor (P Q : PendingClears MAX_RENDER_TARGETS F) (RTIndex : Nat) (Color : Fin 4 → F) :
      Reachable zero P → RTIndex < MAX_RENDER_TARGETS → P.SetColor RTIndex Color = .ok Q →
      Reachable zero Q
  | setDepth (P : PendingClears MAX_RENDER_TARGETS F) (d : F) :
      Reachable zero P → Reachable zero (P.SetDepth d)
  | setStencil (P : PendingClears MAX_RENDER_TARGETS F) (s : Nat) :
      Reachable zero P → Reachable zero (P.SetStencil s)
  | resetFlags (P : PendingClears MAX_RENDER_TARGETS F) :
      Reachable zero P → Reachable zero P.ResetFlags
  | clear (P : PendingClears MAX_RENDER_TARGETS F) :
      Reachable zero P → Reachable zero (P.Clear zero)
  | assign (P : PendingClears MAX_RENDER_TARGETS F) (C : Fin MAX_RENDER_TARGETS → Fin 4 → F)
      (d : F) (s : Nat) :
      Reachable zero P → Reachable zero { P with Colors := C, Depth := d, Stencil := s % 2 ^ 8 }

/-- A state used in examples: eight render targets, integers for the stored
values, a depth clear of 1 pending. -/
def samplePending : PendingClears 8 Int := (default 8 0).SetDepth 1

end PendingClears

/-! ## Bit-level lemmas -/


theorem stage_bit_eq (i : Nat) (hi : i < 32) : GetShaderTypeFromIndex i = 2 ^ i := by
  unfold GetShaderTypeFromIndex
  rw [Nat.one_shiftLeft]
  exact Nat.mod_eq_of_lt (Nat.pow_lt_pow_right (by decide) hi)

theorem and_two_pow_ne_zero (x i : Nat) : (x &&& 2 ^ i != 0) = x.testBit i := by
  cases hb : x.testBit i
  · have : x &&& 2 ^ i = 0 := by
      apply Nat.eq_of_testBit_eq
      intro j
      simp only [Nat.testBit_and, Nat.testBit_two_pow, Nat.zero_testBit]
      by_cases hij : i = j
      · subst hij; simp [hb]
      · simp [hij]
    simp [this]
  · have : (x &&& 2 ^ i).testBit i = true := by
      simp [Nat.testBit_and, Nat.testBit_two_pow, hb]
    have hne : x &&& 2 ^ i ≠ 0 := by
      intro h0
      rw [h0] at this
      simp at this
    simp [hne]

theorem lowestBitFrom_spec (v : Nat) :
    ∀ n start, start ≤ lowestBitFrom v n start ∧ lowestBitFrom v n start ≤ start + n ∧
      (∀ j, start ≤ j → j < lowestBitFrom v n start → v.testBit j = false) ∧
      (lowestBitFrom v n start < start + n → v.testBit (lowestBitFrom v n start) = true) := by
  intro n
  induction n with
  | zero =>
    intro start
    simp only [lowestBitFrom]
    refine ⟨le_refl _, by omega, ?_, ?_⟩
    · intro j h1 h2; omega
    · intro h; omega
  | succ n ih =>
    intro start
    simp only [lowestBitFrom]
    by_cases hb : v.testBit start = true
    · rw [if_pos hb]
      refine ⟨le_refl _, by omega, ?_, fun _ => hb⟩
      intro j h1 h2; omega
    · rw [if_neg hb]
      obtain ⟨h1, h2, h3, h4⟩ := ih (start + 1)
      refine ⟨by omega, by omega, ?_, ?_⟩
      · intro j hj1 hj2
        by_cases hjs : j = start
        · subst hjs; simpa using hb
        · exact h3 j (by omega) hj2
      · intro hlt
        exact h4 (by omega)


theorem testBit_false_of_lt_two_pow {x n j : Nat} (hx : x < 2 ^ n) (hj : n ≤ j) :
    x.testBit j = false :=
  Nat.testBit_lt_two_pow (lt_of_lt_of_le hx (Nat.pow_le_pow_right (by decide) hj))

theorem GetLSB_spec (Stages : Nat) (hne : Stages ≠ 0) (hlt : Stages < 2 ^ 32) :
    GetLSB Stages < 32 ∧ Stages.testBit (GetLSB Stages) = true ∧
      ∀ j, j < GetLSB Stages → Stages.testBit j = false := by
  obtain ⟨_, h2, h3, h4⟩ := lowestBitFrom_spec Stages 32 0
  have hlt32 : GetLSB Stages < 32 := by
    by_contra hge
    obtain ⟨j, hj⟩ := Nat.ne_zero_implies_bit_true hne
    by_cases hj32 : j < 32
    · have := h3 j (Nat.zero_le _) (by unfold GetLSB at hge; omega)
      rw [this] at hj
      exact Bool.noConfusion hj
    · rw [testBit_false_of_lt_two_pow hlt (by omega)] at hj
      exact Bool.noConfusion hj
  refine ⟨hlt32, h4 (by unfold GetLSB at hlt32; omega), ?_⟩
  intro j hj
  exact h3 j (Nat.zero_le _) hj

theorem ExtractFirstShaderStageIndex_fst (Stages : Nat) (hne : Stages ≠ 0) :
    (ExtractFirstShaderStageIndex Stages).1 = (GetLSB Stages : Int) := by
  unfold ExtractFirstShaderStageIndex SHADER_TYPE_UNKNOWN
  rw [if_neg hne]

theorem ExtractFirstShaderStageIndex_snd (Stages : Nat) (hne : Stages ≠ 0) (hlt : Stages < 2 ^ 32)
    (j : Nat) :
    (ExtractFirstShaderStageIndex Stages).2.testBit j =
      (Stages.testBit j && decide (j ≠ GetLSB Stages)) := by
  obtain ⟨h32, _, _⟩ := GetLSB_spec Stages hne hlt
  unfold ExtractFirstShaderStageIndex SHADER_TYPE_UNKNOWN
  rw [if_neg hne]
  have hpow : (1 <<< GetLSB Stages) % 2 ^ 32 = 2 ^ GetLSB Stages := stage_bit_eq _ h32
  simp only [hpow, Nat.testBit_and, Nat.testBit_xor, Nat.testBit_two_pow_sub_one,
    Nat.testBit_two_pow]
  by_cases hj : j < 32
  · by_cases he : GetLSB Stages = j
    · subst he; simp [hj]
    · have he2 : j ≠ GetLSB Stages := fun h => he h.symm
      simp [hj, he, he2]
  · rw [testBit_false_of_lt_two_pow hlt (by omega)]
    simp

theorem ExtractFirstShaderStageIndex_snd_le (Stages : Nat) :
    (ExtractFirstShaderStageIndex Stages).2 ≤ Stages := by
  unfold ExtractFirstShaderStageIndex
  split
  · exact le_refl _
  · exact Nat.and_le_left

namespace D3D11ResourceBindPoints

theorem shiftLoop_ok (B : Fin 6 → Nat) (value : Nat) :
    ∀ (budget Stages : Nat) (New : Fin 6 → Nat) (lo : Nat), 16 ≤ lo + budget →
      Stages < 2 ^ 32 →
      (∀ j, Stages.testBit j = true →
        lo ≤ j ∧ ∃ h : j < 6, (B ⟨j, h⟩ + value) % 2 ^ 32 < InvalidBindPoint) →
      ∃ New', shiftLoop B value budget Stages New = .ok New' ∧
        ∀ i : Fin 6, New' i =
          if Stages.testBit i = true then (B i + value % 2 ^ 8) % 2 ^ 8 else New i := by
  intro budget
  induction budget with
  | zero =>
    intro Stages New lo hlo _ hbits
    have h0 : Stages = 0 := by
      by_contra hne
      obtain ⟨j, hj⟩ := Nat.ne_zero_implies_bit_true hne
      obtain ⟨h1, h6, _⟩ := hbits j hj
      omega
    subst h0
    exact ⟨New, by simp [shiftLoop, SHADER_TYPE_UNKNOWN], by simp⟩
  | succ budget ih =>
    intro Stages New lo hlo hlt hbits
    by_cases h0 : Stages = 0
    · subst h0
      exact ⟨New, by simp [shiftLoop, SHADER_TYPE_UNKNOWN], by simp⟩
    · obtain ⟨_, hset, hlow⟩ := GetLSB_spec Stages h0 hlt
      obtain ⟨hlo1, h6, hpre⟩ := hbits _ hset
      have hfst := ExtractFirstShaderStageIndex_fst Stages h0
      have hsnd := ExtractFirstShaderStageIndex_snd Stages h0 hlt
      have hcond : 0 ≤ (ExtractFirstShaderStageIndex Stages).1 ∧
          (ExtractFirstShaderStageIndex Stages).1.toNat < 6 := by
        rw [hfst]; exact ⟨Int.natCast_nonneg _, by simpa using h6⟩
      have hidx : (⟨(ExtractFirstShaderStageIndex Stages).1.toNat, hcond.2⟩ : Fin 6) =
          ⟨GetLSB Stages, h6⟩ := by
        apply Fin.ext; simp [hfst]
      obtain ⟨New', hrun, hval⟩ := ih (ExtractFirstShaderStageIndex Stages).2
        (Function.update New ⟨GetLSB Stages, h6⟩
          ((B ⟨GetLSB Stages, h6⟩ + value % 2 ^ 8) % 2 ^ 8)) (GetLSB Stages + 1) (by omega)
        (lt_of_le_of_lt (ExtractFirstShaderStageIndex_snd_le Stages) hlt)
        (by
          intro j hj
          rw [hsnd j] at hj
          simp only [Bool.and_eq_true, decide_eq_true_eq] at hj
          obtain ⟨hj1, hj2⟩ := hj
          obtain ⟨_, hj6⟩ := hbits j hj1
          refine ⟨?_, hj6⟩
          by_contra hlt2
          have := hlow j (by omega)
          rw [this] at hj1
          exact Bool.noConfusion hj1)
      refine ⟨New', ?_, ?_⟩
      · rw [shiftLoop]
        simp only [SHADER_TYPE_UNKNOWN, h0, if_false]
        rw [dif_pos hcond, hidx, if_pos hpre]
        exact hrun
      · intro i
        rw [hval i, hsnd i]
        by_cases hi : (i : Nat) = GetLSB Stages
        · have hi2 : i = ⟨GetLSB Stages, h6⟩ := Fin.ext hi
          subst hi2
          simp only [ne_eq, not_true_eq_false, decide_False, Bool.and_false, Bool.false_eq_true,
            if_false, Function.update_same]
          rw [if_pos hset]
        · have hi2 : i ≠ ⟨GetLSB Stages, h6⟩ := fun h => hi (congrArg Fin.val h)
          simp [hi, Function.update_noteq hi2]


theorem IsStageActive_of_agree (R : D3D11ResourceBindPoints) (i : Fin 6)
    (hag : R.ActiveStages.testBit i = true ↔ R.Bindings i ≠ InvalidBindPoint) :
    R.IsStageActive i = .ok (R.ActiveStages.testBit i) := by
  unfold IsStageActive GetActiveStages
  rw [dif_pos i.isLt, stage_bit_eq i (by omega), and_two_pow_ne_zero]
  cases hb : R.ActiveStages.testBit i
  · have hs : R.Bindings i = InvalidBindPoint := by
      by_contra hne
      have := hag.2 hne
      rw [hb] at this
      exact Bool.noConfusion this
    simp [hs]
  · have hs : R.Bindings i ≠ InvalidBindPoint := hag.1 hb
    simp [hs]

theorem IsStageActive_of_invariant (R : D3D11ResourceBindPoints) (hR : R.Invariant) (i : Fin 6) :
    R.IsStageActive i = .ok (R.ActiveStages.testBit i) :=
  IsStageActive_of_agree R i (hR.2 i)

theorem operator_index_active (R : D3D11ResourceBindPoints) (i : Fin 6)
    (hact : R.IsStageActive i = .ok true) : R.operator_index i = .ok (R.Bindings i) := by
  unfold operator_index
  rw [hact]
  simp

theorem operator_index_inactive (R : D3D11ResourceBindPoints) (i : Nat)
    (hact : R.IsStageActive i = .ok false) : R.operator_index i = .error .InactiveStage := by
  unfold operator_index
  rw [hact]

theorem bindPoints_Set_ok (R : D3D11ResourceBindPoints) (i : Fin 6) (b : Nat) (hb : b < InvalidBindPoint) :
    R.Set i b = .ok (b, { Bindings := Function.update R.Bindings i b
                          ActiveStages := (R.ActiveStages ||| 2 ^ (i : Nat)) % 2 ^ 16 }) := by
  have hmod : b % 2 ^ 8 = b := Nat.mod_eq_of_lt (by unfold InvalidBindPoint at hb; omega)
  have hpow : (1 <<< (i : Nat)) % 2 ^ 32 = 2 ^ (i : Nat) := stage_bit_eq i (by omega)
  unfold Set NumShaderTypes
  rw [dif_pos i.isLt, if_pos hb, hmod, hpow]

theorem bindPoints_Set_ok_inv (R : D3D11ResourceBindPoints) (s b : Nat) (res : Nat × D3D11ResourceBindPoints)
    (h : R.Set s b = .ok res) :
    ∃ hs : s < 6, b < InvalidBindPoint ∧
      res = (b, { Bindings := Function.update R.Bindings ⟨s, hs⟩ b
                  ActiveStages := (R.ActiveStages ||| 2 ^ s) % 2 ^ 16 }) := by
  by_cases hs : s < 6
  · by_cases hb : b < InvalidBindPoint
    · refine ⟨hs, hb, ?_⟩
      have := bindPoints_Set_ok R ⟨s, hs⟩ b hb
      simp only at this
      rw [this] at h
      injection h with h
      exact h.symm
    · unfold Set NumShaderTypes at h
      rw [dif_pos hs, if_neg hb] at h
      exact Except.noConfusion h
  · unfold Set NumShaderTypes at h
    rw [dif_neg hs] at h
    exact Except.noConfusion h

theorem testBit_mark (x i j : Nat) (hj : j < 16) :
    ((x ||| 2 ^ i) % 2 ^ 16).testBit j = (x.testBit j || decide (i = j)) := by
  rw [Nat.testBit_mod_two_pow, Nat.testBit_or, Nat.testBit_two_pow]
  simp [hj]

theorem mark_lt (x i : Nat) (hx : x < 2 ^ 6) (hi : i < 6) : (x ||| 2 ^ i) % 2 ^ 16 < 2 ^ 6 := by
  have h1 : x ||| 2 ^ i < 2 ^ 6 :=
    Nat.or_lt_two_pow hx (Nat.pow_lt_pow_right (by decide) hi)
  have h2 : (x ||| 2 ^ i) % 2 ^ 16 ≤ x ||| 2 ^ i := Nat.mod_le _ _
  omega

theorem Invariant_default : D3D11ResourceBindPoints.default.Invariant := by
  refine ⟨by decide, ?_⟩
  intro i
  simp [D3D11ResourceBindPoints.default]

theorem Invariant_Set (R : D3D11ResourceBindPoints) (hR : R.Invariant) (s b : Nat)
    (res : Nat × D3D11ResourceBindPoints) (h : R.Set s b = .ok res) : res.2.Invariant := by
  obtain ⟨hs, hb, rfl⟩ := bindPoints_Set_ok_inv R s b res h
  refine ⟨mark_lt _ _ hR.1 hs, ?_⟩
  intro i
  simp only
  rw [testBit_mark _ _ _ (by omega)]
  by_cases hi : i = ⟨s, hs⟩
  · subst hi
    simp only [decide_True, Bool.or_true, Function.update_same, true_iff]
    unfold InvalidBindPoint at hb ⊢
    omega
  · have hne : s ≠ (i : Nat) := fun h => hi (Fin.ext h.symm)
    rw [Function.update_noteq hi]
    simp only [hne, decide_False, Bool.or_false]
    exact hR.2 i


theorem bit_lt_of_lt_two_pow {x n j : Nat} (hx : x < 2 ^ n) (hj : x.testBit j = true) : j < n := by
  by_contra hge
  rw [testBit_false_of_lt_two_pow hx (by omega)] at hj
  exact Bool.noConfusion hj

theorem shiftLoop_pre (B : Fin 6 → Nat) (value : Nat) :
    ∀ (budget Stages : Nat) (New New' : Fin 6 → Nat), Stages < 2 ^ 32 →
      shiftLoop B value budget Stages New = .ok New' →
      ∀ j : Fin 6, Stages.testBit j = true → (B j + value) % 2 ^ 32 < InvalidBindPoint := by
  intro budget
  induction budget with
  | zero =>
    intro Stages New New' _ hrun j hj
    by_cases h0 : Stages = 0
    · subst h0; simp at hj
    · simp [shiftLoop, SHADER_TYPE_UNKNOWN, h0] at hrun
  | succ budget ih =>
    intro Stages New New' hlt hrun j hj
    by_cases h0 : Stages = 0
    · subst h0; simp at hj
    · have hfst := ExtractFirstShaderStageIndex_fst Stages h0
      have hsnd := ExtractFirstShaderStageIndex_snd Stages h0 hlt
      rw [shiftLoop] at hrun
      simp only [SHADER_TYPE_UNKNOWN, h0, if_false] at hrun
      by_cases hcond : 0 ≤ (ExtractFirstShaderStageIndex Stages).1 ∧
          (ExtractFirstShaderStageIndex Stages).1.toNat < 6
      · rw [dif_pos hcond] at hrun
        have h6 : GetLSB Stages < 6 := by
          have := hcond.2
          rw [hfst] at this
          simpa using this
        have hidx : (⟨(ExtractFirstShaderStageIndex Stages).1.toNat, hcond.2⟩ : Fin 6) =
            ⟨GetLSB Stages, h6⟩ := by
          apply Fin.ext; simp [hfst]
        rw [hidx] at hrun
        by_cases hchk : (B ⟨GetLSB Stages, h6⟩ + value) % 2 ^ 32 < InvalidBindPoint
        · rw [if_pos hchk] at hrun
          by_cases hj0 : (j : Nat) = GetLSB Stages
          · have : j = ⟨GetLSB Stages, h6⟩ := Fin.ext hj0
            rw [this]; exact hchk
          · refine ih _ _ New' (lt_of_le_of_lt (ExtractFirstShaderStageIndex_snd_le Stages) hlt)
              hrun j ?_
            rw [hsnd j, hj]
            simp [hj0]
        · rw [if_neg hchk] at hrun
          exact Except.noConfusion hrun
      · rw [dif_neg hcond] at hrun
        exact Except.noConfusion hrun

theorem shiftLoop_within_budget (B : Fin 6 → Nat) (value : Nat) :
    ∀ (budget Stages : Nat) (New : Fin 6 → Nat) (lo : Nat), 16 ≤ lo + budget →
      Stages < 2 ^ 16 → (∀ j, Stages.testBit j = true → lo ≤ j) →
      shiftLoop B value budget Stages New ≠ .error .LoopBudget := by
  intro budget
  induction budget with
  | zero =>
    intro Stages New lo hlo hlt hbits
    have h0 : Stages = 0 := by
      by_contra hne
      obtain ⟨j, hj⟩ := Nat.ne_zero_implies_bit_true hne
      have h1 := hbits j hj
      have h2 := bit_lt_of_lt_two_pow hlt hj
      omega
    subst h0
    simp [shiftLoop, SHADER_TYPE_UNKNOWN]
  | succ budget ih =>
    intro Stages New lo hlo hlt hbits
    by_cases h0 : Stages = 0
    · subst h0
      simp [shiftLoop, SHADER_TYPE_UNKNOWN]
    · have hlt32 : Stages < 2 ^ 32 := lt_trans hlt (by decide)
      obtain ⟨_, hset, hlow⟩ := GetLSB_spec Stages h0 hlt32
      have hsnd := ExtractFirstShaderStageIndex_snd Stages h0 hlt32
      rw [shiftLoop]
      simp only [SHADER_TYPE_UNKNOWN, h0, if_false]
      split
      · split
        · refine ih _ _ (GetLSB Stages + 1) (by have := hbits _ hset; omega)
            (lt_of_le_of_lt (ExtractFirstShaderStageIndex_snd_le Stages) hlt) ?_
          intro j hj
          rw [hsnd j] at hj
          simp only [Bool.and_eq_true, decide_eq_true_eq] at hj
          by_contra hlt2
          have := hlow j (by omega)
          rw [this] at hj
          exact Bool.noConfusion hj.1
        · intro h; injection h with h; exact Fault.noConfusion h
      · intro h; injection h with h; exact Fault.noConfusion h

/-- The sixteen rounds of the stage loop are enough for every `UInt16` mask:
`operator+` never stops for lack of rounds. -/
theorem operator_plus_within_budget (R : D3D11ResourceBindPoints) (k : Nat)
    (hmask : R.ActiveStages < 2 ^ 16) : R.operator_plus k ≠ .error .LoopBudget := by
  have h := shiftLoop_within_budget R.Bindings k 16 R.ActiveStages R.Bindings 0 (by omega) hmask
    (fun _ _ => Nat.zero_le _)
  unfold operator_plus GetActiveStages
  cases hrun : shiftLoop R.Bindings k 16 R.ActiveStages R.Bindings with
  | error f =>
    intro he
    injection he with he
    rw [he] at hrun
    exact h hrun
  | ok New => intro he; exact Except.noConfusion he

theorem operator_plus_ok (R : D3D11ResourceBindPoints) (k : Nat) (hR : R.Invariant)
    (hpre : ∀ i : Fin 6, R.ActiveStages.testBit i = true →
      (R.Bindings i + k) % 2 ^ 32 < InvalidBindPoint) :
    ∃ R', R.operator_plus k = .ok R' ∧ R'.ActiveStages = R.ActiveStages ∧
      ∀ i : Fin 6, R'.Bindings i =
        if R.ActiveStages.testBit i = true then (R.Bindings i + k % 2 ^ 8) % 2 ^ 8
        else R.Bindings i := by
  obtain ⟨New', hrun, hval⟩ := shiftLoop_ok R.Bindings k 16 R.ActiveStages R.Bindings 0
    (by omega) (lt_trans hR.1 (by decide))
    (by
      intro j hj
      have hj6 : j < 6 := bit_lt_of_lt_two_pow hR.1 hj
      exact ⟨Nat.zero_le _, hj6, hpre ⟨j, hj6⟩ hj⟩)
  refine ⟨{ Bindings := New', ActiveStages := R.ActiveStages }, ?_, rfl, hval⟩
  unfold operator_plus GetActiveStages
  rw [hrun]

theorem operator_plus_ok_inv (R R' : D3D11ResourceBindPoints) (k : Nat) (hR : R.Invariant)
    (h : R.operator_plus k = .ok R') :
    ∀ i : Fin 6, R.ActiveStages.testBit i = true →
      (R.Bindings i + k) % 2 ^ 32 < InvalidBindPoint := by
  unfold operator_plus GetActiveStages at h
  cases hrun : shiftLoop R.Bindings k 16 R.ActiveStages R.Bindings with
  | error f => rw [hrun] at h; exact Except.noConfusion h
  | ok New =>
    exact shiftLoop_pre R.Bindings k 16 R.ActiveStages R.Bindings New
      (lt_trans hR.1 (by decide)) hrun

theorem Invariant_shift (R R' : D3D11ResourceBindPoints) (k : Nat) (hR : R.Invariant)
    (h : R.operator_plus k = .ok R') : R'.Invariant := by
  have hpre := operator_plus_ok_inv R R' k hR h
  obtain ⟨R'', hrun, hact, hval⟩ := operator_plus_ok R k hR hpre
  rw [h] at hrun
  injection hrun with hrun
  subst hrun
  refine ⟨by rw [hact]; exact hR.1, ?_⟩
  intro i
  rw [hact, hval i]
  by_cases hb : R.ActiveStages.testBit i = true
  · rw [if_pos hb]
    have := hpre i hb
    simp only [hb, true_iff]
    unfold InvalidBindPoint at this ⊢
    omega
  · rw [if_neg hb]
    exact hR.2 i

theorem Invariant_of_Reachable (R : D3D11ResourceBindPoints) (h : R.Reachable) : R.Invariant := by
  induction h with
  | start => exact Invariant_default
  | afterSet s b ret _ hset ih => exact Invariant_Set _ ih s b _ hset
  | afterShift k _ hshift ih => exact Invariant_shift _ _ k ih hshift

theorem Invariant_sample : sample.Invariant := by
  refine ⟨by decide, ?_⟩
  unfold sample D3D11ResourceBindPoints.default InvalidBindPoint
  decide

theorem applySets_avoid (i : Fin 6) :
    ∀ (calls : List (Nat × Nat)) (R0 R : D3D11ResourceBindPoints), R0.Invariant →
      R0.ActiveStages.testBit i = false → (∀ c ∈ calls, c.1 ≠ (i : Nat)) →
      R0.applySets calls = .ok R → R.Invariant ∧ R.ActiveStages.testBit i = false := by
  intro calls
  induction calls with
  | nil =>
    intro R0 R h0 hbit _ hrun
    simp only [applySets] at hrun
    injection hrun with hrun
    subst hrun
    exact ⟨h0, hbit⟩
  | cons c rest ih =>
    intro R0 R h0 hbit havoid hrun
    simp only [applySets] at hrun
    cases hset : R0.Set c.1 c.2 with
    | error f => rw [hset] at hrun; exact Except.noConfusion hrun
    | ok res =>
      rw [hset] at hrun
      have hinv := Invariant_Set R0 h0 c.1 c.2 res hset
      obtain ⟨hs, _, hres⟩ := bindPoints_Set_ok_inv R0 c.1 c.2 res hset
      have hc : c.1 ≠ (i : Nat) := havoid c (List.mem_cons_self _ _)
      refine ih res.2 R hinv ?_ (fun d hd => havoid d (List.mem_cons_of_mem _ hd)) hrun
      rw [hres]
      simp only
      rw [testBit_mark _ _ _ (by omega), hbit]
      simp [hc]


/-- C1: for a record `R` satisfying the active-iff-valid invariant and an offset
`k` such that every active stage's bind point plus `k` stays below the sentinel
`0xFF`, `R + k` passes every check, has the same active stages as `R`, reads
`R[i] + k` at every active stage `i`, and still holds the sentinel at every
inactive stage. -/
theorem operator_plus_shifts_active_stages (R : D3D11ResourceBindPoints) (k : Nat)
    (hR : R.Invariant)
    (hpre : ∀ i : Fin 6, R.IsStageActive i = .ok true → R.Bindings i + k < InvalidBindPoint) :
    ∃ R', R.operator_plus k = .ok R' ∧
      R'.GetActiveStages = R.GetActiveStages ∧
      (∀ i : Fin 6, R'.IsStageActive i = R.IsStageActive i) ∧
      (∀ i : Fin 6, R.IsStageActive i = .ok true →
        R.operator_index i = .ok (R.Bindings i) ∧
        R'.operator_index i = .ok (R.Bindings i + k)) ∧
      (∀ i : Fin 6, R.IsStageActive i = .ok false →
        R'.Bindings i = InvalidBindPoint ∧ R'.operator_index i = .error .InactiveStage) := by
  have hact : ∀ i : Fin 6, R.IsStageActive i = .ok (R.ActiveStages.testBit i) :=
    IsStageActive_of_invariant R hR
  have hpre' : ∀ i : Fin 6, R.ActiveStages.testBit i = true →
      R.Bindings i + k < InvalidBindPoint := by
    intro i hi
    exact hpre i (by rw [hact i, hi])
  obtain ⟨R', hrun, hmask, hval⟩ := operator_plus_ok R k hR (by
    intro i hi
    have := hpre' i hi
    unfold InvalidBindPoint at this ⊢
    omega)
  have hR' : R'.Invariant := Invariant_shift R R' k hR hrun
  have hact' : ∀ i : Fin 6, R'.IsStageActive i = R.IsStageActive i := by
    intro i
    rw [IsStageActive_of_invariant R' hR' i, hact i, hmask]
  refine ⟨R', hrun, hmask, hact', ?_, ?_⟩
  · intro i hi
    refine ⟨operator_index_active R i hi, ?_⟩
    rw [operator_index_active R' i (by rw [hact' i, hi]), hval i]
    have hb : R.ActiveStages.testBit i = true := by
      rw [hact i] at hi
      injection hi
    rw [if_pos hb]
    have := hpre' i hb
    unfold InvalidBindPoint at this
    congr 1
    omega
  · intro i hi
    have hb : R.ActiveStages.testBit i = false := by
      rw [hact i] at hi
      injection hi
    refine ⟨?_, operator_index_inactive R' i (by rw [hact' i, hi])⟩
    rw [hval i, hb]
    simp only [Bool.false_eq_true, if_false]
    by_contra hne
    have := (hR.2 i).2 hne
    rw [hb] at this
    exact Bool.noConfusion this

/-- Witness of C1 at the record with stages 0 and 2 bound to slots 3 and 7,
shifted by 5. -/
theorem operator_plus_shifts_active_stages_witness :
    ∃ R', sample.operator_plus 5 = .ok R' ∧
      R'.GetActiveStages = sample.GetActiveStages ∧
      (∀ i : Fin 6, R'.IsStageActive i = sample.IsStageActive i) ∧
      (∀ i : Fin 6, sample.IsStageActive i = .ok true →
        sample.operator_index i = .ok (sample.Bindings i) ∧
        R'.operator_index i = .ok (sample.Bindings i + 5)) ∧
      (∀ i : Fin 6, sample.IsStageActive i = .ok false →
        R'.Bindings i = InvalidBindPoint ∧ R'.operator_index i = .error .InactiveStage) :=
  operator_plus_shifts_active_stages sample 5 Invariant_sample (by
    intro i hi
    have h := IsStageActive_of_invariant sample Invariant_sample i
    rw [hi] at h
    injection h with h
    have key : ∀ j : Fin 6, true = sample.ActiveStages.testBit j →
        sample.Bindings j + 5 < InvalidBindPoint := by
      unfold sample D3D11ResourceBindPoints.default InvalidBindPoint
      decide
    exact key i h)

/-- C5: every record reachable from the default constructor through `Set` and
`operator+` calls whose checks pass has, at each of the six stages, its active
bit set exactly when the stored slot differs from the sentinel `0xFF`;
`IsStageActive` therefore passes its check and returns that bit. -/
theorem reachable_active_iff_valid (R : D3D11ResourceBindPoints) (h : R.Reachable) :
    ∀ i : Fin 6,
      (((R.GetActiveStages &&& GetShaderTypeFromIndex i) != 0) = true ↔
        R.Bindings i ≠ InvalidBindPoint) ∧
      R.IsStageActive i = .ok ((R.GetActiveStages &&& GetShaderTypeFromIndex i) != 0) := by
  intro i
  have hR := Invariant_of_Reachable R h
  have hbit : ((R.GetActiveStages &&& GetShaderTypeFromIndex i) != 0) =
      R.ActiveStages.testBit i := by
    unfold GetActiveStages
    rw [stage_bit_eq i (by omega), and_two_pow_ne_zero]
  rw [hbit]
  exact ⟨hR.2 i, IsStageActive_of_invariant R hR i⟩

/-- Witness of C5: the record built by `Set(0, 3)`, `Set(2, 7)` is reachable;
the statement is read at stage 2. -/
theorem reachable_active_iff_valid_witness :
    (((sample.GetActiveStages &&& GetShaderTypeFromIndex (2 : Fin 6)) != 0) = true ↔
        sample.Bindings 2 ≠ InvalidBindPoint) ∧
      sample.IsStageActive (2 : Fin 6) =
        .ok ((sample.GetActiveStages &&& GetShaderTypeFromIndex (2 : Fin 6)) != 0) :=
  reachable_active_iff_valid sample
    (Reachable.afterSet 2 7 7 (Reachable.afterSet 0 3 3 Reachable.start rfl) rfl) 2

/-- C6: in a record built from the default constructor by `Set` calls on stages
other than `i`, `IsStageActive(i)` is false and reading the bind point of stage
`i` fails the check of `operator[]`; the default record is empty. -/
theorem unset_stage_inactive (i : Fin 6) (calls : List (Nat × Nat))
    (R : D3D11ResourceBindPoints) (havoid : ∀ c ∈ calls, c.1 ≠ (i : Nat))
    (hbuilt : D3D11ResourceBindPoints.default.applySets calls = .ok R) :
    R.IsStageActive i = .ok false ∧ R.operator_index i = .error .InactiveStage ∧
      D3D11ResourceBindPoints.default.IsEmpty = true := by
  obtain ⟨hR, hbit⟩ := applySets_avoid i calls D3D11ResourceBindPoints.default R
    Invariant_default (by simp [D3D11ResourceBindPoints.default]) havoid hbuilt
  have hact : R.IsStageActive i = .ok false := by
    rw [IsStageActive_of_invariant R hR i, hbit]
  exact ⟨hact, operator_index_inactive R i hact, rfl⟩

/-- Witness of C6: after `Set(0, 3)` and `Set(2, 7)` stage 1 is inactive. -/
theorem unset_stage_inactive_witness :
    sample.IsStageActive (1 : Fin 6) = .ok false ∧
      sample.operator_index (1 : Fin 6) = .error .InactiveStage ∧
      D3D11ResourceBindPoints.default.IsEmpty = true :=
  unset_stage_inactive 1 [(0, 3), (2, 7)] sample (by decide) rfl


theorem IsStageActive_congr (R R' : D3D11ResourceBindPoints) (j : Fin 6)
    (hbit : R'.ActiveStages.testBit j = R.ActiveStages.testBit j)
    (hslot : R'.Bindings j = R.Bindings j) : R'.IsStageActive j = R.IsStageActive j := by
  unfold IsStageActive GetActiveStages
  rw [dif_pos j.isLt, dif_pos j.isLt, stage_bit_eq j (by omega), and_two_pow_ne_zero,
    and_two_pow_ne_zero, hbit, hslot]

theorem operator_index_congr (R R' : D3D11ResourceBindPoints) (j : Fin 6)
    (hact : R'.IsStageActive j = R.IsStageActive j)
    (hslot : R'.Bindings j = R.Bindings j) : R'.operator_index j = R.operator_index j := by
  unfold operator_index
  simp only [hact, dif_pos j.isLt, Fin.eta, hslot]

/-- C7: for any record, stage `i` and bind point `b < 0xFF`, `Set(i, b)` passes
its checks and returns `b`; afterwards stage `i` is active and reads back `b`
(whatever it held before), and every other stage keeps its active bit, its
stored slot, and the results of `IsStageActive` and `operator[]`. The
`StageAccessor` assignment and conversion behave the same way. -/
theorem Set_writes_one_stage (R : D3D11ResourceBindPoints) (i : Fin 6) (b : Nat)
    (hb : b < InvalidBindPoint) :
    ∃ R', R.Set i b = .ok (b, R') ∧ R.StageAccessor_assign i b = .ok (b, R') ∧
      R'.IsStageActive i = .ok true ∧ R'.operator_index i = .ok b ∧
      R'.StageAccessor_read i = .ok b ∧
      ∀ j : Fin 6, j ≠ i →
        R'.ActiveStages.testBit j = R.ActiveStages.testBit j ∧
        R'.Bindings j = R.Bindings j ∧
        R'.IsStageActive j = R.IsStageActive j ∧
        R'.operator_index j = R.operator_index j := by
  have hset := bindPoints_Set_ok R i b hb
  have hbi : ((R.ActiveStages ||| 2 ^ (i : Nat)) % 2 ^ 16).testBit i = true := by
    rw [testBit_mark _ _ _ (by omega)]
    simp
  have hne : b ≠ InvalidBindPoint := Nat.ne_of_lt hb
  have hact : ({ Bindings := Function.update R.Bindings i b
                 ActiveStages := (R.ActiveStages ||| 2 ^ (i : Nat)) % 2 ^ 16 } :
      D3D11ResourceBindPoints).IsStageActive i = .ok true := by
    rw [IsStageActive_of_agree _ i ?_, hbi]
    simp only [Function.update_same]
    exact ⟨fun _ => hne, fun _ => hbi⟩
  have hread := operator_index_active _ i hact
  simp only [Function.update_same] at hread
  refine ⟨_, hset, hset, hact, hread, hread, ?_⟩
  intro j hj
  have hbit : ((R.ActiveStages ||| 2 ^ (i : Nat)) % 2 ^ 16).testBit j =
      R.ActiveStages.testBit j := by
    rw [testBit_mark _ _ _ (by omega)]
    have : (i : Nat) ≠ (j : Nat) := fun h => hj (Fin.ext h.symm)
    simp [this]
  have hslot : Function.update R.Bindings i b j = R.Bindings j := Function.update_noteq hj _ _
  have hact' := IsStageActive_congr R
    { Bindings := Function.update R.Bindings i b
      ActiveStages := (R.ActiveStages ||| 2 ^ (i : Nat)) % 2 ^ 16 } j hbit hslot
  exact ⟨hbit, hslot, hact', operator_index_congr R _ j hact' hslot⟩

/-- Witness of C7: overwriting stage 2 of the sample record (slot 7) with 9. -/
theorem Set_writes_one_stage_witness :
    ∃ R', sample.Set (2 : Fin 6) 9 = .ok (9, R') ∧
      sample.StageAccessor_assign (2 : Fin 6) 9 = .ok (9, R') ∧
      R'.IsStageActive (2 : Fin 6) = .ok true ∧ R'.operator_index (2 : Fin 6) = .ok 9 ∧
      R'.StageAccessor_read (2 : Fin 6) = .ok 9 ∧
      ∀ j : Fin 6, j ≠ 2 →
        R'.ActiveStages.testBit j = sample.ActiveStages.testBit j ∧
        R'.Bindings j = sample.Bindings j ∧
        R'.IsStageActive j = sample.IsStageActive j ∧
        R'.operator_index j = sample.operator_index j :=
  Set_writes_one_stage sample 2 9 (by decide)

/-- C8, as the code has it: for a stage below six, `Set(stage, bindPoint)`
passes exactly when `bindPoint < 0xFF` and then stores `bindPoint`; every
`bindPoint` of 255 or more, the sentinel included, fails the range check. -/
theorem Set_accepts_iff_below_sentinel (R : D3D11ResourceBindPoints) (i : Fin 6) (b : Nat) :
    ((∃ res, R.Set i b = .ok res) ↔ b < 255) ∧
      (b < 255 → ∃ R', R.Set i b = .ok (b, R') ∧ R'.Bindings i = b) ∧
      (255 ≤ b → R.Set i b = .error .BindPointOutOfRange) := by
  have hrej : 255 ≤ b → R.Set i b = .error .BindPointOutOfRange := by
    intro h
    unfold Set NumShaderTypes InvalidBindPoint
    rw [dif_pos i.isLt, if_neg (by omega)]
  have hacc : b < 255 → ∃ R', R.Set i b = .ok (b, R') ∧ R'.Bindings i = b := by
    intro h
    exact ⟨_, bindPoints_Set_ok R i b h, by simp⟩
  refine ⟨⟨?_, ?_⟩, hacc, hrej⟩
  · intro ⟨res, hres⟩
    by_contra hge
    rw [hrej (by omega)] at hres
    exact Except.noConfusion hres
  · intro h
    obtain ⟨R', h1, _⟩ := hacc h
    exact ⟨_, h1⟩

/-- Witness of C8 (amended): stage 0 of the default record, bind points 254
and 255. -/
theorem Set_accepts_iff_below_sentinel_witness :
    (∃ R', D3D11ResourceBindPoints.default.Set (0 : Fin 6) 254 = .ok (254, R') ∧
        R'.Bindings 0 = 254) ∧
      D3D11ResourceBindPoints.default.Set (0 : Fin 6) 255 = .error .BindPointOutOfRange :=
  ⟨(Set_accepts_iff_below_sentinel D3D11ResourceBindPoints.default 0 254).2.1 (by decide),
   (Set_accepts_iff_below_sentinel D3D11ResourceBindPoints.default 0 255).2.2 (by decide)⟩

/-- C8 fails as stated: the bind point 255 is representable in 8 bits, yet
`Set(0, 255)` on the default record fails the range check. -/
theorem Set_rejects_255 :
    (255 : Nat) < 2 ^ 8 ∧
      D3D11ResourceBindPoints.default.Set 0 255 = .error .BindPointOutOfRange ∧
      ¬ ∃ res, D3D11ResourceBindPoints.default.Set 0 255 = .ok res :=
  ⟨by decide, rfl, fun ⟨_, h⟩ => Except.noConfusion h⟩

theorem operator_eq_iff (R1 R2 : D3D11ResourceBindPoints) :
    R1.operator_eq R2 = true ↔ ∀ i : Fin 6, R1.Bindings i = R2.Bindings i := by
  unfold operator_eq
  exact decide_eq_true_iff

theorem mask_eq_of_slots_eq (R1 R2 : D3D11ResourceBindPoints) (h1 : R1.Invariant)
    (h2 : R2.Invariant) (hB : ∀ i : Fin 6, R1.Bindings i = R2.Bindings i) :
    R1.ActiveStages = R2.ActiveStages := by
  apply Nat.eq_of_testBit_eq
  intro j
  by_cases hj : j < 6
  · have e1 := h1.2 ⟨j, hj⟩
    have e2 := h2.2 ⟨j, hj⟩
    rw [hB ⟨j, hj⟩] at e1
    simp only at e1 e2
    cases hb1 : R1.ActiveStages.testBit j <;> cases hb2 : R2.ActiveStages.testBit j
    · rfl
    · exact absurd (e1.2 (e2.1 hb2)) (by rw [hb1]; simp)
    · exact absurd (e2.2 (e1.1 hb1)) (by rw [hb2]; simp)
    · rfl
  · rw [testBit_false_of_lt_two_pow h1.1 (by omega),
      testBit_false_of_lt_two_pow h2.1 (by omega)]

/-- C10: `R1 == R2` holds exactly when the six stored slots are pairwise
equal, and it never reads the active-stage mask; equal records have equal
`GetHash()` values; and for records satisfying the active-iff-valid invariant
equality implies equal sets of active stages. -/
theorem operator_eq_structural (HashCombine : Nat → Nat → Nat)
    (R1 R2 : D3D11ResourceBindPoints) :
    (R1.operator_eq R2 = true ↔ ∀ i : Fin 6, R1.Bindings i = R2.Bindings i) ∧
      (∀ m1 m2 : Nat,
        operator_eq { Bindings := R1.Bindings, ActiveStages := m1 }
          { Bindings := R2.Bindings, ActiveStages := m2 } = R1.operator_eq R2) ∧
      (R1.operator_eq R2 = true → R1.GetHash HashCombine = R2.GetHash HashCombine) ∧
      (R1.Invariant → R2.Invariant → R1.operator_eq R2 = true →
        R1.GetActiveStages = R2.GetActiveStages ∧
        ∀ i : Fin 6, R1.IsStageActive i = R2.IsStageActive i) := by
  refine ⟨operator_eq_iff R1 R2, fun _ _ => rfl, ?_, ?_⟩
  · intro h
    have hB : R1.Bindings = R2.Bindings := funext ((operator_eq_iff R1 R2).1 h)
    unfold GetHash
    rw [hB]
  · intro h1 h2 h
    have hB := (operator_eq_iff R1 R2).1 h
    have hmask : R1.ActiveStages = R2.ActiveStages := mask_eq_of_slots_eq R1 R2 h1 h2 hB
    refine ⟨hmask, ?_⟩
    intro i
    exact IsStageActive_congr R2 R1 i (by rw [hmask]) (hB i)

/-- Witness of C10: the sample record against a copy of its slots. -/
theorem operator_eq_structural_witness :
    sample.operator_eq sample = true ∧
      sample.GetHash (fun seed v => 31 * seed + v) = sample.GetHash (fun seed v => 31 * seed + v) ∧
      sample.GetActiveStages = sample.GetActiveStages :=
  ⟨(operator_eq_structural (fun seed v => 31 * seed + v) sample sample).1.2 (fun _ => rfl),
   (operator_eq_structural (fun seed v => 31 * seed + v) sample sample).2.2.1
     ((operator_eq_iff sample sample).2 (fun _ => rfl)),
   ((operator_eq_structural (fun seed v => 31 * seed + v) sample sample).2.2.2
     Invariant_sample Invariant_sample ((operator_eq_iff sample sample).2 (fun _ => rfl))).1⟩

end D3D11ResourceBindPoints
namespace D3D11ResourceRangeCounters

theorem StageMask_eq : StageMask = 2 ^ 8 - 1 := by decide

theorem MaxCounter_eq : MaxCounter = 255 := by decide

theorem counter_eq (C : D3D11ResourceRangeCounters) (s : Nat) :
    C.counter s = C.PackedCounters / 2 ^ (8 * s) % 2 ^ 8 := by
  unfold counter NumBitsPerStage
  rw [StageMask_eq, Nat.and_pow_two_sub_one_eq_mod, Nat.mod_mod, Nat.shiftRight_eq_div_pow]

theorem counter_testBit (C : D3D11ResourceRangeCounters) (s j : Nat) :
    (C.counter s).testBit j = (decide (j < 8) && C.PackedCounters.testBit (8 * s + j)) := by
  unfold counter NumBitsPerStage
  rw [StageMask_eq, Nat.and_pow_two_sub_one_eq_mod, Nat.mod_mod, Nat.testBit_mod_two_pow,
    Nat.testBit_shiftRight]

theorem counters_index_ok (C : D3D11ResourceRangeCounters) (s : Nat) (hs : s < 6) :
    C.operator_index s = .ok (C.counter s) := by
  unfold operator_index NumShaderTypes D3D11ResourceBindPoints.NumShaderTypes
  rw [if_pos hs]

theorem sumsInRange_of_forall (C rhs : D3D11ResourceRangeCounters) :
    ∀ n s, (∀ t, s ≤ t → t < s + n → C.counter t + rhs.counter t ≤ 255) →
      sumsInRange C rhs n s = true := by
  intro n
  induction n with
  | zero => intro s _; rfl
  | succ n ih =>
    intro s h
    have h0 := h s (le_refl _) (by omega)
    unfold sumsInRange
    simp only
    rw [MaxCounter_eq, if_pos (by omega)]
    exact ih (s + 1) (fun t h1 h2 => h t (by omega) (by omega))


theorem byte_add_no_carry (x y : Nat) (h : x % 2 ^ 8 + y % 2 ^ 8 ≤ 255) :
    (x + y) / 2 ^ 8 = x / 2 ^ 8 + y / 2 ^ 8 ∧ (x + y) % 2 ^ 8 = x % 2 ^ 8 + y % 2 ^ 8 := by
  have e : (2 : Nat) ^ 8 = 256 := by decide
  rw [e] at h ⊢
  omega

theorem div_pow_succ (x s : Nat) : x / 2 ^ (8 * (s + 1)) = x / 2 ^ (8 * s) / 2 ^ 8 := by
  rw [Nat.div_div_eq_div_mul, ← Nat.pow_add]
  rfl

theorem add_div_of_no_carry (P Q : Nat) :
    ∀ s, (∀ t, t < s → P / 2 ^ (8 * t) % 2 ^ 8 + Q / 2 ^ (8 * t) % 2 ^ 8 ≤ 255) →
      (P + Q) / 2 ^ (8 * s) = P / 2 ^ (8 * s) + Q / 2 ^ (8 * s) := by
  intro s
  induction s with
  | zero => intro _; simp
  | succ s ih =>
    intro h
    have hs := ih (fun t ht => h t (by omega))
    rw [div_pow_succ, div_pow_succ, div_pow_succ, hs]
    exact (byte_add_no_carry _ _ (h s (by omega))).1

theorem mod_word_byte (n s : Nat) (hs : s < 8) :
    n % 2 ^ 64 / 2 ^ (8 * s) % 2 ^ 8 = n / 2 ^ (8 * s) % 2 ^ 8 := by
  apply Nat.eq_of_testBit_eq
  intro j
  rw [Nat.testBit_mod_two_pow, Nat.testBit_mod_two_pow, ← Nat.shiftRight_eq_div_pow,
    ← Nat.shiftRight_eq_div_pow, Nat.testBit_shiftRight, Nat.testBit_shiftRight,
    Nat.testBit_mod_two_pow]
  by_cases hj : j < 8
  · have : 8 * s + j < 64 := by omega
    simp [hj, this]
  · simp [hj]

theorem packedAdd_counter (C rhs : D3D11ResourceRangeCounters)
    (hsum : ∀ s, s < 6 → C.counter s + rhs.counter s ≤ 255) (s : Nat) (hs : s < 6) :
    (C.packedAdd rhs).counter s = C.counter s + rhs.counter s := by
  have hsum' : ∀ t, t < 6 →
      C.PackedCounters / 2 ^ (8 * t) % 2 ^ 8 + rhs.PackedCounters / 2 ^ (8 * t) % 2 ^ 8 ≤ 255 := by
    intro t ht
    have := hsum t ht
    rwa [counter_eq, counter_eq] at this
  rw [counter_eq, counter_eq, counter_eq]
  unfold packedAdd
  simp only
  rw [mod_word_byte _ s (by omega),
    add_div_of_no_carry _ _ s (fun t ht => hsum' t (by omega))]
  exact (byte_add_no_carry _ _ (hsum' s hs)).2

/-- C2: when every stage-wise sum `C1[s] + C2[s]`, `s` in 0..5, is at most 255,
`C1 += C2` passes its check and the counter of every stage of the result is the
sum of the two old counters: the one 64-bit addition of the packed words is the
stage-wise addition. -/
theorem operator_plus_assign_stagewise (C1 C2 : D3D11ResourceRangeCounters)
    (hsum : ∀ s, s < 6 → C1.counter s + C2.counter s ≤ 255) :
    C1.operator_plus_assign C2 = .ok (C1.packedAdd C2) ∧
      ∀ s, s < 6 → ∃ a b, C1.operator_index s = .ok a ∧ C2.operator_index s = .ok b ∧
        (C1.packedAdd C2).operator_index s = .ok (a + b) := by
  constructor
  · unfold operator_plus_assign NumShaderTypes D3D11ResourceBindPoints.NumShaderTypes
    rw [sumsInRange_of_forall C1 C2 6 0 (fun t _ h2 => hsum t (by omega))]
    rfl
  · intro s hs
    refine ⟨C1.counter s, C2.counter s, counters_index_ok C1 s hs, counters_index_ok C2 s hs, ?_⟩
    rw [counters_index_ok _ s hs, packedAdd_counter C1 C2 hsum s hs]

/-- Witness of C2: counters (2, 1) plus counters (1, 254) on stages 0 and 1. -/
theorem operator_plus_assign_stagewise_witness :
    operator_plus_assign { PackedCounters := 0x0102 } { PackedCounters := 0xFE01 } =
        .ok (packedAdd { PackedCounters := 0x0102 } { PackedCounters := 0xFE01 }) ∧
      ∀ s, s < 6 → ∃ a b,
        operator_index { PackedCounters := 0x0102 } s = .ok a ∧
        operator_index { PackedCounters := 0xFE01 } s = .ok b ∧
        (packedAdd { PackedCounters := 0x0102 } { PackedCounters := 0xFE01 }).operator_index s =
          .ok (a + b) :=
  operator_plus_assign_stagewise { PackedCounters := 0x0102 } { PackedCounters := 0xFE01 }
    (by decide)


theorem counters_Set_ok (C : D3D11ResourceRangeCounters) (s v : Nat) (hs : s < 8) (hv : v ≤ 255) :
    C.Set s v = .ok (v,
      { PackedCounters :=
          (C.PackedCounters &&& ((2 ^ 64 - 1) ^^^ (((2 ^ 8 - 1) <<< (8 * s)) % 2 ^ 64))) |||
            ((v <<< (8 * s)) % 2 ^ 64) }) := by
  have hoff : (8 * s) % 2 ^ 64 = 8 * s := Nat.mod_eq_of_lt (by omega)
  have hmod : v % 2 ^ 8 = v := Nat.mod_eq_of_lt (by omega)
  unfold Set NumBitsPerStage
  rw [MaxCounter_eq, if_pos hv]
  simp only [hoff]
  rw [if_pos (by omega), hmod, StageMask_eq]

theorem Set_testBit (P s v m : Nat) (hv : v < 2 ^ 8) (hm : m < 64) :
    ((P &&& ((2 ^ 64 - 1) ^^^ (((2 ^ 8 - 1) <<< (8 * s)) % 2 ^ 64))) |||
        ((v <<< (8 * s)) % 2 ^ 64)).testBit m =
      if 8 * s ≤ m ∧ m < 8 * s + 8 then v.testBit (m - 8 * s) else P.testBit m := by
  rw [Nat.testBit_or, Nat.testBit_and, Nat.testBit_xor, Nat.testBit_mod_two_pow,
    Nat.testBit_mod_two_pow, Nat.testBit_shiftLeft, Nat.testBit_shiftLeft,
    Nat.testBit_two_pow_sub_one, Nat.testBit_two_pow_sub_one]
  by_cases h1 : 8 * s ≤ m
  · by_cases h2 : m < 8 * s + 8
    · have h3 : m - 8 * s < 8 := by omega
      simp [h1, h2, h3, hm]
    · have h3 : ¬ m - 8 * s < 8 := by omega
      have h4 : v.testBit (m - 8 * s) = false :=
        testBit_false_of_lt_two_pow hv (by omega)
      simp [h1, h2, h3, h4, hm]
  · have h1' : ¬ m ≥ 8 * s := h1
    simp [h1, h1', hm]

/-- C9: for any counter set, stage `s` in 0..5 and counter `v <= 255`, `Set`
passes its check and returns `v`; afterwards stage `s` reads back `v` and every
other stage reads what it read before. A default-constructed counter set reads
0 at every stage. -/
theorem Set_then_read (C : D3D11ResourceRangeCounters) (s v : Nat) (hs : s < 6)
    (hv : v ≤ 255) :
    (∃ C', C.Set s v = .ok (v, C') ∧ C'.operator_index s = .ok v ∧
      ∀ t, t < 6 → t ≠ s → C'.operator_index t = C.operator_index t) ∧
      ∀ t, t < 6 → D3D11ResourceRangeCounters.default.operator_index t = .ok 0 := by
  constructor
  · refine ⟨_, counters_Set_ok C s v (by omega) hv, ?_, ?_⟩
    · rw [counters_index_ok _ s hs]
      congr 1
      apply Nat.eq_of_testBit_eq
      intro j
      rw [counter_testBit]
      by_cases hj : j < 8
      · simp only [hj, decide_True, Bool.true_and]
        rw [Set_testBit _ _ _ _ (by omega) (by omega), if_pos (by omega)]
        congr 1
        omega
      · simp only [hj, decide_False, Bool.false_and]
        exact (testBit_false_of_lt_two_pow (n := 8) (by omega) (by omega)).symm
    · intro t ht hts
      rw [counters_index_ok _ t ht, counters_index_ok _ t ht]
      congr 1
      apply Nat.eq_of_testBit_eq
      intro j
      rw [counter_testBit, counter_testBit]
      by_cases hj : j < 8
      · simp only [hj, decide_True, Bool.true_and]
        rw [Set_testBit _ _ _ _ (by omega) (by omega), if_neg (by omega)]
      · simp only [hj, decide_False, Bool.false_and]
  · intro t ht
    rw [counters_index_ok _ t ht, counter_eq]
    simp [D3D11ResourceRangeCounters.default]

/-- Witness of C9: writing 200 to stage 2 of a set holding 1 at stage 0 and 2
at stage 1. -/
theorem Set_then_read_witness :
    (∃ C', Set { PackedCounters := 0x0201 } 2 200 = .ok (200, C') ∧
      C'.operator_index 2 = .ok 200 ∧
      ∀ t, t < 6 → t ≠ 2 →
        C'.operator_index t = operator_index { PackedCounters := 0x0201 } t) ∧
      ∀ t, t < 6 → D3D11ResourceRangeCounters.default.operator_index t = .ok 0 :=
  Set_then_read { PackedCounters := 0x0201 } 2 200 (by decide) (by decide)

end D3D11ResourceRangeCounters

namespace PipelineResourceAttribsD3D11

theorem construct_ok_inv (bp : D3D11ResourceBindPoints) (s : Nat) (flag : Bool)
    (a : PipelineResourceAttribsD3D11) (h : construct bp s flag = .ok a) :
    a = { SamplerInd := s, ImtblSamplerAssigned := if flag then 1 else 0, BindPoints := bp } := by
  unfold construct at h
  simp only at h
  by_cases hs : s % 2 ^ _SamplerIndBits = s
  · rw [if_pos hs, hs] at h
    injection h with h
    exact h.symm
  · rw [if_neg hs] at h
    exact Except.noConfusion h

theorem flag_getter_eq_iff (x y : Nat) (hx : x < 2) (hy : y < 2) :
    ((x != 0) = (y != 0)) ↔ x = y := by
  have hx' : x = 0 ∨ x = 1 := by omega
  have hy' : y = 0 ∨ y = 1 := by omega
  rcases hx' with h | h <;> rcases hy' with g | g <;> subst h <;> subst g <;> decide

/-- C3: `a.IsCompatibleWith(b)` holds exactly when the two records have the
same immutable-sampler flag and the same bind point in each of the six stage
slots: the flag is the stored one-bit field, and for records made by the
constructor it is the flag argument, so records made with different flags are
never compatible (for bind points satisfying the active-iff-valid invariant:
exactly when the flags are equal and the bind-point records are equal); records
constructed from the same bind points and flag but any two sampler indices are
compatible in both directions. -/
theorem D3D11_IsCompatibleWith_ignores_sampler (a b : PipelineResourceAttribsD3D11) :
    (a.IsCompatibleWith b = true ↔
      (a.IsImmutableSamplerAssigned = b.IsImmutableSamplerAssigned ∧
        ∀ i : Fin 6, a.BindPoints.Bindings i = b.BindPoints.Bindings i)) ∧
      (a.BindPoints.Invariant → b.BindPoints.Invariant →
        (a.IsCompatibleWith b = true ↔
          (a.IsImmutableSamplerAssigned = b.IsImmutableSamplerAssigned ∧
            a.BindPoints = b.BindPoints))) ∧
      (∀ (bp : D3D11ResourceBindPoints) (flag : Bool) (s1 s2 : Nat)
          (x y : PipelineResourceAttribsD3D11),
        construct bp s1 flag = .ok x → construct bp s2 flag = .ok y →
          x.IsCompatibleWith y = true ∧ y.IsCompatibleWith x = true) ∧
      (a.ImtblSamplerAssigned < 2 → b.ImtblSamplerAssigned < 2 →
        (a.IsCompatibleWith b = true ↔
          (a.ImtblSamplerAssigned = b.ImtblSamplerAssigned ∧
            ∀ i : Fin 6, a.BindPoints.Bindings i = b.BindPoints.Bindings i))) ∧
      (∀ (bp1 bp2 : D3D11ResourceBindPoints) (f1 f2 : Bool) (s1 s2 : Nat)
          (x y : PipelineResourceAttribsD3D11),
        construct bp1 s1 f1 = .ok x → construct bp2 s2 f2 = .ok y →
          x.IsImmutableSamplerAssigned = f1 ∧ y.IsImmutableSamplerAssigned = f2 ∧
          (x.IsCompatibleWith y = true ↔
            (f1 = f2 ∧ ∀ i : Fin 6, bp1.Bindings i = bp2.Bindings i)) ∧
          (f1 ≠ f2 → x.IsCompatibleWith y = false)) := by
  have hiff : a.IsCompatibleWith b = true ↔
      (a.IsImmutableSamplerAssigned = b.IsImmutableSamplerAssigned ∧
        ∀ i : Fin 6, a.BindPoints.Bindings i = b.BindPoints.Bindings i) := by
    unfold IsCompatibleWith
    rw [Bool.and_eq_true, beq_iff_eq, D3D11ResourceBindPoints.operator_eq_iff]
  refine ⟨hiff, ?_, ?_, ?_, ?_⟩
  · intro ha hb
    rw [hiff]
    constructor
    · intro ⟨hf, hs⟩
      refine ⟨hf, ?_⟩
      have hm := D3D11ResourceBindPoints.mask_eq_of_slots_eq _ _ ha hb hs
      cases hA : a.BindPoints with
      | mk Ba ma =>
        cases hB : b.BindPoints with
        | mk Bb mb =>
          rw [hA, hB] at hm hs
          simp only at hm hs
          rw [funext hs, hm]
    · intro ⟨hf, he⟩
      exact ⟨hf, fun i => by rw [he]⟩
  · intro bp flag s1 s2 x y hx hy
    rw [construct_ok_inv bp s1 flag x hx, construct_ok_inv bp s2 flag y hy]
    unfold IsCompatibleWith IsImmutableSamplerAssigned
    simp [D3D11ResourceBindPoints.operator_eq_iff]
  · intro ha hb
    rw [hiff]
    unfold IsImmutableSamplerAssigned
    rw [flag_getter_eq_iff _ _ ha hb]
  · intro bp1 bp2 f1 f2 s1 s2 x y hx hy
    have ex := construct_ok_inv bp1 s1 f1 x hx
    have ey := construct_ok_inv bp2 s2 f2 y hy
    have gx : x.IsImmutableSamplerAssigned = f1 := by
      rw [ex]; unfold IsImmutableSamplerAssigned; cases f1 <;> rfl
    have gy : y.IsImmutableSamplerAssigned = f2 := by
      rw [ey]; unfold IsImmutableSamplerAssigned; cases f2 <;> rfl
    have hxy : x.IsCompatibleWith y = true ↔
        (f1 = f2 ∧ ∀ i : Fin 6, bp1.Bindings i = bp2.Bindings i) := by
      unfold IsCompatibleWith
      rw [Bool.and_eq_true, beq_iff_eq, D3D11ResourceBindPoints.operator_eq_iff, gx, gy, ex, ey]
    refine ⟨gx, gy, hxy, ?_⟩
    intro hne
    cases hc : x.IsCompatibleWith y
    · rfl
    · exact absurd (hxy.1 hc).1 hne

/-- Witness of C3: two records over the sample bind points with sampler
indices 4 and 9 are compatible both ways; a record made with the flag set and
one made without it are not compatible. -/
theorem D3D11_IsCompatibleWith_ignores_sampler_witness :
    IsCompatibleWith
        { SamplerInd := 4, ImtblSamplerAssigned := 1, BindPoints := D3D11ResourceBindPoints.sample }
        { SamplerInd := 9, ImtblSamplerAssigned := 1, BindPoints := D3D11ResourceBindPoints.sample }
        = true ∧
      IsCompatibleWith
        { SamplerInd := 9, ImtblSamplerAssigned := 1, BindPoints := D3D11ResourceBindPoints.sample }
        { SamplerInd := 4, ImtblSamplerAssigned := 1, BindPoints := D3D11ResourceBindPoints.sample }
        = true ∧
      IsCompatibleWith
        { SamplerInd := 4, ImtblSamplerAssigned := 1, BindPoints := D3D11ResourceBindPoints.sample }
        { SamplerInd := 4, ImtblSamplerAssigned := 0, BindPoints := D3D11ResourceBindPoints.sample }
        = false :=
  have h := D3D11_IsCompatibleWith_ignores_sampler
    { SamplerInd := 4, ImtblSamplerAssigned := 1, BindPoints := D3D11ResourceBindPoints.sample }
    { SamplerInd := 9, ImtblSamplerAssigned := 1, BindPoints := D3D11ResourceBindPoints.sample }
  have h1 := h.2.2.1 D3D11ResourceBindPoints.sample true 4 9 _ _ rfl rfl
  ⟨h1.1, h1.2,
    (h.2.2.2.2 D3D11ResourceBindPoints.sample D3D11ResourceBindPoints.sample true false 4 4
      _ _ rfl rfl).2.2.2 (by decide)⟩

end PipelineResourceAttribsD3D11

namespace PipelineResourceAttribsVk

/-- C4: `a.IsCompatibleWith(b)` holds exactly when `BindingIndex`, `ArraySize`,
`DescrType`, `DescrSet` and `ImtblSamplerAssigned` are pairwise equal; replacing
`SamplerInd`, `SRBCacheOffset` and `StaticCacheOffset` in either record never
changes the result, so records that differ only there are compatible in both
directions. -/
theorem Vk_IsCompatibleWith_ignores_placement (a b : PipelineResourceAttribsVk) :
    (a.IsCompatibleWith b = true ↔
      (a.BindingIndex = b.BindingIndex ∧ a.ArraySize = b.ArraySize ∧
        a.DescrType = b.DescrType ∧ a.DescrSet = b.DescrSet ∧
        a.ImtblSamplerAssigned = b.ImtblSamplerAssigned)) ∧
      (∀ s1 o1 c1 s2 o2 c2 : Nat,
        IsCompatibleWith
          { a with SamplerInd := s1, SRBCacheOffset := o1, StaticCacheOffset := c1 }
          { b with SamplerInd := s2, SRBCacheOffset := o2, StaticCacheOffset := c2 } =
        a.IsCompatibleWith b) ∧
      (∀ s o c : Nat,
        a.IsCompatibleWith { a with SamplerInd := s, SRBCacheOffset := o, StaticCacheOffset := c }
          = true ∧
        IsCompatibleWith { a with SamplerInd := s, SRBCacheOffset := o, StaticCacheOffset := c } a
          = true) := by
  refine ⟨?_, fun _ _ _ _ _ _ => rfl, ?_⟩
  · unfold IsCompatibleWith
    simp only [Bool.and_eq_true, beq_iff_eq, and_assoc]
  · intro s o c
    unfold IsCompatibleWith
    simp

end PipelineResourceAttribsVk

/-! ## Shader-variable manager: counts reported after `Initialize` -/

namespace ShaderVariableManagerD3D11

theorem emitted_fold (sizeof : ResourceCategory → Nat) (cat : ResourceCategory) :
    ∀ (Resources : List ResourceCategory) (acc : Nat),
      Resources.foldl (fun bytes r => if r = cat then bytes + sizeof cat else bytes) acc =
        acc + Resources.count cat * sizeof cat := by
  intro Resources
  induction Resources with
  | nil => intro acc; simp
  | cons r rest ih =>
    intro acc
    rw [List.foldl_cons, ih, List.count_cons]
    by_cases h : r = cat
    · subst h
      simp only [if_true, beq_self_eq_true]
      rw [Nat.add_mul]
      omega
    · have h2 : (r == cat) = false := by simpa using h
      simp only [h, if_false, h2, Bool.false_eq_true, Nat.add_zero]

theorem emittedBytes_eq (sizeof : ResourceCategory → Nat) (Resources : List ResourceCategory)
    (cat : ResourceCategory) :
    emittedBytes sizeof Resources cat = Resources.count cat * sizeof cat := by
  unfold emittedBytes
  rw [emitted_fold]
  omega

theorem entriesBetween_exact (lo n size : Nat) (hsize : 0 < size) (hhi : lo + n * size < 2 ^ 16) :
    entriesBetween lo (lo + n * size) size = n := by
  unfold entriesBetween
  have h1 : ((((lo + n * size : Nat) : Int) - (lo : Int)) % (2 : Int) ^ 64).toNat = n * size := by
    have e : (2 : Int) ^ 64 = 18446744073709551616 := by norm_num
    have e2 : (2 : Nat) ^ 16 = 65536 := by norm_num
    rw [e]
    rw [e2] at hhi
    omega
  rw [h1, Nat.mul_div_cancel _ hsize]
  have hn : n ≤ n * size := Nat.le_mul_of_pos_right _ hsize
  have e2 : (2 : Nat) ^ 16 = 65536 := by norm_num
  have e3 : (2 : Nat) ^ 32 = 4294967296 := by norm_num
  rw [e2] at hhi
  rw [e3]
  omega

theorem entriesBetween_le (lo hi size : Nat) (hlo : lo ≤ hi)
    (hhi : hi < 2 ^ 16) : entriesBetween lo hi size ≤ 65535 := by
  unfold entriesBetween
  have h1 : ((((hi : Nat) : Int) - (lo : Int)) % (2 : Int) ^ 64).toNat = hi - lo := by
    have e : (2 : Int) ^ 64 = 18446744073709551616 := by norm_num
    have e2 : (2 : Nat) ^ 16 = 65536 := by norm_num
    rw [e]
    rw [e2] at hhi
    omega
  rw [h1]
  have h2 : (hi - lo) / size ≤ hi - lo := Nat.div_le_self _ _
  have h3 : (hi - lo) / size % 2 ^ 32 ≤ (hi - lo) / size := Nat.mod_le _ _
  have e2 : (2 : Nat) ^ 16 = 65536 := by norm_num
  rw [e2] at hhi
  omega

theorem Initialize_ok_inv (sizeof : ResourceCategory → Nat) (Resources : List ResourceCategory)
    (s : Nat) (M : ShaderVariableManagerD3D11) (h : Initialize sizeof Resources s = .ok M) :
    GetRequiredMemorySize sizeof Resources < 2 ^ 16 ∧
      M = { m_TexSRVsOffset := emittedBytes sizeof Resources .ConstBuffBindInfo
            m_TexUAVsOffset := emittedBytes sizeof Resources .ConstBuffBindInfo +
              emittedBytes sizeof Resources .TexSRVBindInfo
            m_BuffSRVsOffset := emittedBytes sizeof Resources .ConstBuffBindInfo +
              emittedBytes sizeof Resources .TexSRVBindInfo +
              emittedBytes sizeof Resources .TexUAVBindInfo
            m_BuffUAVsOffset := emittedBytes sizeof Resources .ConstBuffBindInfo +
              emittedBytes sizeof Resources .TexSRVBindInfo +
              emittedBytes sizeof Resources .TexUAVBindInfo +
              emittedBytes sizeof Resources .BuffSRVBindInfo
            m_SamplerOffset := emittedBytes sizeof Resources .ConstBuffBindInfo +
              emittedBytes sizeof Resources .TexSRVBindInfo +
              emittedBytes sizeof Resources .TexUAVBindInfo +
              emittedBytes sizeof Resources .BuffSRVBindInfo +
              emittedBytes sizeof Resources .BuffUAVBindInfo
            m_MemorySize := GetRequiredMemorySize sizeof Resources
            m_ShaderTypeIndex := s % 2 ^ 8 } := by
  unfold Initialize at h
  simp only at h
  by_cases hfit : emittedBytes sizeof Resources .ConstBuffBindInfo +
      emittedBytes sizeof Resources .TexSRVBindInfo +
      emittedBytes sizeof Resources .TexUAVBindInfo +
      emittedBytes sizeof Resources .BuffSRVBindInfo +
      emittedBytes sizeof Resources .BuffUAVBindInfo +
      emittedBytes sizeof Resources .SamplerBindInfo < 2 ^ 16
  · rw [if_pos hfit] at h
    injection h with h
    exact ⟨hfit, h.symm⟩
  · rw [if_neg hfit] at h
    exact Except.noConfusion h

theorem Initialize_ok (sizeof : ResourceCategory → Nat) (Resources : List ResourceCategory)
    (s : Nat) (hfit : GetRequiredMemorySize sizeof Resources < 2 ^ 16) :
    ∃ M, Initialize sizeof Resources s = .ok M := by
  unfold GetRequiredMemorySize at hfit
  unfold Initialize
  simp only
  rw [if_pos hfit]
  exact ⟨_, rfl⟩

/-- The counts reported by every manager that `Initialize` produces: every
category reports the number of its resources. -/
theorem Initialize_counts (sizeof : ResourceCategory → Nat) (Resources : List ResourceCategory)
    (s : Nat) (hpos : ∀ c, 0 < sizeof c) (M : ShaderVariableManagerD3D11)
    (hM : Initialize sizeof Resources s = .ok M) (cat : ResourceCategory) :
    GetNumResources sizeof M cat = Resources.count cat := by
  obtain ⟨hfit, hrec⟩ := Initialize_ok_inv sizeof Resources s M hM
  subst hrec
  unfold GetRequiredMemorySize at hfit
  cases cat <;>
    simp only [GetNumResources, GetNumCBs, GetNumTexSRVs, GetNumTexUAVs, GetNumBufSRVs,
      GetNumBufUAVs, GetNumSamplers, GetRequiredMemorySize]
  · have := entriesBetween_exact 0 (Resources.count .ConstBuffBindInfo)
      (sizeof .ConstBuffBindInfo) (hpos _) (by rw [← emittedBytes_eq]; omega)
    rw [Nat.zero_add, ← emittedBytes_eq] at this
    exact this
  all_goals
    conv => lhs; arg 2; arg 2; rw [emittedBytes_eq]
    exact entriesBetween_exact _ _ _ (hpos _) (by rw [← emittedBytes_eq]; omega)

/-- C11: for a filtered resource list with `k` constant buffers, `m` texture
SRVs, `n` samplers and nothing else, every manager that `Initialize` produces
reports `k`, `m`, `n` and zero for texture UAVs, buffer SRVs and buffer UAVs,
and its block size is the size `GetRequiredMemorySize` returned; `Initialize`
produces a manager whenever that size fits the `UInt16` offset type; for the
list of one constant buffer the required size is `sizeof(ConstBuffBindInfo)`
and the manager reports `GetNumCBs() == 1` and zero for the other categories. -/
theorem Initialize_reports_counts (sizeof : ResourceCategory → Nat)
    (Resources : List ResourceCategory) (s k m n : Nat) (hpos : ∀ c, 0 < sizeof c)
    (hk : Resources.count .ConstBuffBindInfo = k) (hm : Resources.count .TexSRVBindInfo = m)
    (hn : Resources.count .SamplerBindInfo = n)
    (hnone : Resources.count .TexUAVBindInfo = 0 ∧ Resources.count .BuffSRVBindInfo = 0 ∧
      Resources.count .BuffUAVBindInfo = 0) :
    (∀ M, Initialize sizeof Resources s = .ok M →
      GetNumResources sizeof M .ConstBuffBindInfo = k ∧
      GetNumResources sizeof M .TexSRVBindInfo = m ∧
      GetNumResources sizeof M .SamplerBindInfo = n ∧
      GetNumResources sizeof M .TexUAVBindInfo = 0 ∧
      GetNumResources sizeof M .BuffSRVBindInfo = 0 ∧
      GetNumResources sizeof M .BuffUAVBindInfo = 0 ∧
      M.m_MemorySize = GetRequiredMemorySize sizeof Resources) ∧
    (GetRequiredMemorySize sizeof Resources < 2 ^ 16 →
      ∃ M, Initialize sizeof Resources s = .ok M) ∧
    GetRequiredMemorySize sizeof Resources =
      k * sizeof .ConstBuffBindInfo + m * sizeof .TexSRVBindInfo + n * sizeof .SamplerBindInfo ∧
    GetRequiredMemorySize sizeof [.ConstBuffBindInfo] = sizeof .ConstBuffBindInfo ∧
    (∀ M, Initialize sizeof [.ConstBuffBindInfo] s = .ok M →
      GetNumCBs sizeof M = 1 ∧ GetNumTexSRVs sizeof M = 0 ∧ GetNumTexUAVs sizeof M = 0 ∧
      GetNumBufSRVs sizeof M = 0 ∧ GetNumBufUAVs sizeof M = 0 ∧ GetNumSamplers sizeof M = 0) ∧
    (sizeof .ConstBuffBindInfo < 2 ^ 16 →
      ∃ M, Initialize sizeof [.ConstBuffBindInfo] s = .ok M) := by
  have hone : GetRequiredMemorySize sizeof [.ConstBuffBindInfo] = sizeof .ConstBuffBindInfo := by
    simp [GetRequiredMemorySize, emittedBytes]
  refine ⟨?_, Initialize_ok sizeof Resources s, ?_, hone, ?_, ?_⟩
  · intro M hM
    have hc := Initialize_counts sizeof Resources s hpos M hM
    refine ⟨by rw [hc, hk], by rw [hc, hm], by rw [hc, hn], by rw [hc, hnone.1],
      by rw [hc, hnone.2.1], by rw [hc, hnone.2.2], ?_⟩
    rw [(Initialize_ok_inv sizeof Resources s M hM).2]
  · unfold GetRequiredMemorySize
    simp only [emittedBytes_eq, hk, hm, hn, hnone.1, hnone.2.1, hnone.2.2]
    omega
  · intro M hM
    have hc := Initialize_counts sizeof [.ConstBuffBindInfo] s hpos M hM
    refine ⟨hc .ConstBuffBindInfo, hc .TexSRVBindInfo, hc .TexUAVBindInfo, hc .BuffSRVBindInfo,
      hc .BuffUAVBindInfo, hc .SamplerBindInfo⟩
  · intro hsz
    exact Initialize_ok sizeof [.ConstBuffBindInfo] s (by rw [hone]; exact hsz)

/-- Witness of C11: two constant buffers, one texture SRV and one sampler, 24
bytes an entry: `Initialize` produces a manager, and it reports 2, 1 and 1. -/
theorem Initialize_reports_counts_witness :
    (∃ M, Initialize sampleSizes
        [.ConstBuffBindInfo, .TexSRVBindInfo, .SamplerBindInfo, .ConstBuffBindInfo] 0 = .ok M) ∧
      (∀ M, Initialize sampleSizes
          [.ConstBuffBindInfo, .TexSRVBindInfo, .SamplerBindInfo, .ConstBuffBindInfo] 0 = .ok M →
        GetNumResources sampleSizes M .ConstBuffBindInfo = 2 ∧
        GetNumResources sampleSizes M .TexSRVBindInfo = 1 ∧
        GetNumResources sampleSizes M .SamplerBindInfo = 1) :=
  have h := Initialize_reports_counts sampleSizes
    [.ConstBuffBindInfo, .TexSRVBindInfo, .SamplerBindInfo, .ConstBuffBindInfo] 0 2 1 1
    (fun _ => by simp [sampleSizes]) (by decide) (by decide) (by decide) (by decide)
  ⟨h.2.1 (by decide), fun M hM => ⟨(h.1 M hM).1, (h.1 M hM).2.1, (h.1 M hM).2.2.1⟩⟩

/-- A block beyond the `UInt16` offsets: with 24-byte entries a list of 2731
constant buffers needs 65544 bytes, and `Initialize` reports the offset instead
of producing a manager. -/
theorem Initialize_large_block_reported :
    GetRequiredMemorySize sampleSizes (List.replicate 2731 .ConstBuffBindInfo) = 65544 ∧
      Initialize sampleSizes (List.replicate 2731 .ConstBuffBindInfo) 0 =
        .error .OffsetOutOfRange := by
  have hcb : emittedBytes sampleSizes (List.replicate 2731 .ConstBuffBindInfo)
      .ConstBuffBindInfo = 65544 := by
    rw [emittedBytes_eq, List.count_replicate_self]
    rfl
  have hz : ∀ c, c ≠ ResourceCategory.ConstBuffBindInfo →
      emittedBytes sampleSizes (List.replicate 2731 .ConstBuffBindInfo) c = 0 := by
    intro c hc
    rw [emittedBytes_eq, List.count_eq_zero_of_not_mem (fun h => hc (List.eq_of_mem_replicate h))]
    exact Nat.zero_mul _
  have hsize : GetRequiredMemorySize sampleSizes (List.replicate 2731 .ConstBuffBindInfo)
      = 65544 := by
    unfold GetRequiredMemorySize
    rw [hcb, hz _ (by decide), hz _ (by decide), hz _ (by decide), hz _ (by decide),
      hz _ (by decide)]
  refine ⟨hsize, ?_⟩
  unfold Initialize
  simp only
  rw [hcb, hz _ (by decide), hz _ (by decide), hz _ (by decide), hz _ (by decide),
    hz _ (by decide)]
  rfl

end ShaderVariableManagerD3D11

/-! ## Shader variables -/

namespace ShaderVariableD3D11Base

/-- C12: for a variable of a manager created for shader stage index `s` whose
bind points have stage `s` active, `GetHLSLResourceDesc` passes its check and
sets `ShaderRegister` to the bind point stored for stage `s` in the resource's
attribute record, leaving the rest as `GetResourceDesc` filled it; for bind
points set for stage 0 only, with bind point `b`, a manager for stage 0 reads
`b`. -/
theorem GetHLSLResourceDesc_register {α : Type}
    (GetResourceDesc : HLSLShaderResourceDesc α → HLSLShaderResourceDesc α)
    (GetResourceAttribs : Nat → PipelineResourceAttribsD3D11)
    (M : ShaderVariableManagerD3D11) (ResIndex : Nat) (d : HLSLShaderResourceDesc α)
    (s : Fin 6) (hs : M.m_ShaderTypeIndex = s)
    (hact : (GetResourceAttribs ResIndex).BindPoints.IsStageActive s = .ok true) :
    (∃ out, GetHLSLResourceDesc GetResourceDesc GetResourceAttribs M ResIndex d = .ok out ∧
        out.ShaderRegister = (GetResourceAttribs ResIndex).BindPoints.Bindings s ∧
        out.base = (GetResourceDesc d).base) ∧
      (∀ (b : Nat) (R : D3D11ResourceBindPoints),
        D3D11ResourceBindPoints.default.Set 0 b = .ok (b, R) →
        (GetResourceAttribs ResIndex).BindPoints = R → s = 0 →
        ∃ out, GetHLSLResourceDesc GetResourceDesc GetResourceAttribs M ResIndex d = .ok out ∧
          out.ShaderRegister = b) := by
  have hread := D3D11ResourceBindPoints.operator_index_active _ s hact
  have hrun : GetHLSLResourceDesc GetResourceDesc GetResourceAttribs M ResIndex d =
      .ok { GetResourceDesc d with
            ShaderRegister := (GetResourceAttribs ResIndex).BindPoints.Bindings s } := by
    unfold GetHLSLResourceDesc
    simp only [hs, hread]
  refine ⟨⟨_, hrun, rfl, rfl⟩, ?_⟩
  intro b R hset hR h0
  refine ⟨_, hrun, ?_⟩
  obtain ⟨_, _, hres⟩ := D3D11ResourceBindPoints.bindPoints_Set_ok_inv _ 0 b _ hset
  injection hres with _ hR2
  simp only
  rw [hR, hR2, h0]
  simp

/-- Witness of C12: a manager for stage 2 and a resource whose bind points are
the sample record (stage 2 bound to slot 7). -/
theorem GetHLSLResourceDesc_register_witness :
    ∃ out, GetHLSLResourceDesc (fun x : HLSLShaderResourceDesc Unit => x)
        (fun _ => { SamplerInd := 0, ImtblSamplerAssigned := 0
                    BindPoints := D3D11ResourceBindPoints.sample })
        { m_TexSRVsOffset := 24, m_TexUAVsOffset := 24, m_BuffSRVsOffset := 24
          m_BuffUAVsOffset := 24, m_SamplerOffset := 24, m_MemorySize := 24
          m_ShaderTypeIndex := 2 }
        0 { base := (), ShaderRegister := 0 } = .ok out ∧
      out.ShaderRegister = D3D11ResourceBindPoints.sample.Bindings 2 ∧
      out.base = () :=
  (GetHLSLResourceDesc_register (fun x : HLSLShaderResourceDesc Unit => x)
    (fun _ => { SamplerInd := 0, ImtblSamplerAssigned := 0
                BindPoints := D3D11ResourceBindPoints.sample })
    { m_TexSRVsOffset := 24, m_TexUAVsOffset := 24, m_BuffSRVsOffset := 24
      m_BuffUAVsOffset := 24, m_SamplerOffset := 24, m_MemorySize := 24
      m_ShaderTypeIndex := 2 }
    0 { base := (), ShaderRegister := 0 } 2 rfl rfl).1

end ShaderVariableD3D11Base

namespace ResourceCategory

/-- C13: for every entry type other than the constant buffer, and all array
indices and offsets, `SetDynamicOffset` reaches the base implementation, which
reports `UNSUPPORTED` and leaves the state as it was; exactly
`ConstBuffBindInfo` declares a `SetDynamicOffset` of its own, and a call on a
constant buffer reaches that one. -/
theorem SetDynamicOffset_rejected_off_constant_buffers {σ : Type}
    (ConstBuffSetDynamicOffset : σ → Nat → Nat → Reported σ) (cat : ResourceCategory)
    (hcat : cat ≠ .ConstBuffBindInfo) (state : σ) (ArrayIndex DynamicOffset : Nat) :
    (cat.SetDynamicOffset ConstBuffSetDynamicOffset state ArrayIndex DynamicOffset).signal =
        some .Unsupported ∧
      (cat.SetDynamicOffset ConstBuffSetDynamicOffset state ArrayIndex DynamicOffset).value =
        state ∧
      (∀ c : ResourceCategory, c.declaresSetDynamicOffset = true ↔ c = .ConstBuffBindInfo) ∧
      SetDynamicOffset ConstBuffSetDynamicOffset .ConstBuffBindInfo state ArrayIndex
          DynamicOffset =
        ConstBuffSetDynamicOffset state ArrayIndex DynamicOffset := by
  refine ⟨?_, ?_, ?_, rfl⟩
  · cases cat <;> first | exact absurd rfl hcat | rfl
  · cases cat <;> first | exact absurd rfl hcat | rfl
  · intro c
    cases c <;> simp [declaresSetDynamicOffset]

/-- Witness of C13: a texture SRV, with a counter as the state and a
constant-buffer implementation that would store the offset. -/
theorem SetDynamicOffset_rejected_off_constant_buffers_witness :
    (SetDynamicOffset (fun (_ : Nat) _ off => { signal := none, value := off })
        ResourceCategory.TexSRVBindInfo 5 0 256).signal = some .Unsupported ∧
      (SetDynamicOffset (fun (_ : Nat) _ off => { signal := none, value := off })
        ResourceCategory.TexSRVBindInfo 5 0 256).value = 5 :=
  have h := SetDynamicOffset_rejected_off_constant_buffers
    (fun (_ : Nat) _ off => { signal := none, value := off })
    ResourceCategory.TexSRVBindInfo (by decide) 5 0 256
  ⟨h.1, h.2.1⟩

end ResourceCategory

/-! ## Vulkan attribute record -/

namespace PipelineResourceAttribsVk

/-- C14: the constructor passes all five range checks exactly when
`BindingIndex < 2^16`, `SamplerInd < 2^16`, `ArraySize < 2^25`, the descriptor
type value is below 32 and `DescrSet < 2` (`MaxDescriptorSets`); the record
then reads back every argument unchanged; the six bit fields take 64 bits. -/
theorem construct_in_range_iff (BindingIndex SamplerInd ArraySize DescrType DescrSet : Nat)
    (Imtbl : Bool) (SRBCacheOffset StaticCacheOffset : Nat) :
    ((∃ a, construct BindingIndex SamplerInd ArraySize DescrType DescrSet Imtbl
          SRBCacheOffset StaticCacheOffset = .ok a) ↔
        (BindingIndex < 2 ^ 16 ∧ SamplerInd < 2 ^ 16 ∧ ArraySize < 2 ^ 25 ∧ DescrType < 32 ∧
          DescrSet < MaxDescriptorSets)) ∧
      (BindingIndex < 2 ^ 16 ∧ SamplerInd < 2 ^ 16 ∧ ArraySize < 2 ^ 25 ∧ DescrType < 32 ∧
          DescrSet < MaxDescriptorSets →
        ∃ a, construct BindingIndex SamplerInd ArraySize DescrType DescrSet Imtbl
            SRBCacheOffset StaticCacheOffset = .ok a ∧
          a.BindingIndex = BindingIndex ∧ a.SamplerInd = SamplerInd ∧
          a.ArraySize = ArraySize ∧ a.GetDescriptorType = DescrType ∧
          a.DescrSet = DescrSet ∧ a.IsImmutableSamplerAssigned = Imtbl ∧
          a.SRBCacheOffset = SRBCacheOffset ∧ a.StaticCacheOffset = StaticCacheOffset) ∧
      MaxDescriptorSets = 2 ∧
      _BindingIndexBits + _SamplerIndBits + _ArraySizeBits + _DescrTypeBits + _DescrSetBits +
        _SamplerAssignedBits = 64 := by
  have hfwd : (BindingIndex < 2 ^ 16 ∧ SamplerInd < 2 ^ 16 ∧ ArraySize < 2 ^ 25 ∧
      DescrType < 32 ∧ DescrSet < MaxDescriptorSets) →
      ∃ a, construct BindingIndex SamplerInd ArraySize DescrType DescrSet Imtbl
          SRBCacheOffset StaticCacheOffset = .ok a ∧
        a.BindingIndex = BindingIndex ∧ a.SamplerInd = SamplerInd ∧
        a.ArraySize = ArraySize ∧ a.GetDescriptorType = DescrType ∧
        a.DescrSet = DescrSet ∧ a.IsImmutableSamplerAssigned = Imtbl ∧
        a.SRBCacheOffset = SRBCacheOffset ∧ a.StaticCacheOffset = StaticCacheOffset := by
    intro ⟨h1, h2, h3, h4, h5⟩
    have hm : MaxDescriptorSets = 2 := by decide
    rw [hm] at h5
    have e1 : BindingIndex % 2 ^ 16 = BindingIndex := Nat.mod_eq_of_lt h1
    have e2 : SamplerInd % 2 ^ 16 = SamplerInd := Nat.mod_eq_of_lt h2
    have e3 : ArraySize % 2 ^ 25 = ArraySize := Nat.mod_eq_of_lt h3
    have e4 : DescrType % 2 ^ 32 % 2 ^ 5 = DescrType := by omega
    have e4' : DescrType % 2 ^ 8 = DescrType := by omega
    have e5 : DescrSet % 2 ^ 1 = DescrSet := by omega
    refine ⟨{ BindingIndex := BindingIndex, SamplerInd := SamplerInd, ArraySize := ArraySize
              DescrType := DescrType, DescrSet := DescrSet
              ImtblSamplerAssigned := if Imtbl then 1 else 0
              SRBCacheOffset := SRBCacheOffset, StaticCacheOffset := StaticCacheOffset }, ?_, ?_⟩
    · unfold construct
      simp only [_BindingIndexBits, _SamplerIndBits, _ArraySizeBits, _DescrTypeBits,
        _DescrSetBits, GetDescriptorType, e1, e2, e3, e4, e4', e5, ne_eq, not_true_eq_false,
        if_false]
    · simp only [GetDescriptorType, IsImmutableSamplerAssigned, e4']
      cases Imtbl <;> simp
  refine ⟨⟨?_, fun h => (hfwd h).imp fun _ ha => ha.1⟩, hfwd, by decide, by decide⟩
  intro ⟨a, ha⟩
  have hm : MaxDescriptorSets = 2 := by decide
  rw [hm]
  unfold construct at ha
  simp only [_BindingIndexBits, _SamplerIndBits, _ArraySizeBits, _DescrTypeBits,
    _DescrSetBits, GetDescriptorType, ne_eq] at ha
  split at ha
  · exact Except.noConfusion ha
  · split at ha
    · exact Except.noConfusion ha
    · split at ha
      · exact Except.noConfusion ha
      · split at ha
        · exact Except.noConfusion ha
        · split at ha
          · exact Except.noConfusion ha
          · rename_i h1 h2 h3 h4 h5
            omega

/-- Witness of C14: binding 3, sampler 65535, array size 4, storage buffer
(9), set 1, immutable sampler, cache offsets 10 and 20. -/
theorem construct_in_range_iff_witness :
    ∃ a, construct 3 65535 4 DescriptorType.StorageBuffer 1 true 10 20 = .ok a ∧
      a.BindingIndex = 3 ∧ a.SamplerInd = 65535 ∧ a.ArraySize = 4 ∧
      a.GetDescriptorType = DescriptorType.StorageBuffer ∧ a.DescrSet = 1 ∧
      a.IsImmutableSamplerAssigned = true ∧ a.SRBCacheOffset = 10 ∧
      a.StaticCacheOffset = 20 :=
  (construct_in_range_iff 3 65535 4 DescriptorType.StorageBuffer 1 true 10 20).2.1
    (by decide)

end PipelineResourceAttribsVk

/-- C15: `DescriptorType` has sixteen recognized kinds, the values 0..15, with
`Count == 16`; `DescriptorTypeToVkDescriptorType` maps each of them, without a
report, to a Vulkan type other than `VK_DESCRIPTOR_TYPE_MAX_ENUM`; the three
read-only variants and `InputAttachment_General` map to the Vulkan type of
their base kind; every other value, `Count` and `Unknown` among them, takes the
`UNEXPECTED` path and yields `VK_DESCRIPTOR_TYPE_MAX_ENUM`. -/
theorem DescriptorTypeToVkDescriptorType_total :
    DescriptorType.recognized = List.range 16 ∧ DescriptorType.Count = 16 ∧
      (∀ t, t < 16 → (DescriptorTypeToVkDescriptorType t).signal = none ∧
        (DescriptorTypeToVkDescriptorType t).value ≠ .VK_DESCRIPTOR_TYPE_MAX_ENUM) ∧
      (DescriptorTypeToVkDescriptorType DescriptorType.StorageTexelBuffer_ReadOnly).value =
        (DescriptorTypeToVkDescriptorType DescriptorType.StorageTexelBuffer).value ∧
      (DescriptorTypeToVkDescriptorType DescriptorType.StorageBuffer_ReadOnly).value =
        (DescriptorTypeToVkDescriptorType DescriptorType.StorageBuffer).value ∧
      (DescriptorTypeToVkDescriptorType DescriptorType.StorageBufferDynamic_ReadOnly).value =
        (DescriptorTypeToVkDescriptorType DescriptorType.StorageBufferDynamic).value ∧
      (DescriptorTypeToVkDescriptorType DescriptorType.InputAttachment_General).value =
        (DescriptorTypeToVkDescriptorType DescriptorType.InputAttachment).value ∧
      (∀ t, 16 ≤ t → (DescriptorTypeToVkDescriptorType t).signal =
          some .UnexpectedDescriptorType ∧
        (DescriptorTypeToVkDescriptorType t).value = .VK_DESCRIPTOR_TYPE_MAX_ENUM) ∧
      (DescriptorTypeToVkDescriptorType DescriptorType.Count).value =
        .VK_DESCRIPTOR_TYPE_MAX_ENUM ∧
      (DescriptorTypeToVkDescriptorType DescriptorType.Unknown).value =
        .VK_DESCRIPTOR_TYPE_MAX_ENUM := by
  refine ⟨by decide, rfl, by decide, rfl, rfl, rfl, rfl, ?_, rfl, rfl⟩
  intro t ht
  unfold DescriptorTypeToVkDescriptorType
  simp only [DescriptorType.Sampler, DescriptorType.CombinedImageSampler,
    DescriptorType.SeparateImage, DescriptorType.StorageImage, DescriptorType.UniformTexelBuffer,
    DescriptorType.StorageTexelBuffer, DescriptorType.StorageTexelBuffer_ReadOnly,
    DescriptorType.UniformBuffer, DescriptorType.UniformBufferDynamic,
    DescriptorType.StorageBuffer, DescriptorType.StorageBuffer_ReadOnly,
    DescriptorType.StorageBufferDynamic, DescriptorType.StorageBufferDynamic_ReadOnly,
    DescriptorType.InputAttachment, DescriptorType.InputAttachment_General,
    DescriptorType.AccelerationStructure]
  iterate 16 rw [if_neg (by omega)]
  exact ⟨rfl, rfl⟩

/-! ## Equality of descriptions -/

/-- C16: `a == b` on `BufferViewDesc` holds exactly when `ViewType`, the three
members of `Format`, `ByteOffset` and `ByteWidth` are equal; replacing `Name`
in either operand never changes the result. -/
theorem BufferViewDesc_eq_ignores_name (a b : BufferViewDesc) :
    (a.operator_eq b = true ↔
      (a.ViewType = b.ViewType ∧ a.Format.ValueType = b.Format.ValueType ∧
        a.Format.NumComponents = b.Format.NumComponents ∧
        a.Format.IsNormalized = b.Format.IsNormalized ∧ a.ByteOffset = b.ByteOffset ∧
        a.ByteWidth = b.ByteWidth)) ∧
      (∀ n1 n2 : Option String,
        BufferViewDesc.operator_eq { a with Name := n1 } { b with Name := n2 } =
          a.operator_eq b) := by
  refine ⟨?_, fun _ _ => rfl⟩
  unfold BufferViewDesc.operator_eq BufferFormat.operator_eq
  simp only [Bool.and_eq_true, beq_iff_eq]
  constructor
  · intro ⟨⟨⟨h1, h2⟩, h3⟩, ⟨h4, h5⟩, h6⟩
    exact ⟨h1, h4, h5, h6, h2, h3⟩
  · intro ⟨h1, h4, h5, h6, h2, h3⟩
    exact ⟨⟨⟨h1, h2⟩, h3⟩, ⟨h4, h5⟩, h6⟩

namespace SerializationDeviceMtlInfo

theorem SafeStrEqual_iff (s0 s1 : Option String) : SafeStrEqual s0 s1 = true ↔ s0 = s1 := by
  cases s0 <;> cases s1 <;> simp [SafeStrEqual]

/-- C17, what the code does: `operator==` compares `CompileOptionsMacOS`,
`CompileOptionsiOS` and `MslPreprocessorCmd` and never reads `DumpDirectory`:
the default structure and a copy with `DumpDirectory` set to "dump" compare
equal (and `operator!=` is false) although the member differs. `operator!=` is
the negation of `operator==`. -/
theorem Mtl_eq_skips_DumpDirectory :
    operator_eq default { default with DumpDirectory := some "dump" } = true ∧
      operator_ne default { default with DumpDirectory := some "dump" } = false ∧
      default.DumpDirectory ≠ (some "dump" : Option String) ∧
      (∀ a b : SerializationDeviceMtlInfo, a.operator_eq b = true ↔
        (a.CompileOptionsMacOS = b.CompileOptionsMacOS ∧
          a.CompileOptionsiOS = b.CompileOptionsiOS ∧
          a.MslPreprocessorCmd = b.MslPreprocessorCmd)) ∧
      (∀ a b : SerializationDeviceMtlInfo, a.operator_ne b = !(a.operator_eq b)) := by
  refine ⟨by decide, by decide, by decide, ?_, fun _ _ => rfl⟩
  intro a b
  unfold operator_eq
  simp only [Bool.and_eq_true, SafeStrEqual_iff, and_assoc]

end SerializationDeviceMtlInfo

/-! ## Hash combiners ignore `Name` -/

/-- C18: for `SamplerDesc`, `TextureViewDesc`, `RenderPassDesc`,
`PipelineStateDesc`, `PipelineResourceSignatureDesc` and `ShaderDesc`, the
state a hasher reaches through the type's `HashCombiner`, and so the value of
`StdHasher` (which `std::hash` returns), is the same for two descriptions that
differ only in `Name`; this holds for every hasher and every combiner of the
nested element types. -/
theorem HashCombiner_ignores_Name :
    (∀ (σ : Type) (H : Hasher σ) (st : σ) (d : SamplerDesc) (n : Option String),
        HashCombiner_SamplerDesc H st { d with Name := n } = HashCombiner_SamplerDesc H st d ∧
        StdHasher H (fun H st v => .ok (HashCombiner_SamplerDesc H st v)) { d with Name := n } =
          StdHasher H (fun H st v => .ok (HashCombiner_SamplerDesc H st v)) d) ∧
      (∀ (σ : Type) (H : Hasher σ) (st : σ) (d : TextureViewDesc) (n : Option String),
        HashCombiner_TextureViewDesc H st { d with Name := n } =
          HashCombiner_TextureViewDesc H st d ∧
        StdHasher H (fun H st v => .ok (HashCombiner_TextureViewDesc H st v))
            { d with Name := n } =
          StdHasher H (fun H st v => .ok (HashCombiner_TextureViewDesc H st v)) d) ∧
      (∀ (σ A S D : Type) (H : Hasher σ) (cA : σ → A → Except Fault σ)
          (cS : σ → S → Except Fault σ) (cD : σ → D → Except Fault σ) (st : σ)
          (d : RenderPassDesc A S D) (n : Option String),
        HashCombiner_RenderPassDesc H cA cS cD st { d with Name := n } =
          HashCombiner_RenderPassDesc H cA cS cD st d ∧
        StdHasher H (fun H st v => HashCombiner_RenderPassDesc H cA cS cD st v)
            { d with Name := n } =
          StdHasher H (fun H st v => HashCombiner_RenderPassDesc H cA cS cD st v) d) ∧
      (∀ (σ L : Type) (H : Hasher σ) (cL : σ → L → Except Fault σ) (st : σ)
          (d : PipelineStateDesc L) (n : Option String),
        HashCombiner_PipelineStateDesc H cL st { d with Name := n } =
          HashCombiner_PipelineStateDesc H cL st d ∧
        StdHasher H (fun H st v => HashCombiner_PipelineStateDesc H cL st v)
            { d with Name := n } =
          StdHasher H (fun H st v => HashCombiner_PipelineStateDesc H cL st v) d) ∧
      (∀ (σ R I : Type) (H : Hasher σ) (cR : σ → R → Except Fault σ)
          (cI : σ → I → Except Fault σ) (st : σ) (d : PipelineResourceSignatureDesc R I)
          (n : Option String),
        HashCombiner_PipelineResourceSignatureDesc H cR cI st { d with Name := n } =
          HashCombiner_PipelineResourceSignatureDesc H cR cI st d ∧
        StdHasher H (fun H st v => HashCombiner_PipelineResourceSignatureDesc H cR cI st v)
            { d with Name := n } =
          StdHasher H (fun H st v => HashCombiner_PipelineResourceSignatureDesc H cR cI st v)
            d) ∧
      (∀ (σ : Type) (H : Hasher σ) (st : σ) (d : ShaderDesc) (n : Option String),
        HashCombiner_ShaderDesc H st { d with Name := n } = HashCombiner_ShaderDesc H st d ∧
        StdHasher H (fun H st v => .ok (HashCombiner_ShaderDesc H st v)) { d with Name := n } =
          StdHasher H (fun H st v => .ok (HashCombiner_ShaderDesc H st v)) d) :=
  ⟨fun _ _ _ _ _ => ⟨rfl, rfl⟩, fun _ _ _ _ _ => ⟨rfl, rfl⟩,
   fun _ _ _ _ _ _ _ _ _ _ _ => ⟨rfl, rfl⟩, fun _ _ _ _ _ _ _ => ⟨rfl, rfl⟩,
   fun _ _ _ _ _ _ _ _ _ => ⟨rfl, rfl⟩, fun _ _ _ _ _ => ⟨rfl, rfl⟩⟩

/-- Witness of C18: two shader descriptions named "VS main" and "copy" hash
alike under the tracing hasher, which sees three arguments. -/
theorem HashCombiner_ignores_Name_witness :
    StdHasher traceHasher (fun H st v => .ok (HashCombiner_ShaderDesc H st v))
        { Name := some "copy", ShaderType := 1, UseCombinedTextureSamplers := true
          CombinedSamplerSuffix := some "_sampler" } =
      StdHasher traceHasher (fun H st v => .ok (HashCombiner_ShaderDesc H st v))
        { Name := some "VS main", ShaderType := 1, UseCombinedTextureSamplers := true
          CombinedSamplerSuffix := some "_sampler" } ∧
      StdHasher traceHasher (fun H st v => .ok (HashCombiner_ShaderDesc H st v))
        { Name := some "VS main", ShaderType := 1, UseCombinedTextureSamplers := true
          CombinedSamplerSuffix := some "_sampler" } = .ok 3 :=
  ⟨(HashCombiner_ignores_Name.2.2.2.2.2 (List HashArg) traceHasher []
      { Name := some "VS main", ShaderType := 1, UseCombinedTextureSamplers := true
        CombinedSamplerSuffix := some "_sampler" } (some "copy")).2, rfl⟩

/-! ## Alignment helpers -/

theorem roundDown_isLargest (a v : Nat) : IsLargestMultipleLE a v ((v / a) * a) := by
  refine ⟨Nat.dvd_mul_left _ _, Nat.div_mul_le_self _ _, ?_⟩
  intro m ⟨c, hc⟩ hm
  subst hc
  rcases Nat.eq_zero_or_pos a with h0 | hpos
  · subst h0; simp
  · have : c ≤ v / a := (Nat.le_div_iff_mul_le hpos).2 (by rw [Nat.mul_comm]; exact hm)
    calc a * c = c * a := Nat.mul_comm _ _
      _ ≤ (v / a) * a := Nat.mul_le_mul_right _ this

theorem roundUp_isSmallest (a v : Nat) (hpos : 0 < a) :
    IsSmallestMultipleGE a v (if (v / a) * a < v then (v / a) * a + a else (v / a) * a) := by
  have hdm : (v / a) * a + v % a = v := by rw [Nat.mul_comm]; exact Nat.div_add_mod v a
  have hml : v % a < a := Nat.mod_lt v hpos
  by_cases h : (v / a) * a < v
  · rw [if_pos h]
    refine ⟨⟨v / a + 1, by rw [Nat.mul_comm a, Nat.add_mul, Nat.one_mul]⟩, by omega, ?_⟩
    intro m ⟨c, hc⟩ hm
    subst hc
    have hlt : v / a < c := by
      by_contra hge
      have hle : c ≤ v / a := Nat.le_of_not_lt hge
      have : c * a ≤ (v / a) * a := Nat.mul_le_mul_right _ hle
      rw [Nat.mul_comm a c] at hm
      omega
    calc (v / a) * a + a = (v / a + 1) * a := by rw [Nat.add_mul, Nat.one_mul]
      _ ≤ c * a := Nat.mul_le_mul_right _ hlt
      _ = a * c := Nat.mul_comm _ _
  · rw [if_neg h]
    refine ⟨Nat.dvd_mul_left _ _, by omega, ?_⟩
    intro m _ hm
    omega

theorem smallestMultiple_unique (a v r1 r2 : Nat) (h1 : IsSmallestMultipleGE a v r1)
    (h2 : IsSmallestMultipleGE a v r2) : r1 = r2 :=
  Nat.le_antisymm (h1.2.2 r2 h2.1 h2.2.1) (h2.2.2 r1 h1.1 h1.2.1)

theorem largestMultiple_unique (a v r1 r2 : Nat) (h1 : IsLargestMultipleLE a v r1)
    (h2 : IsLargestMultipleLE a v r2) : r1 = r2 :=
  Nat.le_antisymm (h2.2.2 r1 h1.1 h1.2.1) (h1.2.2 r2 h2.1 h2.2.1)

/-- The values that `AlignTest.cpp` expects of the four functions and of the
pointer overloads, at the widths of the operand types used there. -/
theorem Align_test_values :
    AlignUp 8 0 16 = 0 ∧ AlignUp 8 1 16 = 16 ∧ AlignUp 8 15 16 = 16 ∧ AlignUp 8 16 16 = 16 ∧
      AlignUp 8 17 16 = 32 ∧ AlignUp 32 17 1024 = 1024 ∧ AlignUp 16 400 128 = 512 ∧
      AlignUp 64 (2 ^ 63 + 1) 1024 = 2 ^ 63 + 1024 ∧
      AlignDown 8 0 16 = 0 ∧ AlignDown 8 1 16 = 0 ∧ AlignDown 8 15 16 = 0 ∧
      AlignDown 8 16 16 = 16 ∧ AlignDown 8 17 16 = 16 ∧ AlignDown 16 519 128 = 512 ∧
      AlignDown 32 127 1024 = 0 ∧ AlignDown 64 (2 ^ 63 + 1023) 1024 = 2 ^ 63 ∧
      AlignUpPtr 0x1001 16 = 0x1010 ∧ AlignUpPtr 0x1010 16 = 0x1010 ∧
      AlignUpPtr 0x1011 16 = 0x1020 ∧ AlignDownPtr 0x100F 16 = 0x1000 ∧
      AlignDownPtr 0x1011 16 = 0x1010 ∧
      AlignDownNonPw2 8 0 17 = 0 ∧ AlignDownNonPw2 16 1 15 = 0 ∧ AlignDownNonPw2 32 14 15 = 0 ∧
      AlignDownNonPw2 16 15 15 = 15 ∧ AlignDownNonPw2 32 16 15 = 15 ∧
      AlignDownNonPw2 16 127 531 = 0 ∧ AlignDownNonPw2 32 1023 119 = 952 ∧
      AlignDownNonPw2 64 (2 ^ 63 + 1023) 1024 = 2 ^ 63 ∧
      AlignUpNonPw2 8 0 17 = 0 ∧ AlignUpNonPw2 16 1 15 = 15 ∧ AlignUpNonPw2 32 14 15 = 15 ∧
      AlignUpNonPw2 32 15 15 = 15 ∧ AlignUpNonPw2 16 16 15 = 30 ∧
      AlignUpNonPw2 32 15 1125 = 1125 ∧ AlignUpNonPw2 32 325 113 = 339 ∧
      AlignUpNonPw2 64 (2 ^ 63 + 1) 1024 = 2 ^ 63 + 1024 := by
  decide

theorem toSigned_of_range (w : Nat) (x : Int) (hw : 0 < w) (hlo : -(2 ^ (w - 1)) ≤ x)
    (hhi : x < 2 ^ (w - 1)) : toSigned w x = x := by
  unfold toSigned
  have e : (2 : Int) ^ w = 2 * 2 ^ (w - 1) := by
    have : w = (w - 1) + 1 := by omega
    conv => lhs; rw [this, pow_succ]
    exact Int.mul_comm _ _
  rw [Int.emod_eq_of_lt (by omega) (by omega)]
  omega

theorem tdiv_mul_bounds (v a : Int) (ha : 0 < a) :
    (0 ≤ v → v.tdiv a * a ≤ v ∧ v < v.tdiv a * a + a) ∧
      (v ≤ 0 → v ≤ v.tdiv a * a ∧ v.tdiv a * a - a < v) := by
  constructor
  · intro hv
    rw [Int.tdiv_eq_ediv hv (Int.le_of_lt ha)]
    have h1 := Int.ediv_add_emod v a
    have h2 := Int.emod_nonneg v (Int.ne_of_gt ha)
    have h3 := Int.emod_lt_of_pos v ha
    rw [Int.mul_comm] at h1
    omega
  · intro hv
    have hu : 0 ≤ -v := by omega
    have e : v.tdiv a = -((-v) / a) := by
      have h := Int.neg_tdiv (-v) a
      rw [Int.neg_neg, Int.tdiv_eq_ediv hu (Int.le_of_lt ha)] at h
      exact h
    have h1 := Int.ediv_add_emod (-v) a
    have h2 := Int.emod_nonneg (-v) (Int.ne_of_gt ha)
    have h3 := Int.emod_lt_of_pos (-v) ha
    rw [Int.mul_comm] at h1
    rw [e, Int.neg_mul]
    omega

theorem tdiv_mul_dvd (v a : Int) : a ∣ v.tdiv a * a := Dvd.intro_left _ rfl

theorem multiple_le_of_lt_add (a q c : Int) (ha : 0 < a) (h : c * a < q * a + a) :
    c * a ≤ q * a := by
  have h1 : c * a < (q + 1) * a := by rw [Int.add_mul, Int.one_mul]; exact h
  have h2 : c < q + 1 := Int.lt_of_mul_lt_mul_right h1 (Int.le_of_lt ha)
  exact Int.mul_le_mul_of_nonneg_right (by omega) (Int.le_of_lt ha)

theorem multiple_ge_of_sub_lt (a q c : Int) (ha : 0 < a) (h : q * a - a < c * a) :
    q * a ≤ c * a := by
  have h1 : (q - 1) * a < c * a := by rw [Int.sub_mul, Int.one_mul]; exact h
  have h2 : q - 1 < c := Int.lt_of_mul_lt_mul_right h1 (Int.le_of_lt ha)
  exact Int.mul_le_mul_of_nonneg_right (by omega) (Int.le_of_lt ha)

theorem roundDownInt_isLargest (a v : Int) (ha : 0 < a) (hv : 0 ≤ v) :
    IsLargestMultipleLEInt a v (v.tdiv a * a) := by
  obtain ⟨h1, h2⟩ := (tdiv_mul_bounds v a ha).1 hv
  refine ⟨tdiv_mul_dvd v a, h1, ?_⟩
  intro m ⟨c, hc⟩ hm
  subst hc
  rw [Int.mul_comm a c] at hm ⊢
  exact multiple_le_of_lt_add a _ c ha (by omega)

theorem roundUpInt_isSmallest (a v : Int) (ha : 0 < a) :
    IsSmallestMultipleGEInt a v
      (if v.tdiv a * a < v then v.tdiv a * a + a else v.tdiv a * a) := by
  by_cases h : v.tdiv a * a < v
  · rw [if_pos h]
    have hv : 0 ≤ v := by
      by_contra hneg
      have := ((tdiv_mul_bounds v a ha).2 (by omega)).1
      omega
    obtain ⟨h1, h2⟩ := (tdiv_mul_bounds v a ha).1 hv
    refine ⟨⟨v.tdiv a + 1, by rw [Int.mul_comm a, Int.add_mul, Int.one_mul]⟩, by omega, ?_⟩
    intro m ⟨c, hc⟩ hm
    subst hc
    rw [Int.mul_comm a c] at hm ⊢
    have h3 : (v.tdiv a + 1) * a - a < c * a := by
      rw [Int.add_mul, Int.one_mul]; omega
    have h4 := multiple_ge_of_sub_lt a (v.tdiv a + 1) c ha h3
    rw [Int.add_mul, Int.one_mul] at h4
    exact h4
  · rw [if_neg h]
    refine ⟨tdiv_mul_dvd v a, by omega, ?_⟩
    intro m ⟨c, hc⟩ hm
    subst hc
    rw [Int.mul_comm a c] at hm ⊢
    by_cases hv : 0 ≤ v
    · have := (tdiv_mul_bounds v a ha).1 hv
      omega
    · have h2 := ((tdiv_mul_bounds v a ha).2 (by omega)).2
      exact multiple_ge_of_sub_lt a _ c ha (by omega)

theorem smallestMultipleInt_unique (a v r1 r2 : Int) (h1 : IsSmallestMultipleGEInt a v r1)
    (h2 : IsSmallestMultipleGEInt a v r2) : r1 = r2 :=
  Int.le_antisymm (h1.2.2 r2 h2.1 h2.2.1) (h2.2.2 r1 h1.1 h1.2.1)

/-- The values that `AlignTest.cpp` expects of the calls with signed operands,
at the widths of the wider operand types. -/
theorem Align_signed_test_values :
    AlignDownNonPw2Signed 16 15 15 = 15 ∧ AlignDownNonPw2Signed 32 16 15 = 15 ∧
      AlignDownNonPw2Signed 16 127 531 = 0 ∧ AlignDownNonPw2Signed 32 1023 119 = 952 ∧
      AlignUpNonPw2Signed 32 15 15 = 15 ∧ AlignUpNonPw2Signed 16 16 15 = 30 ∧
      AlignUpNonPw2Signed 32 15 1125 = 1125 ∧ AlignUpNonPw2Signed 32 325 113 = 339 := by
  decide

/-- C19: for a positive alignment `a`, when the smallest multiple `r` of `a`
that is at least `v` is representable in the `w`-bit result type,
`AlignUpNonPw2(v, a)` and, for a power of two `a`, `AlignUp(v, a)` both return
`r`, which is `v` itself when `a` divides `v`; the pointer overload does the
same at 64 bits; and the same holds of signed operands, negative values
included, in the signed `w`-bit result type. -/
theorem AlignUp_smallest_multiple (w v a r : Nat) (ha : 0 < a)
    (hr : IsSmallestMultipleGE a v r) (hrep : r < 2 ^ w) :
    AlignUpNonPw2 w v a = r ∧ ((∃ k, a = 2 ^ k) → AlignUp w v a = r) ∧
      ((∃ k, a = 2 ^ k) → w = 64 → AlignUpPtr v a = r) ∧ (a ∣ v → r = v) ∧
      (∀ (sv sa sr : Int), 0 < sa → IsSmallestMultipleGEInt sa sv sr →
        0 < w → -(2 ^ (w - 1)) ≤ sr → sr < 2 ^ (w - 1) →
        AlignUpNonPw2Signed w sv sa = sr ∧ ((∃ k : Nat, sa = 2 ^ k) → AlignUpSigned w sv sa = sr) ∧
          (sa ∣ sv → sr = sv)) := by
  have h0 := smallestMultiple_unique a v _ r (roundUp_isSmallest a v ha) hr
  have hUp : AlignUp w v a = r := by
    unfold AlignUp
    simp only [h0]
    exact Nat.mod_eq_of_lt hrep
  refine ⟨?_, fun _ => hUp, fun _ hw => ?_, fun hdvd => ?_, ?_⟩
  · unfold AlignUpNonPw2
    simp only [h0]
    exact Nat.mod_eq_of_lt hrep
  · subst hw
    exact hUp
  · exact Nat.le_antisymm (hr.2.2 v hdvd (le_refl _)) hr.2.1
  · intro sv sa sr hsa hsr hw hlo hhi
    have h1 := smallestMultipleInt_unique sa sv _ sr (roundUpInt_isSmallest sa sv hsa) hsr
    have hS : AlignUpSigned w sv sa = sr := by
      unfold AlignUpSigned
      simp only [h1]
      exact toSigned_of_range w sr hw hlo hhi
    refine ⟨?_, fun _ => hS, fun hdvd => ?_⟩
    · unfold AlignUpNonPw2Signed
      simp only [h1]
      exact toSigned_of_range w sr hw hlo hhi
    · exact Int.le_antisymm (hsr.2.2 sv hdvd (le_refl _)) hsr.2.1

/-- Witness of C19: 17 aligned up to a multiple of 16 in 8 bits is 32, and the
signed 32-bit value -17 aligned up to a multiple of 16 is -16. -/
theorem AlignUp_smallest_multiple_witness :
    AlignUpNonPw2 8 17 16 = 32 ∧ AlignUp 8 17 16 = 32 ∧ AlignUpNonPw2Signed 32 (-17) 16 = -16 :=
  have h := AlignUp_smallest_multiple 8 17 16 32 (by decide)
    ⟨⟨2, rfl⟩, by decide, fun m ⟨c, hc⟩ hm => by omega⟩ (by decide)
  have g := AlignUp_smallest_multiple 32 17 16 32 (by decide)
    ⟨⟨2, rfl⟩, by decide, fun m ⟨c, hc⟩ hm => by omega⟩ (by decide)
  ⟨h.1, h.2.1 ⟨4, rfl⟩,
    (g.2.2.2.2 (-17) 16 (-16) (by decide)
      ⟨⟨-1, by decide⟩, by decide, fun m ⟨c, hc⟩ hm => by omega⟩ (by decide) (by decide)
      (by decide)).1⟩

/-- C20 (amended): for a non-negative value `v` of the `w`-bit result type
(every unsigned value, and every signed value that is not negative),
`AlignDown(v, a)` for a power of two `a` and `AlignDownNonPw2(v, a)` for a
positive `a` both return `(v / a) * a`, the largest multiple of `a` that is at
most `v`; the pointer overload does the same at 64 bits. -/
theorem AlignDown_largest_multiple (w v a : Nat) (hv : v < 2 ^ w) :
    (0 < a → AlignDownNonPw2 w v a = (v / a) * a ∧
        IsLargestMultipleLE a v (AlignDownNonPw2 w v a)) ∧
      ((∃ k, a = 2 ^ k) → AlignDown w v a = (v / a) * a ∧
        IsLargestMultipleLE a v (AlignDown w v a)) ∧
      ((∃ k, a = 2 ^ k) → w = 64 → AlignDownPtr v a = (v / a) * a ∧
        IsLargestMultipleLE a v (AlignDownPtr v a)) ∧
      (∀ (sv sa : Int), 0 < w → 0 ≤ sv → sv < 2 ^ (w - 1) → 0 < sa →
        AlignDownNonPw2Signed w sv sa = sv.tdiv sa * sa ∧
          IsLargestMultipleLEInt sa sv (AlignDownNonPw2Signed w sv sa) ∧
          ((∃ k : Nat, sa = 2 ^ k) → AlignDownSigned w sv sa = sv.tdiv sa * sa ∧
            IsLargestMultipleLEInt sa sv (AlignDownSigned w sv sa))) := by
  have hle : (v / a) * a < 2 ^ w := lt_of_le_of_lt (Nat.div_mul_le_self _ _) hv
  have hD : AlignDown w v a = (v / a) * a := Nat.mod_eq_of_lt hle
  have hN : AlignDownNonPw2 w v a = (v / a) * a := Nat.mod_eq_of_lt hle
  refine ⟨fun _ => ⟨hN, ?_⟩, fun _ => ⟨hD, ?_⟩, fun _ hw => ?_, ?_⟩
  · rw [hN]; exact roundDown_isLargest a v
  · rw [hD]; exact roundDown_isLargest a v
  · subst hw
    have hP : AlignDownPtr v a = (v / a) * a := hD
    exact ⟨hP, by rw [hP]; exact roundDown_isLargest a v⟩
  · intro sv sa hw hsv hhi hsa
    obtain ⟨h1, _⟩ := (tdiv_mul_bounds sv sa hsa).1 hsv
    have h0 : 0 ≤ sv.tdiv sa * sa :=
      Int.mul_nonneg (Int.tdiv_nonneg hsv (Int.le_of_lt hsa)) (Int.le_of_lt hsa)
    have hpos : (0 : Int) < 2 ^ (w - 1) := pow_pos (by decide) _
    have hS : AlignDownSigned w sv sa = sv.tdiv sa * sa :=
      toSigned_of_range w _ hw (by omega) (by omega)
    have hNS : AlignDownNonPw2Signed w sv sa = sv.tdiv sa * sa := hS
    refine ⟨hNS, ?_, fun _ => ⟨hS, ?_⟩⟩
    · rw [hNS]; exact roundDownInt_isLargest sa sv hsa hsv
    · rw [hS]; exact roundDownInt_isLargest sa sv hsa hsv

/-- Witness of C20 (amended): 519 aligned down to a multiple of 128 in 16 bits
is 512, and the signed 32-bit value 1023 aligned down to a multiple of 119 is
952. -/
theorem AlignDown_largest_multiple_witness :
    AlignDown 16 519 128 = (519 / 128) * 128 ∧ AlignDownNonPw2 16 519 128 = 512 ∧
      IsLargestMultipleLEInt 119 1023 (AlignDownNonPw2Signed 32 1023 119) :=
  have h := AlignDown_largest_multiple 16 519 128 (by decide)
  have g := AlignDown_largest_multiple 32 519 128 (by decide)
  ⟨(h.2.1 ⟨7, rfl⟩).1, (h.1 (by decide)).1,
    (g.2.2.2 1023 119 (by decide) (by decide) (by decide) (by decide)).2.1⟩

/-- C20 fails as stated for a negative signed value: `AlignDownNonPw2(-17, 16)`
on `Int32` operands is `(-17 / 16) * 16 = -16`, because the division of C++
truncates towards zero; -16 is above -17, and the largest multiple of 16 that
is at most -17 is -32. -/
theorem AlignDownNonPw2_negative_above :
    AlignDownNonPw2Signed 32 (-17) 16 = -16 ∧ (-17 : Int).tdiv 16 * 16 = -16 ∧
      ¬ AlignDownNonPw2Signed 32 (-17) 16 ≤ -17 ∧
      ¬ IsLargestMultipleLEInt 16 (-17) (AlignDownNonPw2Signed 32 (-17) 16) ∧
      IsLargestMultipleLEInt 16 (-17) (-32) := by
  have e : AlignDownNonPw2Signed 32 (-17) 16 = -16 := by decide
  refine ⟨e, by decide, by rw [e]; decide, ?_, ⟨⟨-2, by decide⟩, by decide, ?_⟩⟩
  · rw [e]
    intro h
    exact absurd h.2.1 (by decide)
  · intro m ⟨c, hc⟩ hm
    omega

/-! ## Powers of two -/

theorem two_pow_and_pred (k : Nat) : 2 ^ k &&& (2 ^ k - 1) = 0 := by
  apply Nat.eq_of_testBit_eq
  intro j
  rw [Nat.testBit_and, Nat.testBit_two_pow, Nat.testBit_two_pow_sub_one, Nat.zero_testBit]
  by_cases h : k = j
  · subst h; simp
  · simp [h]

theorem eq_two_pow_of_and_pred : ∀ v : Nat, 0 < v → v &&& (v - 1) = 0 → ∃ k, v = 2 ^ k := by
  intro v
  induction v using Nat.strong_induction_on with
  | _ v ih =>
    intro hpos hand
    have hdiv : v / 2 &&& (v - 1) / 2 = 0 := by
      rw [← Nat.and_div_two, hand]
    by_cases hodd : v % 2 = 1
    · have h1 : (v - 1) / 2 = v / 2 := by omega
      rw [h1, Nat.and_self] at hdiv
      exact ⟨0, by omega⟩
    · have h1 : (v - 1) / 2 = v / 2 - 1 := by omega
      rw [h1] at hdiv
      obtain ⟨k, hk⟩ := ih (v / 2) (by omega) (by omega) hdiv
      refine ⟨k + 1, ?_⟩
      rw [Nat.pow_succ, ← hk]
      omega

theorem IsPowerOfTwo_iff (v : Nat) : IsPowerOfTwo v = true ↔ ∃ k, v = 2 ^ k := by
  unfold IsPowerOfTwo
  rw [Bool.and_eq_true, decide_eq_true_iff, beq_iff_eq]
  constructor
  · intro ⟨h1, h2⟩
    exact eq_two_pow_of_and_pred v h1 h2
  · intro ⟨k, hk⟩
    subst hk
    exact ⟨Nat.pos_pow_of_pos k (by decide), two_pow_and_pred k⟩

set_option maxRecDepth 100000 in
/-- The values that `Common_Align.IsPowerOfTwo` expects: the eight powers of
two among 0..255, and around `1 << bit` for every bit of a 64-bit word. -/
theorem IsPowerOfTwo_test_values :
    (∀ i, i < 256 → IsPowerOfTwo i = decide (i ∈ [1, 2, 4, 8, 16, 32, 64, 128])) ∧
      (∀ bit, bit < 64 → IsPowerOfTwo (2 ^ bit) = true ∧
        IsPowerOfTwo (2 ^ bit + 1) = decide (2 ^ bit = 1) ∧
        IsPowerOfTwo (2 ^ bit - 1) = decide (2 ^ bit = 2)) := by
  constructor <;> decide

/-- C21: for every unsigned value `v` of a `w`-bit type (8, 16, 32 and 64 bits
among them), `IsPowerOfTwo(v)` is true exactly when `v = 2^k` for some `k`,
that is when exactly one bit of `v` is set; `IsPowerOfTwo(0)` is false. -/
theorem IsPowerOfTwo_iff_one_bit (w v : Nat) (hv : v < 2 ^ w) :
    (IsPowerOfTwo v = true ↔ ∃ k, k < w ∧ v = 2 ^ k) ∧
      (IsPowerOfTwo v = true ↔ ∃ k, ∀ j, v.testBit j = decide (j = k)) ∧
      IsPowerOfTwo 0 = false := by
  refine ⟨?_, ?_, by decide⟩
  · rw [IsPowerOfTwo_iff]
    constructor
    · intro ⟨k, hk⟩
      refine ⟨k, ?_, hk⟩
      subst hk
      exact (Nat.pow_lt_pow_iff_right (by decide)).1 hv
    · intro ⟨k, _, hk⟩
      exact ⟨k, hk⟩
  · rw [IsPowerOfTwo_iff]
    constructor
    · intro ⟨k, hk⟩
      refine ⟨k, fun j => ?_⟩
      rw [hk, Nat.testBit_two_pow]
      by_cases h : k = j
      · subst h; simp
      · have h2 : ¬ j = k := fun e => h e.symm
        simp [h, h2]
    · intro ⟨k, hk⟩
      refine ⟨k, Nat.eq_of_testBit_eq fun j => ?_⟩
      rw [hk j, Nat.testBit_two_pow]
      by_cases h : k = j
      · subst h; simp
      · have h2 : ¬ j = k := fun e => h e.symm
        simp [h, h2]

/-- Witness of C21: the 8-bit value 64. -/
theorem IsPowerOfTwo_iff_one_bit_witness :
    (IsPowerOfTwo 64 = true ↔ ∃ k, k < 8 ∧ 64 = 2 ^ k) ∧ IsPowerOfTwo 0 = false :=
  have h := IsPowerOfTwo_iff_one_bit 8 64 (by decide)
  ⟨h.1, h.2.2⟩

/-! ## Bit scans -/

theorem highestBitFrom_spec (v : Nat) :
    ∀ start, (∃ i, i ≤ start ∧ v.testBit i = true) →
      v.testBit (highestBitFrom v start) = true ∧ highestBitFrom v start ≤ start ∧
        ∀ j, highestBitFrom v start < j → j ≤ start → v.testBit j = false := by
  intro start
  induction start with
  | zero =>
    intro ⟨i, hi, hb⟩
    have : i = 0 := by omega
    subst this
    exact ⟨hb, le_refl _, fun j h1 h2 => by simp [highestBitFrom] at h1; omega⟩
  | succ start ih =>
    intro ⟨i, hi, hb⟩
    by_cases htop : v.testBit (start + 1) = true
    · have e : highestBitFrom v (start + 1) = start + 1 := by simp [highestBitFrom, htop]
      rw [e]
      exact ⟨htop, le_refl _, fun j h1 h2 => by omega⟩
    · have e : highestBitFrom v (start + 1) = highestBitFrom v start := by
        simp [highestBitFrom, htop]
      rw [e]
      have hi2 : i ≤ start := by
        by_contra hgt
        have : i = start + 1 := by omega
        subst this
        exact htop hb
      obtain ⟨h1, h2, h3⟩ := ih ⟨i, hi2, hb⟩
      refine ⟨h1, by omega, ?_⟩
      intro j hj1 hj2
      by_cases hj : j = start + 1
      · subst hj; simpa using htop
      · exact h3 j hj1 (by omega)

theorem exists_bit_below (w v : Nat) (hv : v ≠ 0) (hlt : v < 2 ^ w) :
    ∃ i, i < w ∧ v.testBit i = true := by
  obtain ⟨i, hi⟩ := Nat.ne_zero_implies_bit_true hv
  exact ⟨i, D3D11ResourceBindPoints.bit_lt_of_lt_two_pow hlt hi, hi⟩

theorem Basic_GetMSB_spec (w v : Nat) (hv : v ≠ 0) (hlt : v < 2 ^ w) :
    IsHighestSetBit v (BasicPlatformMisc.GetMSB w v) ∧ BasicPlatformMisc.GetMSB w v < w := by
  obtain ⟨i, hi, hb⟩ := exists_bit_below w v hv hlt
  obtain ⟨h1, h2, h3⟩ := highestBitFrom_spec v (w - 1) ⟨i, by omega, hb⟩
  unfold BasicPlatformMisc.GetMSB
  rw [if_neg hv]
  refine ⟨⟨h1, ?_⟩, by omega⟩
  intro j hj
  by_cases hjw : j ≤ w - 1
  · exact h3 j hj hjw
  · exact testBit_false_of_lt_two_pow hlt (by omega)

theorem Basic_GetLSB_spec (w v : Nat) (hv : v ≠ 0) (hlt : v < 2 ^ w) :
    IsLowestSetBit v (BasicPlatformMisc.GetLSB w v) ∧ BasicPlatformMisc.GetLSB w v < w := by
  obtain ⟨i, hi, hb⟩ := exists_bit_below w v hv hlt
  obtain ⟨_, h2, h3, h4⟩ := lowestBitFrom_spec v w 0
  unfold BasicPlatformMisc.GetLSB
  rw [if_neg hv]
  have hlt2 : lowestBitFrom v w 0 < w := by
    by_contra hge
    have := h3 i (Nat.zero_le _) (by omega)
    rw [this] at hb
    exact Bool.noConfusion hb
  exact ⟨⟨h4 (by omega), fun j hj => h3 j (Nat.zero_le _) hj⟩, hlt2⟩

theorem highestSetBit_unique (v i j : Nat) (hi : IsHighestSetBit v i) (hj : IsHighestSetBit v j) :
    i = j := by
  rcases Nat.lt_trichotomy i j with h | h | h
  · have := hi.2 j h
    rw [hj.1] at this
    exact Bool.noConfusion this
  · exact h
  · have := hj.2 i h
    rw [hi.1] at this
    exact Bool.noConfusion this

theorem highestSetBit_bounds (v i : Nat) (hi : IsHighestSetBit v i) :
    2 ^ i ≤ v ∧ v < 2 ^ (i + 1) :=
  ⟨Nat.testBit_implies_ge hi.1, Nat.lt_pow_two_of_testBit v (fun j hj => hi.2 j (by omega))⟩

theorem countLeadingZeros_add (v : Nat) :
    ∀ n, (∃ i, i < n ∧ v.testBit i = true) →
      PlatformMisc.countLeadingZeros v n + highestBitFrom v (n - 1) + 1 = n := by
  intro n
  induction n with
  | zero => intro ⟨i, hi, _⟩; omega
  | succ m ih =>
    intro ⟨i, hi, hb⟩
    rw [Nat.add_sub_cancel]
    by_cases htop : v.testBit m = true
    · have e1 : PlatformMisc.countLeadingZeros v (m + 1) = 0 := by
        simp [PlatformMisc.countLeadingZeros, htop]
      have e2 : highestBitFrom v m = m := by
        cases m with
        | zero => rfl
        | succ m' => simp [highestBitFrom, htop]
      rw [e1, e2]
      omega
    · have e1 : PlatformMisc.countLeadingZeros v (m + 1) =
          PlatformMisc.countLeadingZeros v m + 1 := by
        simp [PlatformMisc.countLeadingZeros, htop]
      have hi2 : i < m := by
        by_contra hge
        have : i = m := by omega
        subst this
        exact htop hb
      have h := ih ⟨i, hi2, hb⟩
      cases m with
      | zero => omega
      | succ m' =>
        have e2 : highestBitFrom v (m' + 1) = highestBitFrom v m' := by
          simp [highestBitFrom, htop]
        rw [Nat.add_sub_cancel] at h
        rw [e1, e2]
        omega

theorem lowestBitFrom_eq_countTrailingZeros :
    ∀ n v start, lowestBitFrom v n start =
      start + PlatformMisc.countTrailingZeros n (v >>> start) := by
  intro n
  induction n with
  | zero => intro v start; rfl
  | succ n ih =>
    intro v start
    have hbit : v.testBit start = decide ((v >>> start) % 2 = 1) := by
      rw [Nat.testBit_to_div_mod, Nat.shiftRight_eq_div_pow]
    have hshift : (v >>> start) / 2 = v >>> (start + 1) := by
      rw [Nat.shiftRight_succ]
    simp only [lowestBitFrom, PlatformMisc.countTrailingZeros, hbit, decide_eq_true_eq]
    by_cases h : (v >>> start) % 2 = 1
    · simp [h]
    · rw [if_neg h, if_neg h, ih, hshift]
      omega

/-- The portable and the platform-specific models agree on every input. -/
theorem PlatformMisc_eq_Basic (w v : Nat) (hlt : v < 2 ^ w) :
    PlatformMisc.GetMSB w v = BasicPlatformMisc.GetMSB w v ∧
      PlatformMisc.GetLSB w v = BasicPlatformMisc.GetLSB w v := by
  unfold PlatformMisc.GetMSB BasicPlatformMisc.GetMSB PlatformMisc.GetLSB
    BasicPlatformMisc.GetLSB
  by_cases hv : v = 0
  · simp [hv]
  · rw [if_neg hv, if_neg hv, if_neg hv, if_neg hv]
    obtain ⟨i, hi, hb⟩ := exists_bit_below w v hv hlt
    have h1 := countLeadingZeros_add v w ⟨i, hi, hb⟩
    have h2 := lowestBitFrom_eq_countTrailingZeros w v 0
    rw [Nat.shiftRight_zero, Nat.zero_add] at h2
    exact ⟨by omega, h2.symm⟩

theorem AlignDownToPowerOfTwo_spec (w v : Nat) (hv : v ≠ 0) (hlt : v < 2 ^ w) :
    AlignDownToPowerOfTwo w v = 2 ^ BasicPlatformMisc.GetMSB w v ∧
      AlignDownToPowerOfTwo w v ≤ v ∧ ∀ k, 2 ^ k ≤ v → 2 ^ k ≤ AlignDownToPowerOfTwo w v := by
  obtain ⟨hmsb, hmw⟩ := Basic_GetMSB_spec w v hv hlt
  obtain ⟨hlo, hhi⟩ := highestSetBit_bounds v _ hmsb
  have h : AlignDownToPowerOfTwo w v = 2 ^ BasicPlatformMisc.GetMSB w v := by
    unfold AlignDownToPowerOfTwo
    rw [if_neg hv]
    exact Nat.mod_eq_of_lt (Nat.pow_lt_pow_right (by decide) hmw)
  refine ⟨h, by rw [h]; exact hlo, ?_⟩
  intro k hk
  rw [h]
  have : k < BasicPlatformMisc.GetMSB w v + 1 :=
    (Nat.pow_lt_pow_iff_right (by decide)).1 (lt_of_le_of_lt hk hhi)
  exact Nat.pow_le_pow_right (by decide) (by omega)

theorem AlignUpToPowerOfTwo_spec (w v k : Nat) (hv : v ≠ 0) (hlt : v < 2 ^ w) (hk : v ≤ 2 ^ k)
    (hmin : ∀ j, v ≤ 2 ^ j → 2 ^ k ≤ 2 ^ j) (hrep : 2 ^ k < 2 ^ w) :
    AlignUpToPowerOfTwo w v = 2 ^ k := by
  obtain ⟨hmsb, _⟩ := Basic_GetMSB_spec w v hv hlt
  obtain ⟨hlo, hhi⟩ := highestSetBit_bounds v _ hmsb
  unfold AlignUpToPowerOfTwo
  rw [if_neg hv]
  by_cases hp : IsPowerOfTwo v = true
  · rw [if_pos hp]
    obtain ⟨m, hm⟩ := (IsPowerOfTwo_iff v).1 hp
    have h1 := hmin m (Nat.le_of_eq hm)
    rw [hm] at hk ⊢
    exact Nat.le_antisymm hk h1
  · rw [if_neg hp]
    have hne : v ≠ 2 ^ k := fun e => hp ((IsPowerOfTwo_iff v).2 ⟨k, e⟩)
    have hltk : v < 2 ^ k := Nat.lt_of_le_of_ne hk hne
    have h1 : BasicPlatformMisc.GetMSB w v < k :=
      (Nat.pow_lt_pow_iff_right (by decide)).1 (lt_of_le_of_lt hlo hltk)
    have h2 : 2 ^ (BasicPlatformMisc.GetMSB w v + 1) ≤ 2 ^ k :=
      Nat.pow_le_pow_right (by decide) h1
    have h3 : 2 ^ k ≤ 2 ^ (BasicPlatformMisc.GetMSB w v + 1) := hmin _ (Nat.le_of_lt hhi)
    rw [Nat.le_antisymm h2 h3]
    exact Nat.mod_eq_of_lt hrep

set_option maxRecDepth 100000 in
/-- The values that `TestAlignUpToPowerOfTwo` and `TestAlignDownToPowerOfTwo`
expect, for the four unsigned types. -/
theorem AlignToPowerOfTwo_test_values :
    ∀ w, w ∈ [8, 16, 32, 64] →
      AlignUpToPowerOfTwo w 0 = 0 ∧ AlignUpToPowerOfTwo w 1 = 1 ∧
      AlignUpToPowerOfTwo w 2 = 2 ∧ AlignDownToPowerOfTwo w 0 = 0 ∧
      AlignDownToPowerOfTwo w 1 = 1 ∧ AlignDownToPowerOfTwo w 2 = 2 ∧
      ∀ i, i < w - 1 → 2 ≤ i →
        AlignUpToPowerOfTwo w (2 ^ i) = 2 ^ i ∧ AlignUpToPowerOfTwo w (2 ^ i - 1) = 2 ^ i ∧
        AlignUpToPowerOfTwo w (2 ^ i / 2 + 1) = 2 ^ i ∧
        AlignDownToPowerOfTwo w (2 ^ i) = 2 ^ i ∧
        AlignDownToPowerOfTwo w (2 ^ i - 1) = 2 ^ i / 2 ∧
        AlignDownToPowerOfTwo w (2 ^ i / 2 + 1) = 2 ^ i / 2 := by
  decide

/-- C22: for an unsigned value `v >= 1` of a `w`-bit type,
`AlignDownToPowerOfTwo(v)` is the largest power of two not above `v`, and,
when the smallest power of two not below `v` is representable in `w` bits,
`AlignUpToPowerOfTwo(v)` is that power; both return `v` when `v` is a power of
two, and both return 0 for 0. -/
theorem AlignToPowerOfTwo_extremal (w v : Nat) (hv1 : 1 ≤ v) (hv : v < 2 ^ w) :
    ((∃ k, AlignDownToPowerOfTwo w v = 2 ^ k) ∧ AlignDownToPowerOfTwo w v ≤ v ∧
        ∀ k, 2 ^ k ≤ v → 2 ^ k ≤ AlignDownToPowerOfTwo w v) ∧
      (∀ k, v ≤ 2 ^ k → (∀ j, v ≤ 2 ^ j → 2 ^ k ≤ 2 ^ j) → 2 ^ k < 2 ^ w →
        AlignUpToPowerOfTwo w v = 2 ^ k) ∧
      (IsPowerOfTwo v = true →
        AlignUpToPowerOfTwo w v = v ∧ AlignDownToPowerOfTwo w v = v) ∧
      AlignUpToPowerOfTwo w 0 = 0 ∧ AlignDownToPowerOfTwo w 0 = 0 := by
  have hne : v ≠ 0 := by omega
  obtain ⟨hd1, hd2, hd3⟩ := AlignDownToPowerOfTwo_spec w v hne hv
  refine ⟨⟨⟨_, hd1⟩, hd2, hd3⟩, fun k hk hmin hrep =>
    AlignUpToPowerOfTwo_spec w v k hne hv hk hmin hrep, ?_, rfl, rfl⟩
  intro hp
  obtain ⟨m, hm⟩ := (IsPowerOfTwo_iff v).1 hp
  constructor
  · unfold AlignUpToPowerOfTwo
    rw [if_neg hne, if_pos hp]
  · have := hd3 m (Nat.le_of_eq hm.symm)
    rw [← hm] at this
    exact Nat.le_antisymm hd2 this

/-- Witness of C22: the 8-bit value 33 rounds down to 32 and up to 64. -/
theorem AlignToPowerOfTwo_extremal_witness :
    AlignDownToPowerOfTwo 8 33 ≤ 33 ∧ (2 ^ 5 ≤ 33 → 2 ^ 5 ≤ AlignDownToPowerOfTwo 8 33) ∧
      AlignUpToPowerOfTwo 8 33 = 2 ^ 6 :=
  have h := AlignToPowerOfTwo_extremal 8 33 (by decide) (by decide)
  ⟨h.1.2.1, h.1.2.2 5, h.2.1 6 (by decide)
    (fun j hj => Nat.pow_le_pow_right (by decide) (by
      by_contra hlt
      have h5 : j ≤ 5 := by omega
      have : 2 ^ j ≤ 2 ^ 5 := Nat.pow_le_pow_right (by decide) h5
      have e : (2 : Nat) ^ 5 = 32 := by decide
      omega))
    (by decide)⟩

set_option maxRecDepth 100000 in
/-- The values that `TestMSB_LSB` expects of both classes, for 32-bit and
64-bit words. -/
theorem GetMSB_GetLSB_test_values :
    ∀ w, w ∈ [32, 64] →
      BasicPlatformMisc.GetMSB w 0 = w ∧ PlatformMisc.GetMSB w 0 = w ∧
      BasicPlatformMisc.GetLSB w 0 = w ∧ PlatformMisc.GetLSB w 0 = w ∧
      ∀ i, i < w →
        BasicPlatformMisc.GetMSB w (2 ^ i ||| 1) = i ∧ PlatformMisc.GetMSB w (2 ^ i ||| 1) = i ∧
        BasicPlatformMisc.GetLSB w (2 ^ i ||| 2 ^ (w - 1)) = i ∧
        PlatformMisc.GetLSB w (2 ^ i ||| 2 ^ (w - 1)) = i := by
  decide

/-- C23: for a non-zero `w`-bit value `v` (32 or 64 bits), `GetMSB(v)` is the
index of the highest set bit and `GetLSB(v)` the index of the lowest set bit;
for zero both return the bit width; the platform-specific and the portable
versions return the same results on every input. The 32-bit `GetLSB` used by
the stage extraction is the same function. -/
theorem GetMSB_GetLSB_bit_indices (w v : Nat) (hv : v < 2 ^ w) :
    (v ≠ 0 → IsHighestSetBit v (BasicPlatformMisc.GetMSB w v) ∧
        IsLowestSetBit v (BasicPlatformMisc.GetLSB w v) ∧
        IsHighestSetBit v (PlatformMisc.GetMSB w v) ∧
        IsLowestSetBit v (PlatformMisc.GetLSB w v)) ∧
      BasicPlatformMisc.GetMSB w 0 = w ∧ BasicPlatformMisc.GetLSB w 0 = w ∧
      PlatformMisc.GetMSB w 0 = w ∧ PlatformMisc.GetLSB w 0 = w ∧
      PlatformMisc.GetMSB w v = BasicPlatformMisc.GetMSB w v ∧
      PlatformMisc.GetLSB w v = BasicPlatformMisc.GetLSB w v ∧
      (w = 32 → GetLSB v = PlatformMisc.GetLSB w v) := by
  obtain ⟨e1, e2⟩ := PlatformMisc_eq_Basic w v hv
  refine ⟨?_, rfl, rfl, rfl, rfl, e1, e2, ?_⟩
  · intro hne
    rw [e1, e2]
    exact ⟨(Basic_GetMSB_spec w v hne hv).1, (Basic_GetLSB_spec w v hne hv).1,
      (Basic_GetMSB_spec w v hne hv).1, (Basic_GetLSB_spec w v hne hv).1⟩
  · intro hw
    subst hw
    rw [e2]
    unfold GetLSB BasicPlatformMisc.GetLSB
    by_cases h0 : v = 0
    · subst h0; rfl
    · rw [if_neg h0]

/-- Witness of C23: the 32-bit value 40 (bits 3 and 5). -/
theorem GetMSB_GetLSB_bit_indices_witness :
    IsHighestSetBit 40 (BasicPlatformMisc.GetMSB 32 40) ∧
      IsLowestSetBit 40 (BasicPlatformMisc.GetLSB 32 40) ∧
      PlatformMisc.GetMSB 32 40 = BasicPlatformMisc.GetMSB 32 40 ∧
      PlatformMisc.GetLSB 32 40 = BasicPlatformMisc.GetLSB 32 40 :=
  have h := GetMSB_GetLSB_bit_indices 32 40 (by decide)
  ⟨(h.1 (by decide)).1, (h.1 (by decide)).2.1, h.2.2.2.2.2.1, h.2.2.2.2.2.2.1⟩

/-! ## Byte order -/

theorem toBytes_length : ∀ n x, (toBytes n x).length = n := by
  intro n
  induction n with
  | zero => intro x; rfl
  | succ n ih => intro x; simp [toBytes, ih]

theorem toBytes_lt : ∀ n x b, b ∈ toBytes n x → b < 256 := by
  intro n
  induction n with
  | zero => intro x b hb; simp [toBytes] at hb
  | succ n ih =>
    intro x b hb
    simp only [toBytes, List.mem_cons] at hb
    rcases hb with h | h
    · omega
    · exact ih _ b h

theorem ofBytes_toBytes : ∀ n x, x < 256 ^ n → ofBytes (toBytes n x) = x := by
  intro n
  induction n with
  | zero => intro x hx; simp at hx; simp [toBytes, ofBytes, hx]
  | succ n ih =>
    intro x hx
    have hdiv : x / 256 < 256 ^ n := by
      rw [Nat.pow_succ] at hx
      exact Nat.div_lt_of_lt_mul (by rw [Nat.mul_comm]; exact hx)
    simp only [toBytes, ofBytes, ih _ hdiv]
    omega

theorem toBytes_ofBytes : ∀ l : List Nat, (∀ b ∈ l, b < 256) →
    toBytes l.length (ofBytes l) = l := by
  intro l
  induction l with
  | nil => intro _; rfl
  | cons b bs ih =>
    intro h
    have hb : b < 256 := h b (List.mem_cons_self _ _)
    have hbs := ih (fun c hc => h c (List.mem_cons_of_mem _ hc))
    simp only [List.length_cons, toBytes, ofBytes]
    have e1 : (b + 256 * ofBytes bs) % 256 = b := by omega
    have e2 : (b + 256 * ofBytes bs) / 256 = ofBytes bs := by omega
    rw [e1, e2, hbs]

theorem ofBytes_lt : ∀ l : List Nat, (∀ b ∈ l, b < 256) → ofBytes l < 256 ^ l.length := by
  intro l
  induction l with
  | nil => intro _; simp [ofBytes]
  | cons b bs ih =>
    intro h
    have hb : b < 256 := h b (List.mem_cons_self _ _)
    have hbs := ih (fun c hc => h c (List.mem_cons_of_mem _ hc))
    simp only [List.length_cons, ofBytes, Nat.pow_succ]
    omega

theorem toBytes_SwapBytes (n x : Nat) : toBytes n (SwapBytes n x) = (toBytes n x).reverse := by
  have h := toBytes_ofBytes (toBytes n x).reverse
    (fun b hb => toBytes_lt n x b (List.mem_reverse.1 hb))
  rw [List.length_reverse, toBytes_length] at h
  exact h

/-- The values that `TestSwapBytes` expects, for 64-, 32- and 16-bit
patterns. -/
theorem SwapBytes_test_values :
    SwapBytes 8 0x0102030405060708 = 0x0807060504030201 ∧
      SwapBytes 4 0x01020304 = 0x04030201 ∧ SwapBytes 2 0x0102 = 0x0201 := by
  decide

/-- C24: for the bit pattern `x` of an `n`-byte value (16-, 32- or 64-bit
integers of either signedness, or a `float`), `SwapBytes(x)` is an `n`-byte
pattern whose bytes are those of `x` in reverse order, and swapping twice
gives `x` back; 0x01020304 becomes 0x04030201. -/
theorem SwapBytes_reverses_and_involutive (n x : Nat) (hx : x < 256 ^ n) :
    SwapBytes n x < 256 ^ n ∧ toBytes n (SwapBytes n x) = (toBytes n x).reverse ∧
      SwapBytes n (SwapBytes n x) = x ∧ SwapBytes 4 0x01020304 = 0x04030201 := by
  refine ⟨?_, toBytes_SwapBytes n x, ?_, by decide⟩
  · have h := ofBytes_lt (toBytes n x).reverse
      (fun b hb => toBytes_lt n x b (List.mem_reverse.1 hb))
    rw [List.length_reverse, toBytes_length] at h
    exact h
  · show ofBytes (toBytes n (SwapBytes n x)).reverse = x
    rw [toBytes_SwapBytes, List.reverse_reverse, ofBytes_toBytes n x hx]

/-- Witness of C24: the 32-bit pattern 0x449A522B of the `float` 1234.5678. -/
theorem SwapBytes_reverses_and_involutive_witness :
    SwapBytes 4 0x449A522B = 0x2B529A44 ∧ SwapBytes 4 (SwapBytes 4 0x449A522B) = 0x449A522B :=
  ⟨by decide, (SwapBytes_reverses_and_involutive 4 0x449A522B (by decide)).2.2.1⟩

/-! ## Entry regions of the shader-variable manager -/

namespace ShaderVariableManagerD3D11

theorem entriesBetween_mul (lo hi size : Nat) (hsize : 0 < size) (hle : lo ≤ hi)
    (hdvd : size ∣ hi - lo) (hhi : hi < 2 ^ 16) :
    entriesBetween lo hi size * size = hi - lo := by
  obtain ⟨n, hn⟩ := hdvd
  rw [Nat.mul_comm] at hn
  have e : hi = lo + n * size := by omega
  rw [e] at hhi
  rw [e, entriesBetween_exact lo n size hsize hhi]
  omega

theorem GetResource_ok (sizeof : ResourceCategory → Nat) (M : ShaderVariableManagerD3D11)
    (cat : ResourceCategory) (i : Nat) (hi : i < M.GetNumResources sizeof cat) :
    M.GetResource sizeof cat i = .ok (M.GetResourceOffset cat + i * sizeof cat) := by
  unfold GetResource
  rw [if_pos hi]

/-- C25: for every manager state whose recorded byte offsets are
non-decreasing in the canonical order with every delta a multiple of the
(positive) entry size, the six regions `[GetResourceOffset<T>(),
GetResourceOffset<T>() + GetNumResources<T>() * sizeof(T))` tile
`[0, m_MemorySize)` in the canonical order: the first starts at 0, each ends
where the next begins, the last ends at `m_MemorySize`, every byte of the block
lies in exactly one region, the sum of count times entry size is `m_MemorySize`,
and every `GetResource<T>(i)` with `i < GetNumResources<T>()` passes its check
and lies inside the region of `T`. -/
theorem regions_tile_memory (sizeof : ResourceCategory → Nat) (M : ShaderVariableManagerD3D11)
    (hpos : ∀ c, 0 < sizeof c) (hmem : M.m_MemorySize < 2 ^ 16)
    (hord : M.m_TexSRVsOffset ≤ M.m_TexUAVsOffset ∧ M.m_TexUAVsOffset ≤ M.m_BuffSRVsOffset ∧
      M.m_BuffSRVsOffset ≤ M.m_BuffUAVsOffset ∧ M.m_BuffUAVsOffset ≤ M.m_SamplerOffset ∧
      M.m_SamplerOffset ≤ M.m_MemorySize)
    (hmul : sizeof .ConstBuffBindInfo ∣ M.m_TexSRVsOffset - 0 ∧
      sizeof .TexSRVBindInfo ∣ M.m_TexUAVsOffset - M.m_TexSRVsOffset ∧
      sizeof .TexUAVBindInfo ∣ M.m_BuffSRVsOffset - M.m_TexUAVsOffset ∧
      sizeof .BuffSRVBindInfo ∣ M.m_BuffUAVsOffset - M.m_BuffSRVsOffset ∧
      sizeof .BuffUAVBindInfo ∣ M.m_SamplerOffset - M.m_BuffUAVsOffset ∧
      sizeof .SamplerBindInfo ∣ M.m_MemorySize - M.m_SamplerOffset) :
    (M.GetResourceOffset .ConstBuffBindInfo = 0 ∧
      M.regionEnd sizeof .ConstBuffBindInfo = M.GetResourceOffset .TexSRVBindInfo ∧
      M.regionEnd sizeof .TexSRVBindInfo = M.GetResourceOffset .TexUAVBindInfo ∧
      M.regionEnd sizeof .TexUAVBindInfo = M.GetResourceOffset .BuffSRVBindInfo ∧
      M.regionEnd sizeof .BuffSRVBindInfo = M.GetResourceOffset .BuffUAVBindInfo ∧
      M.regionEnd sizeof .BuffUAVBindInfo = M.GetResourceOffset .SamplerBindInfo ∧
      M.regionEnd sizeof .SamplerBindInfo = M.m_MemorySize) ∧
    (∀ byte, byte < M.m_MemorySize → ∃! cat, M.inRegion sizeof cat byte) ∧
    (∀ cat byte, M.inRegion sizeof cat byte → byte < M.m_MemorySize) ∧
    M.GetNumCBs sizeof * sizeof .ConstBuffBindInfo +
      M.GetNumTexSRVs sizeof * sizeof .TexSRVBindInfo +
      M.GetNumTexUAVs sizeof * sizeof .TexUAVBindInfo +
      M.GetNumBufSRVs sizeof * sizeof .BuffSRVBindInfo +
      M.GetNumBufUAVs sizeof * sizeof .BuffUAVBindInfo +
      M.GetNumSamplers sizeof * sizeof .SamplerBindInfo = M.m_MemorySize ∧
    (∀ cat i, i < M.GetNumResources sizeof cat →
      ∃ p, M.GetResource sizeof cat i = .ok p ∧ M.GetResourceOffset cat ≤ p ∧
        p + sizeof cat ≤ M.regionEnd sizeof cat ∧ M.inRegion sizeof cat p) := by
  obtain ⟨o1, o2, o3, o4, o5⟩ := hord
  obtain ⟨d0, d1, d2, d3, d4, d5⟩ := hmul
  have e0 : M.GetNumCBs sizeof * sizeof .ConstBuffBindInfo = M.m_TexSRVsOffset - 0 :=
    entriesBetween_mul 0 _ _ (hpos _) (Nat.zero_le _) d0 (by omega)
  have e1 : M.GetNumTexSRVs sizeof * sizeof .TexSRVBindInfo =
      M.m_TexUAVsOffset - M.m_TexSRVsOffset :=
    entriesBetween_mul _ _ _ (hpos _) o1 d1 (by omega)
  have e2 : M.GetNumTexUAVs sizeof * sizeof .TexUAVBindInfo =
      M.m_BuffSRVsOffset - M.m_TexUAVsOffset :=
    entriesBetween_mul _ _ _ (hpos _) o2 d2 (by omega)
  have e3 : M.GetNumBufSRVs sizeof * sizeof .BuffSRVBindInfo =
      M.m_BuffUAVsOffset - M.m_BuffSRVsOffset :=
    entriesBetween_mul _ _ _ (hpos _) o3 d3 (by omega)
  have e4 : M.GetNumBufUAVs sizeof * sizeof .BuffUAVBindInfo =
      M.m_SamplerOffset - M.m_BuffUAVsOffset :=
    entriesBetween_mul _ _ _ (hpos _) o4 d4 (by omega)
  have e5 : M.GetNumSamplers sizeof * sizeof .SamplerBindInfo =
      M.m_MemorySize - M.m_SamplerOffset :=
    entriesBetween_mul _ _ _ (hpos _) o5 d5 (by omega)
  refine ⟨?_, ?_, ?_, by omega, ?_⟩
  · simp only [regionEnd, GetResourceOffset, GetNumResources]
    refine ⟨trivial, ?_, ?_, ?_, ?_, ?_, ?_⟩ <;> omega
  · intro byte hb
    rcases (show byte < M.m_TexSRVsOffset ∨
        (M.m_TexSRVsOffset ≤ byte ∧ byte < M.m_TexUAVsOffset) ∨
        (M.m_TexUAVsOffset ≤ byte ∧ byte < M.m_BuffSRVsOffset) ∨
        (M.m_BuffSRVsOffset ≤ byte ∧ byte < M.m_BuffUAVsOffset) ∨
        (M.m_BuffUAVsOffset ≤ byte ∧ byte < M.m_SamplerOffset) ∨
        (M.m_SamplerOffset ≤ byte ∧ byte < M.m_MemorySize) by omega) with h | h | h | h | h | h
    · refine ⟨.ConstBuffBindInfo, ?_, ?_⟩
      · simp only [inRegion, regionEnd, GetResourceOffset, GetNumResources]; omega
      · intro c hc
        cases c <;> simp only [inRegion, regionEnd, GetResourceOffset, GetNumResources] at hc <;>
          first | rfl | (exfalso; omega)
    · refine ⟨.TexSRVBindInfo, ?_, ?_⟩
      · simp only [inRegion, regionEnd, GetResourceOffset, GetNumResources]; omega
      · intro c hc
        cases c <;> simp only [inRegion, regionEnd, GetResourceOffset, GetNumResources] at hc <;>
          first | rfl | (exfalso; omega)
    · refine ⟨.TexUAVBindInfo, ?_, ?_⟩
      · simp only [inRegion, regionEnd, GetResourceOffset, GetNumResources]; omega
      · intro c hc
        cases c <;> simp only [inRegion, regionEnd, GetResourceOffset, GetNumResources] at hc <;>
          first | rfl | (exfalso; omega)
    · refine ⟨.BuffSRVBindInfo, ?_, ?_⟩
      · simp only [inRegion, regionEnd, GetResourceOffset, GetNumResources]; omega
      · intro c hc
        cases c <;> simp only [inRegion, regionEnd, GetResourceOffset, GetNumResources] at hc <;>
          first | rfl | (exfalso; omega)
    · refine ⟨.BuffUAVBindInfo, ?_, ?_⟩
      · simp only [inRegion, regionEnd, GetResourceOffset, GetNumResources]; omega
      · intro c hc
        cases c <;> simp only [inRegion, regionEnd, GetResourceOffset, GetNumResources] at hc <;>
          first | rfl | (exfalso; omega)
    · refine ⟨.SamplerBindInfo, ?_, ?_⟩
      · simp only [inRegion, regionEnd, GetResourceOffset, GetNumResources]; omega
      · intro c hc
        cases c <;> simp only [inRegion, regionEnd, GetResourceOffset, GetNumResources] at hc <;>
          first | rfl | (exfalso; omega)
  · intro c byte hc
    cases c <;> simp only [inRegion, regionEnd, GetResourceOffset, GetNumResources] at hc <;> omega
  · intro c i hi
    refine ⟨_, GetResource_ok sizeof M c i hi, Nat.le_add_right _ _, ?_, Nat.le_add_right _ _, ?_⟩
    · have h1 : (i + 1) * sizeof c ≤ M.GetNumResources sizeof c * sizeof c :=
        Nat.mul_le_mul_right _ hi
      rw [Nat.add_mul, Nat.one_mul] at h1
      unfold regionEnd
      omega
    · have h1 : (i + 1) * sizeof c ≤ M.GetNumResources sizeof c * sizeof c :=
        Nat.mul_le_mul_right _ hi
      rw [Nat.add_mul, Nat.one_mul] at h1
      have := hpos c
      unfold regionEnd
      omega

/-- Witness of C25: the block of 144 bytes with 2, 1, 0, 1, 0 and 2 entries of
24 bytes; byte 100 lies in the region of the samplers. -/
theorem regions_tile_memory_witness :
    sampleBlock.regionEnd sampleSizes .ConstBuffBindInfo = 48 ∧
      sampleBlock.regionEnd sampleSizes .SamplerBindInfo = 144 ∧
      sampleBlock.GetResource sampleSizes .SamplerBindInfo 1 = .ok 120 ∧
      (∃! cat, sampleBlock.inRegion sampleSizes cat 100) :=
  have h := regions_tile_memory sampleSizes sampleBlock (by simp [sampleSizes]) (by decide)
    (by decide) (by decide)
  ⟨h.1.2.1, h.1.2.2.2.2.2.2, rfl, h.2.1 100 (by decide)⟩

end ShaderVariableManagerD3D11

/-! ## The resource walks -/

namespace ShaderVariableManagerD3D11

theorem handleLoop_eq {σ : Type} (sizeof : ResourceCategory → Nat)
    (M : ShaderVariableManagerD3D11) (cat : ResourceCategory) (Handle : Nat → σ → σ) :
    ∀ n i st, i + n ≤ M.GetNumResources sizeof cat →
      handleLoop sizeof M cat Handle n i st =
        .ok ((List.range' i n).foldl
          (fun s j => Handle (M.GetResourceOffset cat + j * sizeof cat) s) st) := by
  intro n
  induction n with
  | zero => intro i st _; rfl
  | succ n ih =>
    intro i st h
    simp only [handleLoop, GetResource_ok sizeof M cat i (by omega), List.range'_succ,
      List.foldl_cons]
    exact ih (i + 1) _ (by omega)

theorem runAll_entriesOf {σ : Type} (sizeof : ResourceCategory → Nat)
    (M : ShaderVariableManagerD3D11) (cat : ResourceCategory)
    (H : ResourceCategory → Nat → σ → σ) (st : σ) :
    handleLoop sizeof M cat (H cat) (M.GetNumResources sizeof cat) 0 st =
      .ok (runAll H (entriesOf sizeof M cat) st) := by
  rw [handleLoop_eq sizeof M cat (H cat) _ 0 st (by omega)]
  unfold runAll entriesOf
  rw [List.foldl_map, List.range_eq_range']

theorem runAll_append {σ : Type} (H : ResourceCategory → Nat → σ → σ)
    (xs ys : List HandlerCall) (st : σ) :
    runAll H (xs ++ ys) st = runAll H ys (runAll H xs st) := by
  unfold runAll
  rw [List.foldl_append]

theorem HandleResources_eq {σ : Type} (sizeof : ResourceCategory → Nat)
    (M : ShaderVariableManagerD3D11) (H : ResourceCategory → Nat → σ → σ) (st : σ) :
    HandleResources sizeof M (H .ConstBuffBindInfo) (H .TexSRVBindInfo) (H .TexUAVBindInfo)
        (H .BuffSRVBindInfo) (H .BuffUAVBindInfo) (H .SamplerBindInfo) st =
      .ok (runAll H (allEntries sizeof M) st) := by
  unfold HandleResources allEntries
  simp only [runAll_entriesOf, runAll_append]

theorem GetConstResource_ok (sizeof : ResourceCategory → Nat) (M : ShaderVariableManagerD3D11)
    (cat : ResourceCategory) (i : Nat) (hi : i < M.GetNumResources sizeof cat) :
    M.GetConstResource sizeof cat i = .ok (M.GetResourceOffset cat + i * sizeof cat) := by
  unfold GetConstResource
  rw [if_pos hi]

theorem handleConstLoop_eq {σ : Type} (sizeof : ResourceCategory → Nat)
    (M : ShaderVariableManagerD3D11) (cat : ResourceCategory)
    (H : ResourceCategory → Nat → σ → Bool × σ) :
    ∀ n i st, i + n ≤ M.GetNumResources sizeof cat →
      handleConstLoop sizeof M cat (H cat) n i st =
        .ok (runUntilFalse H ((List.range' i n).map
          (fun j => (cat, M.GetResourceOffset cat + j * sizeof cat))) st) := by
  intro n
  induction n with
  | zero => intro i st _; rfl
  | succ n ih =>
    intro i st h
    simp only [handleConstLoop, GetConstResource_ok sizeof M cat i (by omega), List.range'_succ,
      List.map_cons, runUntilFalse]
    by_cases hr : (H cat (M.GetResourceOffset cat + i * sizeof cat) st).1 = true
    · rw [if_pos hr, if_pos hr]
      exact ih (i + 1) _ (by omega)
    · rw [if_neg hr, if_neg hr]

theorem runUntilFalse_entriesOf {σ : Type} (sizeof : ResourceCategory → Nat)
    (M : ShaderVariableManagerD3D11) (cat : ResourceCategory)
    (H : ResourceCategory → Nat → σ → Bool × σ) (st : σ) :
    handleConstLoop sizeof M cat (H cat) (M.GetNumResources sizeof cat) 0 st =
      .ok (runUntilFalse H (entriesOf sizeof M cat) st) := by
  rw [handleConstLoop_eq sizeof M cat H _ 0 st (by omega)]
  unfold entriesOf
  rw [List.range_eq_range']

theorem runUntilFalse_append {σ : Type} (H : ResourceCategory → Nat → σ → Bool × σ)
    (xs ys : List HandlerCall) :
    ∀ st, runUntilFalse H (xs ++ ys) st =
      if (runUntilFalse H xs st).1 then runUntilFalse H ys (runUntilFalse H xs st).2
      else (false, (runUntilFalse H xs st).2) := by
  induction xs with
  | nil => intro st; simp [runUntilFalse]
  | cons e es ih =>
    intro st
    simp only [List.cons_append, runUntilFalse]
    by_cases hr : (H e.1 e.2 st).1 = true
    · rw [if_pos hr, if_pos hr]
      exact ih _
    · rw [if_neg hr, if_neg hr]
      simp

/-- One step of `HandleConstResources`: the outcome of a loop decides whether
the rest of the function runs. -/
theorem constStep {σ : Type} (r : Bool × σ) (rest : σ → Except Fault σ) :
    (match (Except.ok r : Except Fault (Bool × σ)) with
      | .error f => .error f
      | .ok (false, st) => .ok st
      | .ok (true, st) => rest st) = if r.1 then rest r.2 else .ok r.2 := by
  obtain ⟨b, st⟩ := r
  cases b <;> rfl

theorem HandleConstResources_eq {σ : Type} (sizeof : ResourceCategory → Nat)
    (M : ShaderVariableManagerD3D11) (H : ResourceCategory → Nat → σ → Bool × σ) (st : σ) :
    HandleConstResources sizeof M (H .ConstBuffBindInfo) (H .TexSRVBindInfo)
        (H .TexUAVBindInfo) (H .BuffSRVBindInfo) (H .BuffUAVBindInfo) (H .SamplerBindInfo) st =
      .ok (runUntilFalse H (allEntries sizeof M) st).2 := by
  unfold HandleConstResources allEntries
  simp only [runUntilFalse_entriesOf, constStep, runUntilFalse_append]
  repeat' split
  all_goals first | rfl | simp_all

theorem runAll_record (calls : List HandlerCall) :
    ∀ trace, runAll record calls trace = trace ++ calls := by
  induction calls with
  | nil => intro trace; simp [runAll]
  | cons e es ih =>
    intro trace
    have h := ih (record e.1 e.2 trace)
    unfold runAll at h ⊢
    rw [List.foldl_cons, h]
    simp [record]

theorem runUntilFalse_record (ok : HandlerCall → Bool) (calls : List HandlerCall) :
    ∀ trace, (runUntilFalse (recordAndAnswer ok) calls trace).2 =
      trace ++ throughFirstFalse ok calls := by
  induction calls with
  | nil => intro trace; simp [runUntilFalse, throughFirstFalse]
  | cons e es ih =>
    intro trace
    simp only [runUntilFalse, throughFirstFalse, recordAndAnswer]
    by_cases hr : ok (e.1, e.2) = true
    · have hr2 : ok e = true := hr
      rw [if_pos hr, if_pos hr2, ih]
      simp
    · have hr2 : ¬ ok e = true := hr
      rw [if_neg hr, if_neg hr2]

theorem length_entriesOf (sizeof : ResourceCategory → Nat) (M : ShaderVariableManagerD3D11)
    (cat : ResourceCategory) :
    (entriesOf sizeof M cat).length = M.GetNumResources sizeof cat := by
  simp [entriesOf]

/-- C26: `HandleResources` calls one handler per binding-info entry, in the
canonical category order and by ascending index inside each category,
`GetNumCBs() + GetNumTexSRVs() + GetNumTexUAVs() + GetNumBufSRVs() +
GetNumBufUAVs() + GetNumSamplers()` calls in total; `HandleConstResources`
makes the calls of that same sequence up to and including the first one that
returns false and none after it. Both walks finish without tripping the index
check of the entry accessors. -/
theorem HandleResources_call_sequence {σ : Type} (sizeof : ResourceCategory → Nat)
    (M : ShaderVariableManagerD3D11) :
    (∀ (H : ResourceCategory → Nat → σ → σ) (st : σ),
      HandleResources sizeof M (H .ConstBuffBindInfo) (H .TexSRVBindInfo) (H .TexUAVBindInfo)
          (H .BuffSRVBindInfo) (H .BuffUAVBindInfo) (H .SamplerBindInfo) st =
        .ok (runAll H (allEntries sizeof M) st)) ∧
    HandleResources sizeof M (record .ConstBuffBindInfo) (record .TexSRVBindInfo)
        (record .TexUAVBindInfo) (record .BuffSRVBindInfo) (record .BuffUAVBindInfo)
        (record .SamplerBindInfo) [] = .ok (allEntries sizeof M) ∧
    (allEntries sizeof M).length =
      M.GetNumCBs sizeof + M.GetNumTexSRVs sizeof + M.GetNumTexUAVs sizeof +
        M.GetNumBufSRVs sizeof + M.GetNumBufUAVs sizeof + M.GetNumSamplers sizeof ∧
    (∀ (H : ResourceCategory → Nat → σ → Bool × σ) (st : σ),
      HandleConstResources sizeof M (H .ConstBuffBindInfo) (H .TexSRVBindInfo)
          (H .TexUAVBindInfo) (H .BuffSRVBindInfo) (H .BuffUAVBindInfo)
          (H .SamplerBindInfo) st =
        .ok (runUntilFalse H (allEntries sizeof M) st).2) ∧
    (∀ ok : HandlerCall → Bool,
      HandleConstResources sizeof M (recordAndAnswer ok .ConstBuffBindInfo)
          (recordAndAnswer ok .TexSRVBindInfo) (recordAndAnswer ok .TexUAVBindInfo)
          (recordAndAnswer ok .BuffSRVBindInfo) (recordAndAnswer ok .BuffUAVBindInfo)
          (recordAndAnswer ok .SamplerBindInfo) [] =
        .ok (throughFirstFalse ok (allEntries sizeof M))) := by
  refine ⟨HandleResources_eq sizeof M, ?_, ?_, HandleConstResources_eq sizeof M, ?_⟩
  · rw [HandleResources_eq sizeof M record [], runAll_record]
    rfl
  · simp only [allEntries, List.length_append, length_entriesOf, GetNumResources]
  · intro ok
    rw [HandleConstResources_eq sizeof M (recordAndAnswer ok) [], runUntilFalse_record]
    rfl

/-- The walks over the block with 2, 1, 0, 1, 0 and 2 entries of 24 bytes: six
calls in the canonical order, and a handler that rejects the texture SRV stops
the read-only walk after three calls. -/
theorem HandleResources_sample_walk :
    HandleResources sampleSizes sampleBlock (record .ConstBuffBindInfo) (record .TexSRVBindInfo)
        (record .TexUAVBindInfo) (record .BuffSRVBindInfo) (record .BuffUAVBindInfo)
        (record .SamplerBindInfo) [] =
      .ok [(.ConstBuffBindInfo, 0), (.ConstBuffBindInfo, 24), (.TexSRVBindInfo, 48),
        (.BuffSRVBindInfo, 72), (.SamplerBindInfo, 96), (.SamplerBindInfo, 120)] ∧
    HandleConstResources sampleSizes sampleBlock
        (recordAndAnswer (fun e => e.1 != .TexSRVBindInfo) .ConstBuffBindInfo)
        (recordAndAnswer (fun e => e.1 != .TexSRVBindInfo) .TexSRVBindInfo)
        (recordAndAnswer (fun e => e.1 != .TexSRVBindInfo) .TexUAVBindInfo)
        (recordAndAnswer (fun e => e.1 != .TexSRVBindInfo) .BuffSRVBindInfo)
        (recordAndAnswer (fun e => e.1 != .TexSRVBindInfo) .BuffUAVBindInfo)
        (recordAndAnswer (fun e => e.1 != .TexSRVBindInfo) .SamplerBindInfo) [] =
      .ok [(.ConstBuffBindInfo, 0), (.ConstBuffBindInfo, 24), (.TexSRVBindInfo, 48)] := by
  constructor <;> rfl

end ShaderVariableManagerD3D11

/-! ## Carries between packed counters -/

namespace D3D11ResourceRangeCounters

theorem counter_lt (C : D3D11ResourceRangeCounters) (s : Nat) : C.counter s < 256 := by
  rw [counter_eq]
  exact Nat.mod_lt _ (by decide)

theorem byte_add_carry (x y : Nat) (h : 255 < x % 2 ^ 8 + y % 2 ^ 8) :
    (x + y) % 2 ^ 8 = (x % 2 ^ 8 + y % 2 ^ 8) % 256 ∧
      (x + y) / 2 ^ 8 % 2 ^ 8 = (x / 2 ^ 8 % 2 ^ 8 + y / 2 ^ 8 % 2 ^ 8 + 1) % 256 := by
  have e : (2 : Nat) ^ 8 = 256 := by decide
  rw [e] at h ⊢
  omega

theorem packedAdd_carry (C1 C2 : D3D11ResourceRangeCounters) (s : Nat) (hs : s < 6)
    (hlow : ∀ t, t < s → C1.counter t + C2.counter t ≤ 255)
    (hov : 255 < C1.counter s + C2.counter s) :
    (C1.packedAdd C2).counter s = (C1.counter s + C2.counter s) % 256 ∧
      (C1.packedAdd C2).counter (s + 1) =
        (C1.counter (s + 1) + C2.counter (s + 1) + 1) % 256 := by
  have hlow' : ∀ t, t < s →
      C1.PackedCounters / 2 ^ (8 * t) % 2 ^ 8 + C2.PackedCounters / 2 ^ (8 * t) % 2 ^ 8 ≤ 255 := by
    intro t ht
    have := hlow t ht
    rwa [counter_eq, counter_eq] at this
  rw [counter_eq, counter_eq] at hov
  simp only [counter_eq]
  unfold packedAdd
  simp only
  rw [mod_word_byte _ s (by omega), mod_word_byte _ (s + 1) (by omega),
    div_pow_succ (C1.PackedCounters + C2.PackedCounters), div_pow_succ C1.PackedCounters,
    div_pow_succ C2.PackedCounters, add_div_of_no_carry _ _ s hlow']
  exact byte_add_carry _ _ hov

/-- C27: the result of `C1 += C2` (the one 64-bit addition of the packed
words) equals the stage-wise sums for all six stages if and only if no
stage-wise sum exceeds 255; when `s` is the lowest stage whose sum exceeds 255,
stage `s` reads `(C1[s] + C2[s]) mod 256` and, for `s < 5`, stage `s + 1` reads
`(C1[s+1] + C2[s+1] + 1) mod 256`: the carry went into the neighbouring
stage. -/
theorem packedAdd_stagewise_iff_no_overflow (C1 C2 : D3D11ResourceRangeCounters) :
    ((∀ s, s < 6 → (C1.packedAdd C2).counter s = C1.counter s + C2.counter s) ↔
      ∀ s, s < 6 → C1.counter s + C2.counter s ≤ 255) ∧
    (∀ s, s < 6 → (∀ t, t < s → C1.counter t + C2.counter t ≤ 255) →
      255 < C1.counter s + C2.counter s →
      (C1.packedAdd C2).counter s = (C1.counter s + C2.counter s) % 256 ∧
      (s < 5 → (C1.packedAdd C2).counter (s + 1) =
        (C1.counter (s + 1) + C2.counter (s + 1) + 1) % 256)) := by
  refine ⟨⟨?_, fun h s hs => packedAdd_counter C1 C2 h s hs⟩, ?_⟩
  · intro h s hs
    have h1 := h s hs
    have h2 := counter_lt (C1.packedAdd C2) s
    omega
  · intro s hs hlow hov
    exact ⟨(packedAdd_carry C1 C2 s hs hlow hov).1, fun _ => (packedAdd_carry C1 C2 s hs hlow hov).2⟩

/-- An overflow in stage 1: with counters (1, 200, 3, 0, 0, 0) and
(2, 100, 4, 0, 0, 0), stage 0 reads 3, stage 1 reads 300 mod 256 = 44 and stage
2 reads 3 + 4 + 1 = 8; the checked `operator+=` reports the sum. -/
theorem packedAdd_overflow_example :
    counter { PackedCounters := 0x03C801 } 1 = 200 ∧
      counter { PackedCounters := 0x046402 } 1 = 100 ∧
      (packedAdd { PackedCounters := 0x03C801 } { PackedCounters := 0x046402 }).counter 0 = 3 ∧
      (packedAdd { PackedCounters := 0x03C801 } { PackedCounters := 0x046402 }).counter 1 = 44 ∧
      (packedAdd { PackedCounters := 0x03C801 } { PackedCounters := 0x046402 }).counter 2 = 8 ∧
      operator_plus_assign { PackedCounters := 0x03C801 } { PackedCounters := 0x046402 } =
        .error .CounterSumOutOfRange := by
  refine ⟨by decide, by decide, by decide, by decide, by decide, rfl⟩

end D3D11ResourceRangeCounters

/-! ## Hashes and compatibility of the attribute records -/

theorem bindPoints_hash_congr (HashCombine : Nat → Nat → Nat) (R1 R2 : D3D11ResourceBindPoints)
    (h : R1.operator_eq R2 = true) : R1.GetHash HashCombine = R2.GetHash HashCombine := by
  have hB : R1.Bindings = R2.Bindings :=
    funext ((D3D11ResourceBindPoints.operator_eq_iff R1 R2).1 h)
  unfold D3D11ResourceBindPoints.GetHash
  rw [hB]

theorem D3D11_compatible_iff (a b : PipelineResourceAttribsD3D11) :
    a.IsCompatibleWith b = true ↔
      a.IsImmutableSamplerAssigned = b.IsImmutableSamplerAssigned ∧
        ∀ i : Fin 6, a.BindPoints.Bindings i = b.BindPoints.Bindings i := by
  unfold PipelineResourceAttribsD3D11.IsCompatibleWith
  rw [Bool.and_eq_true, beq_iff_eq, D3D11ResourceBindPoints.operator_eq_iff]

theorem Vk_compatible_iff (a b : PipelineResourceAttribsVk) :
    a.IsCompatibleWith b = true ↔
      (a.BindingIndex = b.BindingIndex ∧ a.ArraySize = b.ArraySize ∧
        a.DescrType = b.DescrType ∧ a.DescrSet = b.DescrSet ∧
        a.ImtblSamplerAssigned = b.ImtblSamplerAssigned) := by
  unfold PipelineResourceAttribsVk.IsCompatibleWith
  simp only [Bool.and_eq_true, beq_iff_eq, and_assoc]

/-- C28: for both attribute record types the hash is consistent with
compatibility: `a.IsCompatibleWith(b)` implies `a.GetHash() == b.GetHash()`;
`GetHash` does not depend on the assigned-sampler index nor, for the Vulkan
record, on the SRB and static cache offsets; and `IsCompatibleWith` is
reflexive, symmetric and transitive. -/
theorem GetHash_respects_IsCompatibleWith (ComputeHashD3D11 : Bool → Nat → Nat)
    (HashCombine : Nat → Nat → Nat) (ComputeHashVk : Nat → Nat → Nat → Nat → Nat → Nat) :
    (∀ a b : PipelineResourceAttribsD3D11, a.IsCompatibleWith b = true →
      a.GetHash ComputeHashD3D11 HashCombine = b.GetHash ComputeHashD3D11 HashCombine) ∧
    (∀ a b : PipelineResourceAttribsVk, a.IsCompatibleWith b = true →
      a.GetHash ComputeHashVk = b.GetHash ComputeHashVk) ∧
    (∀ (a : PipelineResourceAttribsD3D11) (s : Nat),
      PipelineResourceAttribsD3D11.GetHash ComputeHashD3D11 HashCombine { a with SamplerInd := s } =
        a.GetHash ComputeHashD3D11 HashCombine) ∧
    (∀ (a : PipelineResourceAttribsVk) (s o c : Nat),
      PipelineResourceAttribsVk.GetHash ComputeHashVk
          { a with SamplerInd := s, SRBCacheOffset := o, StaticCacheOffset := c } =
        a.GetHash ComputeHashVk) ∧
    ((∀ a : PipelineResourceAttribsD3D11, a.IsCompatibleWith a = true) ∧
      (∀ a b : PipelineResourceAttribsD3D11,
        a.IsCompatibleWith b = true → b.IsCompatibleWith a = true) ∧
      (∀ a b c : PipelineResourceAttribsD3D11, a.IsCompatibleWith b = true →
        b.IsCompatibleWith c = true → a.IsCompatibleWith c = true)) ∧
    ((∀ a : PipelineResourceAttribsVk, a.IsCompatibleWith a = true) ∧
      (∀ a b : PipelineResourceAttribsVk,
        a.IsCompatibleWith b = true → b.IsCompatibleWith a = true) ∧
      (∀ a b c : PipelineResourceAttribsVk, a.IsCompatibleWith b = true →
        b.IsCompatibleWith c = true → a.IsCompatibleWith c = true)) := by
  refine ⟨?_, ?_, fun _ _ => rfl, fun _ _ _ _ => rfl, ⟨?_, ?_, ?_⟩, ⟨?_, ?_, ?_⟩⟩
  · intro a b h
    have h' := h
    unfold PipelineResourceAttribsD3D11.IsCompatibleWith at h'
    rw [Bool.and_eq_true, beq_iff_eq] at h'
    unfold PipelineResourceAttribsD3D11.GetHash
    rw [h'.1, bindPoints_hash_congr HashCombine _ _ h'.2]
  · intro a b h
    obtain ⟨h1, h2, h3, h4, h5⟩ := (Vk_compatible_iff a b).1 h
    unfold PipelineResourceAttribsVk.GetHash
    rw [h1, h2, h3, h4, h5]
  · intro a
    exact (D3D11_compatible_iff a a).2 ⟨rfl, fun _ => rfl⟩
  · intro a b h
    obtain ⟨h1, h2⟩ := (D3D11_compatible_iff a b).1 h
    exact (D3D11_compatible_iff b a).2 ⟨h1.symm, fun i => (h2 i).symm⟩
  · intro a b c hab hbc
    obtain ⟨h1, h2⟩ := (D3D11_compatible_iff a b).1 hab
    obtain ⟨h3, h4⟩ := (D3D11_compatible_iff b c).1 hbc
    exact (D3D11_compatible_iff a c).2 ⟨h1.trans h3, fun i => (h2 i).trans (h4 i)⟩
  · intro a
    exact (Vk_compatible_iff a a).2 ⟨rfl, rfl, rfl, rfl, rfl⟩
  · intro a b h
    obtain ⟨h1, h2, h3, h4, h5⟩ := (Vk_compatible_iff a b).1 h
    exact (Vk_compatible_iff b a).2 ⟨h1.symm, h2.symm, h3.symm, h4.symm, h5.symm⟩
  · intro a b c hab hbc
    obtain ⟨h1, h2, h3, h4, h5⟩ := (Vk_compatible_iff a b).1 hab
    obtain ⟨g1, g2, g3, g4, g5⟩ := (Vk_compatible_iff b c).1 hbc
    exact (Vk_compatible_iff a c).2
      ⟨h1.trans g1, h2.trans g2, h3.trans g3, h4.trans g4, h5.trans g5⟩

/-- Two compatible D3D11 records with different sampler indices, and two
compatible Vulkan records that differ in the sampler index and the cache
offsets. -/
theorem IsCompatibleWith_examples :
    PipelineResourceAttribsD3D11.IsCompatibleWith
        { SamplerInd := 3, ImtblSamplerAssigned := 1, BindPoints := D3D11ResourceBindPoints.sample }
        { SamplerInd := 7, ImtblSamplerAssigned := 1, BindPoints := D3D11ResourceBindPoints.sample }
      = true ∧
    PipelineResourceAttribsVk.IsCompatibleWith
        { BindingIndex := 2, SamplerInd := 3, ArraySize := 1, DescrType := 7, DescrSet := 0,
          ImtblSamplerAssigned := 0, SRBCacheOffset := 16, StaticCacheOffset := 0 }
        { BindingIndex := 2, SamplerInd := 65535, ArraySize := 1, DescrType := 7, DescrSet := 0,
          ImtblSamplerAssigned := 0, SRBCacheOffset := 48, StaticCacheOffset := 8 }
      = true := by
  constructor <;> decide

/-! ## Sampler assignment -/

theorem ok_of_guard {α : Type} {c : Prop} [Decidable c] {f : Fault} {x : Except Fault α} {a : α}
    (h : (if c then Except.error f else x) = Except.ok a) : ¬ c ∧ x = Except.ok a := by
  by_cases hc : c
  · rw [if_pos hc] at h
    exact Except.noConfusion h
  · rw [if_neg hc] at h
    exact ⟨hc, h⟩

theorem Vk_construct_SamplerInd (b s n t d : Nat) (flag : Bool) (o c : Nat)
    (a : PipelineResourceAttribsVk)
    (h : PipelineResourceAttribsVk.construct b s n t d flag o c = .ok a) : a.SamplerInd = s := by
  unfold PipelineResourceAttribsVk.construct at h
  simp only at h
  obtain ⟨_, h⟩ := ok_of_guard h
  obtain ⟨_, h⟩ := ok_of_guard h
  obtain ⟨h3, h⟩ := ok_of_guard h
  obtain ⟨_, h⟩ := ok_of_guard h
  obtain ⟨_, h⟩ := ok_of_guard h
  injection h with h
  subst h
  exact not_not.1 h3

/-- C30: for every sampler index `s` below 2^31 the D3D11 constructor makes a
record whose `IsSamplerAssigned()` is true iff `s` differs from
`InvalidSamplerInd` (2^31 - 1); whenever the Vulkan constructor makes a record
from sampler index `s`, which it does for every `s` below 2^16 (with the other
arguments in range), `IsCombinedWithSampler()` is true iff `s` differs from
`InvalidSamplerInd` (2^16 - 1); the records of the default constructors, which
pass sampler index 0, report a sampler as assigned while the immutable-sampler
flag is false and the D3D11 bind points are empty. -/
theorem sampler_assigned_iff_not_sentinel (s : Nat) (hs : s < 2 ^ 31) :
    (∀ (bp : D3D11ResourceBindPoints) (flag : Bool),
      ∃ a, PipelineResourceAttribsD3D11.construct bp s flag = .ok a ∧
        (a.IsSamplerAssigned = true ↔ s ≠ 2 ^ 31 - 1)) ∧
    PipelineResourceAttribsD3D11.InvalidSamplerInd = 2 ^ 31 - 1 ∧
    PipelineResourceAttribsVk.InvalidSamplerInd = 2 ^ 16 - 1 ∧
    (∀ (b n t d : Nat) (flag : Bool) (o c : Nat) (a : PipelineResourceAttribsVk),
      PipelineResourceAttribsVk.construct b s n t d flag o c = .ok a →
        (a.IsCombinedWithSampler = true ↔ s ≠ 2 ^ 16 - 1)) ∧
    (s < 2 ^ 16 → ∀ (flag : Bool) (o c : Nat),
      ∃ a, PipelineResourceAttribsVk.construct 0 s 1 DescriptorType.UniformBuffer 0 flag o c
        = .ok a) ∧
    (∃ a, PipelineResourceAttribsD3D11.construct_default = .ok a ∧
      a.IsSamplerAssigned = true ∧ a.IsImmutableSamplerAssigned = false ∧
      a.BindPoints.IsEmpty = true) ∧
    (∃ a, PipelineResourceAttribsVk.construct_default = .ok a ∧
      a.IsCombinedWithSampler = true ∧ a.IsImmutableSamplerAssigned = false) := by
  have hD : PipelineResourceAttribsD3D11.InvalidSamplerInd = 2 ^ 31 - 1 := by decide
  have hV : PipelineResourceAttribsVk.InvalidSamplerInd = 2 ^ 16 - 1 := by decide
  refine ⟨?_, hD, hV, ?_, ?_, ⟨_, rfl, by decide, by decide, by decide⟩,
    ⟨_, rfl, by decide, by decide⟩⟩
  · intro bp flag
    have hmod : s % 2 ^ PipelineResourceAttribsD3D11._SamplerIndBits = s :=
      Nat.mod_eq_of_lt hs
    refine ⟨{ SamplerInd := s, ImtblSamplerAssigned := if flag then 1 else 0, BindPoints := bp },
      ?_, ?_⟩
    · unfold PipelineResourceAttribsD3D11.construct
      simp only [hmod, if_true]
    · unfold PipelineResourceAttribsD3D11.IsSamplerAssigned
      rw [hD]
      simp
  · intro b n t d flag o c a h
    have hs' := Vk_construct_SamplerInd b s n t d flag o c a h
    unfold PipelineResourceAttribsVk.IsCombinedWithSampler
    rw [hV, hs']
    simp
  · intro hs16 flag o c
    have hmod : s % 2 ^ PipelineResourceAttribsVk._SamplerIndBits = s :=
      Nat.mod_eq_of_lt hs16
    refine ⟨{ BindingIndex := 0, SamplerInd := s, ArraySize := 1,
              DescrType := DescriptorType.UniformBuffer, DescrSet := 0,
              ImtblSamplerAssigned := if flag then 1 else 0, SRBCacheOffset := o,
              StaticCacheOffset := c }, ?_⟩
    unfold PipelineResourceAttribsVk.construct
    simp only [hmod]
    rw [if_neg (by decide), if_neg (by decide), if_neg (by simp),
      if_neg (by unfold PipelineResourceAttribsVk.GetDescriptorType; simp only; decide),
      if_neg (by decide)]
    rfl

/-- Witness of C30: sampler index 5 is assigned in both records, and the
sentinel 2^31 - 1 of the D3D11 record is not. -/
theorem sampler_assigned_iff_not_sentinel_witness :
    (∃ a, PipelineResourceAttribsD3D11.construct D3D11ResourceBindPoints.default 5 false = .ok a ∧
        (a.IsSamplerAssigned = true ↔ 5 ≠ 2 ^ 31 - 1)) ∧
      (∃ a, PipelineResourceAttribsVk.construct 0 5 1 DescriptorType.UniformBuffer 0 false 0 0
        = .ok a) ∧
      (∃ a, PipelineResourceAttribsD3D11.construct D3D11ResourceBindPoints.default (2 ^ 31 - 1)
          false = .ok a ∧ (a.IsSamplerAssigned = true ↔ 2 ^ 31 - 1 ≠ 2 ^ 31 - 1)) :=
  ⟨(sampler_assigned_iff_not_sentinel 5 (by decide)).1 D3D11ResourceBindPoints.default false,
    (sampler_assigned_iff_not_sentinel 5 (by decide)).2.2.2.2.1 (by decide) false 0 0,
    (sampler_assigned_iff_not_sentinel (2 ^ 31 - 1) (by decide)).1
      D3D11ResourceBindPoints.default false⟩

/-! ## Pending clears -/

namespace PendingClears

theorem colorFlag_eq (i : Nat) (hi : i < 32) : (RT0Flag <<< i) % 2 ^ 32 = 2 ^ i := by
  unfold RT0Flag
  rw [Nat.one_shiftLeft]
  exact Nat.mod_eq_of_lt (Nat.pow_lt_pow_right (by decide) hi)

theorem DepthFlag_eq (M : Nat) (hM : M + 2 ≤ 32) : DepthFlag M = 2 ^ M := by
  unfold DepthFlag
  rw [Nat.one_shiftLeft]
  exact Nat.mod_eq_of_lt (Nat.pow_lt_pow_right (by decide) (by omega))

theorem StencilFlag_eq (M : Nat) (hM : M + 2 ≤ 32) : StencilFlag M = 2 ^ (M + 1) := by
  unfold StencilFlag
  rw [Nat.one_shiftLeft]
  exact Nat.mod_eq_of_lt (Nat.pow_lt_pow_right (by decide) (by omega))

theorem testBit_or_flag (x i j : Nat) :
    ((x ||| 2 ^ i) % 2 ^ 32).testBit j = (decide (j < 32) && (x.testBit j || decide (i = j))) := by
  rw [Nat.testBit_mod_two_pow, Nat.testBit_or, Nat.testBit_two_pow]

theorem pending_after_or (x i j : Nat) (hj : j < 32) :
    (((x ||| 2 ^ i) % 2 ^ 32) &&& 2 ^ j != 0) = (x.testBit j || decide (i = j)) := by
  rw [and_two_pow_ne_zero, testBit_or_flag]
  simp [hj]

theorem or_flag_lt (x i n : Nat) (hx : x < 2 ^ n) (hi : i < n) :
    (x ||| 2 ^ i) % 2 ^ 32 < 2 ^ n :=
  lt_of_le_of_lt (Nat.mod_le _ _)
    (Nat.or_lt_two_pow hx (Nat.pow_lt_pow_right (by decide) hi))

theorem or_lt_of_flag_le (x y n : Nat) (hx : x < 2 ^ n) (hy : y < 2 ^ n) :
    (x ||| y) % 2 ^ 32 < 2 ^ n :=
  lt_of_le_of_lt (Nat.mod_le _ _) (Nat.or_lt_two_pow hx hy)

theorem shift_mod_lt (i n : Nat) (hi : i < n) : (1 <<< i) % 2 ^ 32 < 2 ^ n := by
  rw [Nat.one_shiftLeft]
  exact lt_of_le_of_lt (Nat.mod_le _ _) (Nat.pow_lt_pow_right (by decide) hi)

theorem Flags_lt_of_Reachable {M : Nat} {F : Type} (zero : F) (P : PendingClears M F)
    (h : Reachable zero P) : P.Flags < 2 ^ (M + 2) := by
  induction h with
  | init => exact Nat.two_pow_pos _
  | setColor P Q i c _ hi hQ ih =>
    unfold SetColor at hQ
    by_cases hi32 : i < 32
    · rw [if_pos hi32] at hQ
      injection hQ with hQ
      subst hQ
      exact or_lt_of_flag_le _ _ _ ih (shift_mod_lt i _ (by omega))
    · rw [if_neg hi32] at hQ
      exact Except.noConfusion hQ
  | setDepth P d _ ih => exact or_lt_of_flag_le _ _ _ ih (shift_mod_lt M _ (by omega))
  | setStencil P s _ ih => exact or_lt_of_flag_le _ _ _ ih (shift_mod_lt (M + 1) _ (by omega))
  | resetFlags P _ _ => exact Nat.two_pow_pos _
  | clear P _ _ => exact Nat.two_pow_pos _
  | assign P C d s _ ih => exact ih

theorem ColorPending_eq {M : Nat} {F : Type} (P : PendingClears M F) (j : Nat) (hj : j < 32) :
    P.ColorPending j = .ok (P.Flags.testBit j) := by
  unfold ColorPending
  rw [if_pos hj, colorFlag_eq j hj, and_two_pow_ne_zero]

theorem DepthPending_eq {M : Nat} {F : Type} (P : PendingClears M F) (hM : M + 2 ≤ 32) :
    P.DepthPending = P.Flags.testBit M := by
  unfold DepthPending
  rw [DepthFlag_eq M hM, and_two_pow_ne_zero]

theorem StencilPending_eq {M : Nat} {F : Type} (P : PendingClears M F) (hM : M + 2 ≤ 32) :
    P.StencilPending = P.Flags.testBit (M + 1) := by
  unfold StencilPending
  rw [StencilFlag_eq M hM, and_two_pow_ne_zero]

theorem SetColor_ok {M : Nat} {F : Type} (P : PendingClears M F) (i : Nat) (c : Fin 4 → F)
    (hi : i < 32) :
    P.SetColor i c = .ok { P with
      Colors := fun j k => if j.val = i then c k else P.Colors j k
      Flags := (P.Flags ||| 2 ^ i) % 2 ^ 32 } := by
  unfold SetColor
  rw [if_pos hi, colorFlag_eq i hi]

theorem AnyPending_iff {M : Nat} {F : Type} (zero : F) (P : PendingClears M F)
    (hM : M + 2 ≤ 32) (hR : Reachable zero P) :
    P.AnyPending = true ↔
      (∃ i, i < M ∧ P.ColorPending i = .ok true) ∨ P.DepthPending = true ∨
        P.StencilPending = true := by
  rw [DepthPending_eq P hM, StencilPending_eq P hM]
  unfold AnyPending
  constructor
  · intro h
    have hne : P.Flags ≠ 0 := by simpa using h
    obtain ⟨j, hj⟩ := Nat.ne_zero_implies_bit_true hne
    have hlt : j < M + 2 := by
      by_contra hge
      rw [testBit_false_of_lt_two_pow (Flags_lt_of_Reachable zero P hR) (by omega)] at hj
      exact Bool.noConfusion hj
    rcases (show j < M ∨ j = M ∨ j = M + 1 by omega) with h1 | h1 | h1
    · exact Or.inl ⟨j, h1, by rw [ColorPending_eq P j (by omega), hj]⟩
    · subst h1; exact Or.inr (Or.inl hj)
    · subst h1; exact Or.inr (Or.inr hj)
  · intro h
    have hbit : ∃ j, P.Flags.testBit j = true := by
      rcases h with ⟨i, hi, hc⟩ | h | h
      · rw [ColorPending_eq P i (by omega)] at hc
        injection hc with hc
        exact ⟨i, hc⟩
      · exact ⟨_, h⟩
      · exact ⟨_, h⟩
    obtain ⟨j, hj⟩ := hbit
    have hne : P.Flags ≠ 0 := by
      intro h0
      rw [h0] at hj
      simp at hj
    simpa using hne

/-- C29: in `PendingClears`, for every render-target index `i` below
`MAX_RENDER_TARGETS`, `SetColor(i, c)` makes `ColorPending(i)` true, stores
`c` as the four components of target `i`, and leaves `DepthPending()`,
`StencilPending()`, the depth and stencil values, and `ColorPending(j)` and the
colour of every other target `j` unchanged; `SetDepth` and `SetStencil` change
only their own flag and value; this holds of every state. In every state made
by calls that pass `SetColor` the index of a render target, `AnyPending()` is
true iff some colour, depth or stencil clear is pending; `ResetFlags` makes
`AnyPending()` false and leaves the stored values unchanged. -/
theorem PendingClears_frame {M : Nat} {F : Type} (zero : F) (P : PendingClears M F)
    (hM : M + 2 ≤ 32) :
    (∀ (i : Fin M) (c : Fin 4 → F), ∃ Q, P.SetColor i.val c = .ok Q ∧
      Q.ColorPending i.val = .ok true ∧ Q.Colors i = c ∧
      Q.DepthPending = P.DepthPending ∧ Q.StencilPending = P.StencilPending ∧
      Q.Depth = P.Depth ∧ Q.Stencil = P.Stencil ∧
      ∀ j : Fin M, j ≠ i →
        Q.ColorPending j.val = P.ColorPending j.val ∧ Q.Colors j = P.Colors j) ∧
    (∀ d : F, (P.SetDepth d).DepthPending = true ∧ (P.SetDepth d).Depth = d ∧
      (P.SetDepth d).StencilPending = P.StencilPending ∧
      (P.SetDepth d).Stencil = P.Stencil ∧ (P.SetDepth d).Colors = P.Colors ∧
      ∀ j : Fin M, (P.SetDepth d).ColorPending j.val = P.ColorPending j.val) ∧
    (∀ s : Nat, s < 2 ^ 8 → (P.SetStencil s).StencilPending = true ∧
      (P.SetStencil s).Stencil = s ∧
      (P.SetStencil s).DepthPending = P.DepthPending ∧
      (P.SetStencil s).Depth = P.Depth ∧ (P.SetStencil s).Colors = P.Colors ∧
      ∀ j : Fin M, (P.SetStencil s).ColorPending j.val = P.ColorPending j.val) ∧
    (Reachable zero P → (P.AnyPending = true ↔
      (∃ i, i < M ∧ P.ColorPending i = .ok true) ∨ P.DepthPending = true ∨
        P.StencilPending = true)) ∧
    (P.ResetFlags.AnyPending = false ∧ P.ResetFlags.Colors = P.Colors ∧
      P.ResetFlags.Depth = P.Depth ∧ P.ResetFlags.Stencil = P.Stencil) := by
  refine ⟨?_, ?_, ?_, AnyPending_iff zero P hM, ⟨rfl, rfl, rfl, rfl⟩⟩
  · intro i c
    have hi := i.isLt
    refine ⟨_, SetColor_ok P i.val c (by omega), ?_, ?_, ?_, ?_, rfl, rfl, ?_⟩
    · rw [ColorPending_eq _ _ (by omega)]
      simp only [testBit_or_flag]
      simp
      omega
    · funext k
      simp
    · rw [DepthPending_eq _ hM, DepthPending_eq _ hM]
      simp only [testBit_or_flag]
      have : ¬ (i.val = M) := by omega
      have h32 : M < 32 := by omega
      simp [this, h32]
    · rw [StencilPending_eq _ hM, StencilPending_eq _ hM]
      simp only [testBit_or_flag]
      have : ¬ (i.val = M + 1) := by omega
      have h32 : M + 1 < 32 := by omega
      simp [this, h32]
    · intro j hj
      have hji : ¬ (j.val = i.val) := fun e => hj (Fin.ext e)
      have hij : ¬ (i.val = j.val) := fun e => hj (Fin.ext e.symm)
      have hj32 : j.val < 32 := by
        have := j.isLt
        omega
      refine ⟨?_, ?_⟩
      · rw [ColorPending_eq _ _ hj32, ColorPending_eq _ _ hj32]
        simp only [testBit_or_flag]
        simp [hij, hj32]
      · funext k
        simp [hji]
  · intro d
    have hF : (P.SetDepth d).Flags = (P.Flags ||| 2 ^ M) % 2 ^ 32 := by
      unfold SetDepth
      rw [DepthFlag_eq M hM]
    refine ⟨?_, rfl, ?_, rfl, rfl, ?_⟩
    · rw [DepthPending_eq _ hM, hF, testBit_or_flag]
      have h32 : M < 32 := by omega
      simp [h32]
    · rw [StencilPending_eq _ hM, StencilPending_eq _ hM, hF, testBit_or_flag]
      have h32 : M + 1 < 32 := by omega
      simp [h32]
    · intro j
      have hj := j.isLt
      have hj32 : j.val < 32 := by omega
      have hne : ¬ (M = j.val) := by omega
      rw [ColorPending_eq _ _ hj32, ColorPending_eq _ _ hj32, hF, testBit_or_flag]
      simp [hj32, hne]
  · intro s hs
    have hF : (P.SetStencil s).Flags = (P.Flags ||| 2 ^ (M + 1)) % 2 ^ 32 := by
      unfold SetStencil
      rw [StencilFlag_eq M hM]
    refine ⟨?_, Nat.mod_eq_of_lt hs, ?_, rfl, rfl, ?_⟩
    · rw [StencilPending_eq _ hM, hF, testBit_or_flag]
      have h32 : M + 1 < 32 := by omega
      simp [h32]
    · rw [DepthPending_eq _ hM, DepthPending_eq _ hM, hF, testBit_or_flag]
      have h32 : M < 32 := by omega
      simp [h32]
    · intro j
      have hj := j.isLt
      have hj32 : j.val < 32 := by omega
      have hne : ¬ (M + 1 = j.val) := by omega
      rw [ColorPending_eq _ _ hj32, ColorPending_eq _ _ hj32, hF, testBit_or_flag]
      simp [hj32, hne]

/-- Witness of C29: with eight render targets and a depth clear pending,
`SetColor(2, c)` makes the colour of target 2 pending and keeps the depth clear
pending. -/
theorem PendingClears_frame_witness :
    (∃ Q, samplePending.SetColor 2 (fun _ => 5) = .ok Q ∧ Q.ColorPending 2 = .ok true ∧
        Q.DepthPending = samplePending.DepthPending) ∧
      samplePending.DepthPending = true ∧
      (samplePending.AnyPending = true ↔
        (∃ i, i < 8 ∧ samplePending.ColorPending i = .ok true) ∨
          samplePending.DepthPending = true ∨ samplePending.StencilPending = true) :=
  have h := PendingClears_frame (0 : Int) samplePending (by decide)
  ⟨(h.1 ⟨2, by decide⟩ (fun _ => 5)).imp (fun _ hQ => ⟨hQ.1, hQ.2.1, hQ.2.2.2.1⟩),
    by decide, h.2.2.2.1 (Reachable.setDepth _ _ Reachable.init)⟩

/-- Outside the contract of `SetColor`: with eight render targets,
`SetColor(8, c)` stores no colour and sets the flag that `DepthPending()`
reads, and `SetColor(10, c)` leaves `AnyPending()` true with no colour of a
render target, no depth and no stencil clear pending. -/
theorem SetColor_beyond_targets :
    (∃ Q, (default 8 (0 : Int)).SetColor 8 (fun _ => 5) = .ok Q ∧ Q.DepthPending = true ∧
        Q.Colors = (default 8 (0 : Int)).Colors) ∧
      (∃ Q, (default 8 (0 : Int)).SetColor 10 (fun _ => 5) = .ok Q ∧ Q.AnyPending = true ∧
        Q.DepthPending = false ∧ Q.StencilPending = false ∧
        ∀ i : Fin 8, Q.ColorPending i.val = .ok false) := by
  refine ⟨⟨_, rfl, by decide, ?_⟩, ⟨_, rfl, by decide, by decide, by decide, ?_⟩⟩
  · funext j k
    have := j.isLt
    simp only
    rw [if_neg (by omega)]
  · intro i
    fin_cases i <;> rfl

end PendingClears

end Diligent
